import Mathlib

/-!
# simfs: a shallow embedding of `simfs.c`

The functions of `simfs.c` are translated into Lean functions over an explicit state.
Arrays are lists; an access outside an array, or any other step whose behaviour the C
language leaves undefined, ends the run with a `Fault`.  A `Fault` is not a value the C
function returns: it records that the run left the defined part of the language.
-/

namespace Simfs

/-- Ways in which a run of the C code can leave the defined behaviour of the language. -/
inductive Fault where
  /-- an array element outside the array was read or written -/
  | outOfBounds
  /-- another step with undefined behaviour (null or wild pointer, division by zero) -/
  | undefinedBehaviour
  /-- the loop never ends -/
  | diverges
deriving DecidableEq, Repr

deriving instance DecidableEq for Except

/-! ## Bit vectors (`simfs.c`, lines 40-85)

A bit vector is the list of its bytes (`unsigned char`, so every byte is below 256). -/

/-- The typing condition of an `unsigned char` array. -/
def IsBytes (bitvector : List Nat) : Prop := ∀ b ∈ bitvector, b < 256

instance (bitvector : List Nat) : Decidable (IsBytes bitvector) := by
  unfold IsBytes; infer_instance

/-- Bit `k` of a bit vector: the bit selected by mask `0x80 >> (k mod 8)` in byte `k / 8`. -/
def bitIsSet (bitvector : List Nat) (k : Nat) : Bool :=
  match bitvector[k / 8]? with
  | some b => b &&& (0x80 >>> (k % 8)) != 0
  | none => false

/-- First loop of `simfsFindFreeBlock`: `while (bitvector[i] == 0xFF) i += 1;` with
`i` an `unsigned short`.  The loop state is `i` alone, so a run of 65536 iterations
without exit repeats for ever; `fuel` counts the iterations still allowed. -/
def skipFullBytes (bitvector : List Nat) : Nat → Nat → Except Fault Nat
  | 0, _ => .error .diverges
  | fuel + 1, i =>
    match bitvector[i]? with
    | none => .error .outOfBounds
    | some b => if b = 0xFF then skipFullBytes bitvector fuel ((i + 1) % 65536) else .ok i

/-- Second loop of `simfsFindFreeBlock`:
`while (bitvector[i] & mask) { mask >>= 1; ++j; }` on the byte found by the first loop. -/
def scanBits (byte : Nat) : Nat → Nat → Nat → Except Fault Nat
  | 0, _, _ => .error .diverges
  | fuel + 1, mask, j =>
    if byte &&& mask ≠ 0 then scanBits byte fuel (mask >>> 1) ((j + 1) % 65536) else .ok j

/-- `simfsFindFreeBlock` (lines 40-55).  The result is an `unsigned short`. -/
def simfsFindFreeBlock (bitvector : List Nat) : Except Fault Nat := do
  let i ← skipFullBytes bitvector 65537 0
  match bitvector[i]? with
  | none => .error .outOfBounds
  | some byte =>
    let j ← scanBits byte 9 0x80 0
    pure (((i * 8) + j) % 65536)

/-- `simfsFlipBit` (lines 60-67).  The parameter `bitIndex` is an `unsigned short`: the
argument of the call is converted to it, that is reduced modulo 65536. -/
def simfsFlipBit (bitvector : List Nat) (bitIndex : Nat) : Except Fault (List Nat) :=
  let bitIndex := bitIndex % 65536
  let blockIndex := bitIndex / 8
  let bitShift := bitIndex % 8
  let mask := 0x80
  match bitvector[blockIndex]? with
  | none => .error .outOfBounds
  | some b => .ok (bitvector.set blockIndex ((b ^^^ (mask >>> bitShift)) % 256))

/-- `simfsSetBit` (lines 69-76).  The argument is converted to the `unsigned short`
parameter `bitIndex`, that is reduced modulo 65536. -/
def simfsSetBit (bitvector : List Nat) (bitIndex : Nat) : Except Fault (List Nat) :=
  let bitIndex := bitIndex % 65536
  let blockIndex := bitIndex / 8
  let bitShift := bitIndex % 8
  let mask := 0x80
  match bitvector[blockIndex]? with
  | none => .error .outOfBounds
  | some b => .ok (bitvector.set blockIndex ((b ||| (mask >>> bitShift)) % 256))

/-- `simfsClearBit` (lines 78-85).  `~(mask >> bitShift)` is an `int` with every bit set
except the one of the mask; the conjunction is stored back into an `unsigned char`, which
keeps its low eight bits: `b & (0xFF ^ (mask >> bitShift))`.  The argument is converted
to the `unsigned short` parameter `bitIndex`, that is reduced modulo 65536. -/
def simfsClearBit (bitvector : List Nat) (bitIndex : Nat) : Except Fault (List Nat) :=
  let bitIndex := bitIndex % 65536
  let blockIndex := bitIndex / 8
  let bitShift := bitIndex % 8
  let mask := 0x80
  match bitvector[blockIndex]? with
  | none => .error .outOfBounds
  | some b => .ok (bitvector.set blockIndex ((b &&& (0xFF ^^^ (mask >>> bitShift))) % 256))

/-- The test vector of `test_simfs.c`, line 59. -/
def testBitVector : List Nat := [0xFF, 0xFF, 0xFF, 0xFF, 0xFF, 0xFF]

/-- A bit vector of 8193 bytes: 8192 full bytes, then an empty one.  Its first free bit
is bit 65536, one more than the largest `unsigned short`. -/
def longBitVector : List Nat := List.replicate 8192 0xFF ++ [0]

/-! ## Data model

`simfs.h` is not among the sources.  Its constants are the fields of `Config`; its
structures are rebuilt from the members that `simfs.c` reads and writes. -/

/-- The constants of `simfs.h` that `simfs.c` uses. -/
structure Config where
  SIMFS_NUMBER_OF_BLOCKS : Nat
  SIMFS_BLOCK_SIZE : Nat
  SIMFS_DIRECTORY_SIZE : Nat
  SIMFS_MAX_NUMBER_OF_OPEN_FILES : Nat
  SIMFS_ROOT_NODE_INDEX : Nat
  SIMFS_INITIAL_VALUE_OF_THE_UNIQUE_FILE_IDENTIFIER : Nat
  SIMFS_INVALID_INDEX : Nat
  SIMFS_INVALID_OPEN_FILE_TABLE_INDEX : Int
  SIMFS_INVALID_CONTENT_TYPE : Int
  SIMFS_FOLDER_CONTENT_TYPE : Int
  SIMFS_FILE_CONTENT_TYPE : Int
  SIMFS_INDEX_CONTENT_TYPE : Int
  SIMFS_DATA_CONTENT_TYPE : Int
deriving DecidableEq, Repr

/-- The error codes returned by the operations (`SIMFS_ERROR`). -/
inductive SIMFS_ERROR where
  | SIMFS_NO_ERROR
  | SIMFS_ALLOC_ERROR
  | SIMFS_DUPLICATE_ERROR
  | SIMFS_NOT_FOUND_ERROR
  | SIMFS_NOT_EMPTY_ERROR
  | SIMFS_ACCESS_ERROR
  | SIMFS_WRITE_ERROR
  | SIMFS_READ_ERROR
  | SIMFS_SYSTEM_ERROR
deriving DecidableEq, Repr

/-- `SIMFS_FILE_DESCRIPTOR_TYPE`.  `name` is the C string held by the name array (the
bytes before its first NUL); `type` holds a `SIMFS_CONTENT_TYPE` value. -/
structure FileDescriptor where
  identifier : Nat
  type : Int
  name : List Nat
  accessRights : Nat
  owner : Nat
  size : Nat
  creationTime : Nat
  lastAccessTime : Nat
  lastModificationTime : Nat
  block_ref : Nat
deriving DecidableEq, Repr

/-- The elements `index[0]` .. `index[6]` of the `index` member of a block: the only
ones `simfs.c` touches (six references and the continuation reference). -/
structure Index where
  i0 : Nat
  i1 : Nat
  i2 : Nat
  i3 : Nat
  i4 : Nat
  i5 : Nat
  i6 : Nat
deriving DecidableEq, Repr

/-- The element `index[j]`; the code reads no element beyond `index[6]`. -/
def Index.get (x : Index) : Nat → Nat
  | 0 => x.i0
  | 1 => x.i1
  | 2 => x.i2
  | 3 => x.i3
  | 4 => x.i4
  | 5 => x.i5
  | 6 => x.i6
  | _ => 0

/-- The assignment `index[j] = v`. -/
def Index.set (x : Index) (j v : Nat) : Index :=
  match j with
  | 0 => { x with i0 := v }
  | 1 => { x with i1 := v }
  | 2 => { x with i2 := v }
  | 3 => { x with i3 := v }
  | 4 => { x with i4 := v }
  | 5 => { x with i5 := v }
  | 6 => { x with i6 := v }
  | _ => x

/-- `SIMFS_BLOCK_TYPE`: the type tag and the three members of the `content` union.
The union overlays `fileDescriptor`, `data` and `index` in memory; how their bytes
coincide is fixed by the layout in `simfs.h` and is not modelled: the three members are
kept as separate components, so a write through one member leaves the other two as they
were.  In the program such a write changes the bytes seen through the other members:
`index[j] = i` in `simfsCreateFile` changes the descriptor and the data of the block of
the directory, and the `memcpy` into `data` in `simfsWriteFile` changes the descriptor
and the index of the target block.  What is stated below about a member of a block
after another member of the same block was written (the bytes that `simfsReadFile` finds
in the block of the root, the names that `recursiveHashing` finds through the slots of
the root) is stated of this model; in the program it depends on the layout. -/
structure Block where
  type : Int
  fileDescriptor : FileDescriptor
  data : List Nat
  index : Index
deriving DecidableEq, Repr

/-- The attributes of the superblock. -/
structure Superblock where
  nextUniqueIdentifier : Nat
  rootNodeIndex : Nat
  blockSize : Nat
  numberOfBlocks : Nat
deriving DecidableEq, Repr

/-- `SIMFS_VOLUME`: superblock, on-disk bitmap and block array.  The backing file holds
a copy of this structure (`fwrite` / `fread` of the whole structure). -/
structure Volume where
  superblock : Superblock
  bitvector : List Nat
  block : List Block
deriving DecidableEq, Repr

/-- One slot of the global open-file table (`SIMFS_OPEN_FILE_GLOBAL_TABLE_TYPE`).
`referenceCount` is kept as an integer: its declared type is in `simfs.h`. -/
structure GlobalOpenFile where
  type : Int
  fileDescriptor : Nat
  referenceCount : Int
  accessRights : Nat
  owner : Nat
  size : Nat
  creationTime : Nat
  lastAccessTime : Nat
  lastModificationTime : Nat
deriving DecidableEq, Repr

/-- The fields of a directory entry (`SIMFS_DIR_ENT`) other than `next`. -/
structure DirEnt where
  nodeReference : Nat
  uniqueFileIdentifier : Int
  globalOpenFileTableIndex : Int
deriving DecidableEq, Repr

/-- A conflict resolution list of the directory, as seen from a `SIMFS_DIR_ENT*`:
`null` is `NULL`, `node e next` a node, and `wild` a pointer that was never assigned
(the `next` member of a node that `malloc` returned). -/
inductive Chain where
  | null : Chain
  | node : DirEnt → Chain → Chain
  | wild : Chain
deriving DecidableEq, Repr

/-- A process control block: the members `simfs.c` uses.  `openFileTable` is the
`globalOpenFileTableIndex` of `openFileTable[0]`, the only element the code reads. -/
structure ProcessControlBlock where
  currentWorkingDirectory : Nat
  numberOfOpenFiles : Int
  openFileTable : Int
deriving DecidableEq, Repr

/-- `SIMFS_CONTEXT_TYPE`.  `processControlBlocks` is the list reached from the pointer
through `next`; the empty list is `NULL`. -/
structure Context where
  globalOpenFileTable : List GlobalOpenFile
  directory : List Chain
  bitvector : List Nat
  processControlBlocks : List ProcessControlBlock
deriving DecidableEq, Repr

/-- The two globals `simfsContext` and `simfsVolume`, both pointing to live storage. -/
structure State where
  simfsContext : Context
  simfsVolume : Volume
deriving DecidableEq, Repr

/-- What `struct ffret` carries: `index` is the number of the block whose `index`
member the pointer refers to, `number` the slot. -/
structure ffret where
  index : Nat
  number : Nat
deriving DecidableEq, Repr

/-- Reads an array element; outside the array the run ends. -/
def readAt {α : Type} (xs : List α) (i : Nat) : Except Fault α :=
  match xs[i]? with
  | some x => .ok x
  | none => .error .outOfBounds

/-- Changes an array element in place; outside the array the run ends. -/
def modifyAt {α : Type} (xs : List α) (i : Nat) (f : α → α) : Except Fault (List α) :=
  match xs[i]? with
  | some x => .ok (xs.set i (f x))
  | none => .error .outOfBounds

/-- An `int` used as an array subscript: a negative subscript is outside the array. -/
def readAtInt {α : Type} (xs : List α) (i : Int) : Except Fault α :=
  if i < 0 then .error .outOfBounds else readAt xs i.toNat

/-- Changes the element at an `int` subscript. -/
def modifyAtInt {α : Type} (xs : List α) (i : Int) (f : α → α) : Except Fault (List α) :=
  if i < 0 then .error .outOfBounds else modifyAt xs i.toNat f

/-! ## `hash` and the directory (`simfs.c`, lines 26-35 and 194-230) -/

/-- The loop of `hash`: `hash = ((hash << 5) + hash) ^ c` for each byte of the string,
in `unsigned long` arithmetic (taken as 64 bits). -/
def hashLoop (hash : Nat) : List Nat → Nat
  | [] => hash
  | c :: str => hashLoop ((((hash <<< 5) % 2 ^ 64 + hash) % 2 ^ 64) ^^^ c) str

/-- `hash` (lines 26-35); `str` holds the bytes before the terminating NUL. -/
def hash (cfg : Config) (str : List Nat) : Nat :=
  hashLoop 5381 str % cfg.SIMFS_DIRECTORY_SIZE

/-- The walk `while (hashed->next != NULL) hashed = hashed->next;` of `findEmptyHash`
from a node that is not `NULL`, followed by `hashed->next = malloc(..)` and
`hashed->next = NULL` on the new node, whose other members keep what the allocation
held (`fresh`). -/
def Chain.attach : Chain → DirEnt → Except Fault Chain
  | .node d .null, fresh => .ok (.node d (.node fresh .null))
  | .node d next, fresh => do
    let rest ← Chain.attach next fresh
    pure (.node d rest)
  | .wild, _ => .error .undefinedBehaviour
  | .null, _ => .error .undefinedBehaviour

/-- An assignment through the pointer that `findEmptyHash` returned: the pointer refers
to the last node of the list. -/
def Chain.updateLast (f : DirEnt → DirEnt) : Chain → Chain
  | .node d .null => .node (f d) .null
  | .node d next => .node d (Chain.updateLast f next)
  | .null => .null
  | .wild => .wild

/-- The number of nodes of a conflict resolution list. -/
def Chain.size : Chain → Nat
  | .null => 0
  | .node _ next => Chain.size next + 1
  | .wild => 0

/-- `findEmptyHash` (lines 194-213).  The result is the new directory together with the
bucket whose last node is the node returned.  `SIMFS_INDEX_TYPE` is taken to be the
`unsigned short` in which `simfsFindFreeBlock` returns a block index. -/
def findEmptyHash (cfg : Config) (fileName : List Nat) (fresh : DirEnt) (ctx : Context) :
    Except Fault (Context × Nat) := do
  let index := hash cfg fileName % 65536
  let hashed ← readAt ctx.directory index
  match hashed with
  | .null =>
    let e : DirEnt :=
      { nodeReference := cfg.SIMFS_INVALID_INDEX
        globalOpenFileTableIndex := -1
        uniqueFileIdentifier := -1 }
    pure ({ ctx with directory := ctx.directory.set index (.node e .null) }, index)
  | _ =>
    let list ← Chain.attach hashed fresh
    pure ({ ctx with directory := ctx.directory.set index list }, index)

/-- The `for` loop of `recursiveHashing` (lines 218-221) from slot `i` on; `count` is the
number of nodes allocated so far and `fresh n` what the `n`-th allocation held. -/
def hashSlots (cfg : Config) (vol : Volume) (fresh : Nat → DirEnt) (index : Index) :
    Nat → Nat → Context × Nat → Except Fault (Context × Nat)
  | 0, _, acc => .ok acc
  | todo + 1, i, (ctx, count) => do
    let b ← readAt vol.block (index.get i)
    if b.type ≠ cfg.SIMFS_INVALID_CONTENT_TYPE then
      let (ctx', _) ← findEmptyHash cfg b.fileDescriptor.name (fresh count) ctx
      hashSlots cfg vol fresh index todo (i + 1) (ctx', count + 1)
    else
      hashSlots cfg vol fresh index todo (i + 1) (ctx, count)

/-- `recursiveHashing` (lines 215-230); `node` is the block whose `index` member the
pointer refers to.  The volume does not change, so a walk through more nodes than there
are blocks has entered a cycle. -/
def recursiveHashing (cfg : Config) (vol : Volume) (fresh : Nat → DirEnt) :
    Nat → Nat → Context × Nat → Except Fault (Context × Nat)
  | 0, _, _ => .error .diverges
  | fuel + 1, node, acc => do
    let b ← readAt vol.block node
    let acc' ← hashSlots cfg vol fresh b.index 6 0 acc
    if b.index.get 6 = 0 then
      pure acc'
    else
      let next ← readAt vol.block (b.index.get 6)
      if next.type = cfg.SIMFS_INVALID_CONTENT_TYPE then
        pure acc'
      else
        recursiveHashing cfg vol fresh fuel (b.index.get 6) acc'

/-! ## Creating and mounting the volume (`simfs.c`, lines 90-260) -/

/-- `memset(p, 0, n)` on an array of bytes. -/
def memsetZero (xs : List Nat) (n : Nat) : Except Fault (List Nat) :=
  if n ≤ xs.length then .ok (List.replicate n 0 ++ xs.drop n) else .error .outOfBounds

/-- `memcpy(dst, src, n)` between two arrays. -/
def memcpy {α : Type} (dst src : List α) (n : Nat) : Except Fault (List α) :=
  if n ≤ dst.length ∧ n ≤ src.length then .ok (src.take n ++ dst.drop n)
  else .error .outOfBounds

/-- The loop of lines 103-104: `globalOpenFileTable[i].type = SIMFS_INVALID_CONTENT_TYPE`
for the first `n` slots. -/
def invalidateSlots (cfg : Config) :
    Nat → List GlobalOpenFile → Except Fault (List GlobalOpenFile)
  | 0, table => .ok table
  | n + 1, table => do
    let table' ← invalidateSlots cfg n table
    modifyAt table' n (fun e => { e with type := cfg.SIMFS_INVALID_CONTENT_TYPE })

/-- The loop of lines 106-107: `directory[i] = NULL` for the first `n` buckets. -/
def clearDirectory : Nat → List Chain → Except Fault (List Chain)
  | 0, directory => .ok directory
  | n + 1, directory => do
    let directory' ← clearDirectory n directory
    modifyAt directory' n (fun _ => Chain.null)

/-- `simfsCreateFileSystem` (lines 90-177).  `fopenOk` tells whether the backing file
could be opened; `rawContext` and `rawVolume` are what the two `malloc` calls return
(`none` for `NULL`, otherwise the storage with whatever it held, of the sizes declared
in `simfs.h`); `umask0` is the value `umask(00000)` returns and `time` the seconds read
from the clock.  The result is the error code and, when both globals point to live
storage, the state; the file written holds a copy of `simfsVolume`.  The identifier
counter is an `unsigned long long` (64 bits). -/
def simfsCreateFileSystem (cfg : Config) (fopenOk : Bool) (rawContext : Option Context)
    (rawVolume : Option Volume) (umask0 time : Nat) :
    Except Fault (SIMFS_ERROR × Option State) :=
  if ¬ fopenOk then .ok (.SIMFS_ALLOC_ERROR, none) else
  match rawContext with
  | none => .ok (.SIMFS_ALLOC_ERROR, none)
  | some ctx0 => do
    let table ← invalidateSlots cfg cfg.SIMFS_MAX_NUMBER_OF_OPEN_FILES ctx0.globalOpenFileTable
    let directory ← clearDirectory cfg.SIMFS_DIRECTORY_SIZE ctx0.directory
    let cbits ← memsetZero ctx0.bitvector (cfg.SIMFS_NUMBER_OF_BLOCKS / 8)
    let ctx : Context :=
      { globalOpenFileTable := table
        directory := directory
        bitvector := cbits
        processControlBlocks := [] }
    match rawVolume with
    | none => .ok (.SIMFS_ALLOC_ERROR, none)
    | some vol0 =>
      let identifier := cfg.SIMFS_INITIAL_VALUE_OF_THE_UNIQUE_FILE_IDENTIFIER
      let superblock : Superblock :=
        { nextUniqueIdentifier := (identifier + 1) % 2 ^ 64
          rootNodeIndex := cfg.SIMFS_ROOT_NODE_INDEX
          blockSize := cfg.SIMFS_BLOCK_SIZE
          numberOfBlocks := cfg.SIMFS_NUMBER_OF_BLOCKS }
      let vbits ← memsetZero vol0.bitvector (cfg.SIMFS_NUMBER_OF_BLOCKS / 8)
      let blocks ← modifyAt vol0.block 0 (fun b =>
        { b with
          type := cfg.SIMFS_FOLDER_CONTENT_TYPE
          fileDescriptor :=
            { b.fileDescriptor with
              identifier := identifier
              type := cfg.SIMFS_FOLDER_CONTENT_TYPE
              name := [47]
              accessRights := umask0
              owner := 0
              size := 0
              creationTime := time
              lastAccessTime := time
              lastModificationTime := time
              block_ref := 1 } })
      let blocks ← modifyAt blocks 1 (fun b => { b with type := cfg.SIMFS_INDEX_CONTENT_TYPE })
      let first ← simfsFindFreeBlock vbits
      let vbits ← simfsFlipBit vbits first
      let second ← simfsFindFreeBlock vbits
      let vbits ← simfsFlipBit vbits second
      let vol : Volume := { superblock := superblock, bitvector := vbits, block := blocks }
      pure (.SIMFS_NO_ERROR, some { simfsContext := ctx, simfsVolume := vol })

/-- `simfsMountFileSystem` (lines 232-260).  `simfsContext` is the global (`none` for
`NULL`), `mallocOk` tells whether the volume could be allocated, `file` is the volume
image held by the backing file (`none` when it cannot be opened), `rawPCB` what the
allocation of the process control block held and `fresh n` what the `n`-th directory
node allocated held. -/
def simfsMountFileSystem (cfg : Config) (simfsFileName : List Nat) (mallocOk : Bool)
    (file : Option Volume) (rawPCB : ProcessControlBlock) (fresh : Nat → DirEnt)
    (simfsContext : Option Context) : Except Fault (SIMFS_ERROR × Option State) :=
  match simfsContext with
  | none => .ok (.SIMFS_ALLOC_ERROR, none)
  | some ctx0 =>
    if ¬ mallocOk then .ok (.SIMFS_ALLOC_ERROR, none) else
    match file with
    | none => .ok (.SIMFS_ALLOC_ERROR, none)
    | some vol0 => do
      let cwd := vol0.superblock.rootNodeIndex
      let pcb : ProcessControlBlock := { rawPCB with currentWorkingDirectory := cwd }
      let ctx1 : Context := { ctx0 with processControlBlocks := [pcb] }
      let (ctx2, bucket) ← findEmptyHash cfg simfsFileName (fresh 0) ctx1
      let identifier := vol0.superblock.nextUniqueIdentifier
      let vol : Volume :=
        { vol0 with superblock :=
            { vol0.superblock with nextUniqueIdentifier := (identifier + 1) % 2 ^ 64 } }
      let list ← readAt ctx2.directory bucket
      let list' := Chain.updateLast
        (fun e => { e with uniqueFileIdentifier := identifier, nodeReference := cwd }) list
      let bits ← memcpy ctx2.bitvector vol.bitvector 512
      let ctx3 : Context :=
        { ctx2 with directory := ctx2.directory.set bucket list', bitvector := bits }
      let (ctx4, _) ← recursiveHashing cfg vol fresh (vol.block.length + 1) cwd (ctx3, 1)
      pure (.SIMFS_NO_ERROR, some { simfsContext := ctx4, simfsVolume := vol })

/-! ## Name resolution, create and delete (`simfs.c`, lines 309-441) -/

/-- The `for` loop of `findFile` (lines 333-343) over the slots `j .. 5` of one index
array.  The block a slot refers to is read only when the slot is not 0. -/
def findSlot (cfg : Config) (vol : Volume) (fileName : List Nat) (index : Index) :
    Nat → Nat → Except Fault (Option Nat)
  | 0, _ => .ok none
  | todo + 1, j =>
    if index.get j ≠ 0 then do
      let b ← readAt vol.block (index.get j)
      if (b.type = cfg.SIMFS_FOLDER_CONTENT_TYPE ∨ b.type = cfg.SIMFS_FILE_CONTENT_TYPE)
          ∧ b.fileDescriptor.name = fileName then
        pure (some j)
      else
        findSlot cfg vol fileName index todo (j + 1)
    else
      findSlot cfg vol fileName index todo (j + 1)

/-- The `while` loop of `findFile` (lines 332-349) from the block `node`, whose `index`
member the pointer refers to.  The volume does not change, so a walk through more nodes
than there are blocks has entered a cycle. -/
def findFileFrom (cfg : Config) (vol : Volume) (fileName : List Nat) :
    Nat → Nat → Except Fault (Option ffret)
  | 0, _ => .error .diverges
  | fuel + 1, node => do
    let b ← readAt vol.block node
    match ← findSlot cfg vol fileName b.index 6 0 with
    | some j => pure (some { index := node, number := j })
    | none =>
      if b.index.get 6 ≠ 0 then findFileFrom cfg vol fileName fuel (b.index.get 6)
      else pure none

/-- `findFile` (lines 330-351).  The walk starts at the `index` member of the block
`currentWorkingDirectory` itself.  `none` is the `NULL` result.  The result structure is
allocated with `malloc(sizeof(ret))`, the size of a pointer; the allocation is taken to
hold the structure. -/
def findFile (cfg : Config) (s : State) (fileName : List Nat) :
    Except Fault (Option ffret) :=
  match s.simfsContext.processControlBlocks with
  | [] => .error .undefinedBehaviour
  | pcb :: _ =>
    findFileFrom cfg s.simfsVolume fileName (s.simfsVolume.block.length + 1)
      pcb.currentWorkingDirectory

/-- The `for` loop of `findEndOfIndex` (lines 311-315).  The parameter `index` is a
`SIMFS_INDEX_TYPE**`, so `*index[j]` is `*(index[j])`: element 0 of the array that the
`j`-th pointer of `cells` refers to.  `cells` lists the pointer objects found at
`index`.  The result tells whether the function returned from inside the loop. -/
def findEndOfIndexScan (vol : Volume) (cells : List Nat) : Nat → Nat → Except Fault Bool
  | 0, _ => .ok false
  | todo + 1, j =>
    match cells[j]? with
    | none => .error .undefinedBehaviour
    | some p => do
      let b ← readAt vol.block p
      if b.index.get 0 = 0 then pure true
      else findEndOfIndexScan vol cells todo (j + 1)

/-- `findEndOfIndex` (lines 309-323), called as `findEndOfIndex(&index)` with `index` a
local pointer of `simfsCreateFile`: a single pointer object, so `index[0]` is the only
element.  When the loop ends without returning, line 316 reads `index[6]`. -/
def findEndOfIndex (vol : Volume) (index : Nat) : Except Fault (Nat × Volume) := do
  let returned ← findEndOfIndexScan vol [index] 6 0
  if returned then pure (index, vol) else .error .undefinedBehaviour

/-- The `for` loop of `simfsCreateFile` (lines 367-368): the first slot `j < 6` with
`index[j] == 0`. -/
def firstEmptySlot (index : Index) : Nat → Nat → Option Nat
  | 0, _ => none
  | todo + 1, j => if index.get j = 0 then some j else firstEmptySlot index todo (j + 1)

/-- `simfsCreateFile` (lines 354-385).  `fresh` is what the directory node allocated by
`findEmptyHash` held. -/
def simfsCreateFile (cfg : Config) (fileName : List Nat) (type : Int) (fresh : DirEnt)
    (s : State) : Except Fault (SIMFS_ERROR × State) := do
  match ← findFile cfg s fileName with
  | some _ => pure (.SIMFS_DUPLICATE_ERROR, s)
  | none =>
    match s.simfsContext.processControlBlocks with
    | [] => .error .undefinedBehaviour
    | pcb :: _ =>
      let i ← simfsFindFreeBlock s.simfsVolume.bitvector
      let bits ← simfsFlipBit s.simfsVolume.bitvector i
      let vol1 : Volume := { s.simfsVolume with bitvector := bits }
      let (index, vol2) ← findEndOfIndex vol1 pcb.currentWorkingDirectory
      let node ← readAt vol2.block index
      match firstEmptySlot node.index 6 0 with
      | none => pure (.SIMFS_WRITE_ERROR, { s with simfsVolume := vol2 })
      | some j =>
        let blocks ← modifyAt vol2.block index (fun b => { b with index := b.index.set j i })
        let slot0 ← readAt s.simfsContext.globalOpenFileTable 0
        let blocks ← modifyAt blocks i (fun b =>
          { b with
            type := cfg.SIMFS_FILE_CONTENT_TYPE
            fileDescriptor :=
              { b.fileDescriptor with
                type := type
                name := fileName
                accessRights := slot0.accessRights
                identifier := vol2.superblock.nextUniqueIdentifier } })
        let (ctx, bucket) ← findEmptyHash cfg fileName fresh s.simfsContext
        let created ← readAt blocks i
        let list ← readAt ctx.directory bucket
        let list' := Chain.updateLast
          (fun e =>
            { e with
              uniqueFileIdentifier := created.fileDescriptor.identifier
              nodeReference := created.fileDescriptor.block_ref }) list
        pure (.SIMFS_NO_ERROR,
          { simfsContext := { ctx with directory := ctx.directory.set bucket list' }
            simfsVolume := { vol2 with block := blocks } })

/-- The loop of `simfsDeleteFile` (lines 423-427): is some `index[i]`, `i < 7`, not 0? -/
def someSlotUsed (index : Index) : Nat → Nat → Bool
  | 0, _ => false
  | todo + 1, i => if index.get i ≠ 0 then true else someSlotUsed index todo (i + 1)

/-- `simfsDeleteFile` (lines 409-441). -/
def simfsDeleteFile (cfg : Config) (fileName : List Nat) (s : State) :
    Except Fault (SIMFS_ERROR × State) := do
  match ← findFile cfg s fileName with
  | none => pure (.SIMFS_NOT_FOUND_ERROR, s)
  | some indexPoint =>
    let node ← readAt s.simfsVolume.block indexPoint.index
    let index2 := node.index.get indexPoint.number
    let descriptor ← readAt s.simfsVolume.block index2
    let index := descriptor.fileDescriptor.block_ref
    let block ← readAt s.simfsVolume.block index
    if block.type = cfg.SIMFS_INDEX_CONTENT_TYPE then
      if someSlotUsed block.index 7 0 then
        pure (.SIMFS_NOT_EMPTY_ERROR, s)
      else
        let vbits ← simfsFlipBit s.simfsVolume.bitvector index
        let cbits ← simfsFlipBit s.simfsContext.bitvector index
        pure (.SIMFS_NO_ERROR,
          { simfsContext := { s.simfsContext with bitvector := cbits }
            simfsVolume := { s.simfsVolume with bitvector := vbits } })
    else if block.type = cfg.SIMFS_FILE_CONTENT_TYPE
        ∨ block.type = cfg.SIMFS_FOLDER_CONTENT_TYPE then
      let vbits ← simfsFlipBit s.simfsVolume.bitvector block.fileDescriptor.block_ref
      let cbits ← simfsFlipBit s.simfsContext.bitvector block.fileDescriptor.block_ref
      let vbits ← simfsFlipBit vbits index
      let cbits ← simfsFlipBit cbits index
      let blocks ← modifyAt s.simfsVolume.block index2
        (fun b => { b with type := cfg.SIMFS_INVALID_CONTENT_TYPE })
      pure (.SIMFS_NO_ERROR,
        { simfsContext := { s.simfsContext with bitvector := cbits }
          simfsVolume := { s.simfsVolume with bitvector := vbits, block := blocks } })
    else
      pure (.SIMFS_NO_ERROR, s)

/-! ## Open, write, read and close (`simfs.c`, lines 521-704) -/

/-- `findEmptyInFileTable` (lines 521-528), from slot `i` on. -/
def findEmptyInFileTable (cfg : Config) (table : List GlobalOpenFile) :
    Nat → Nat → Except Fault Int
  | 0, _ => .ok (-1)
  | todo + 1, i => do
    let e ← readAt table i
    if e.type = cfg.SIMFS_INVALID_CONTENT_TYPE then pure (i : Int)
    else findEmptyInFileTable cfg table todo (i + 1)

/-- `setGOFTV` (lines 530-543). -/
def setGOFTV (s : State) (fileIndex : Int) (fileDescriptorType : Nat) :
    Except Fault State := do
  let file ← readAt s.simfsVolume.block fileDescriptorType
  let table ← modifyAtInt s.simfsContext.globalOpenFileTable fileIndex (fun _ =>
    { type := file.type
      fileDescriptor := fileDescriptorType
      referenceCount := 1
      accessRights := file.fileDescriptor.accessRights
      creationTime := file.fileDescriptor.creationTime
      lastAccessTime := file.fileDescriptor.lastAccessTime
      lastModificationTime := file.fileDescriptor.lastModificationTime
      owner := file.fileDescriptor.owner
      size := file.fileDescriptor.size })
  pure { s with simfsContext := { s.simfsContext with globalOpenFileTable := table } }

/-- The test of line 567 on the bucket `directory[..]`: the index of the global table
slot when the bucket is not `NULL` and its first node carries an index other than
`SIMFS_INVALID_OPEN_FILE_TABLE_INDEX`. -/
def cachedSlot (cfg : Config) : Chain → Except Fault (Option Int)
  | .null => .ok none
  | .wild => .error .undefinedBehaviour
  | .node e _ =>
    if e.globalOpenFileTableIndex ≠ cfg.SIMFS_INVALID_OPEN_FILE_TABLE_INDEX then
      .ok (some e.globalOpenFileTableIndex)
    else .ok none

/-- `simfsOpenFile` (lines 559-592).  `fileHandle` is the value of `*fileHandle` before
the call, and the third component of the result its value after the call.  `rawNode`
and `rawPCB` are what the storage returned by the two `malloc` calls held.  The bucket
of the directory is selected by the block number of the descriptor. -/
def simfsOpenFile (cfg : Config) (fileName : List Nat) (fileHandle : Int)
    (rawNode : DirEnt) (rawPCB : ProcessControlBlock) (s : State) :
    Except Fault (SIMFS_ERROR × State × Int) := do
  match ← findFile cfg s fileName with
  | none => pure (.SIMFS_NOT_FOUND_ERROR, s, fileHandle)
  | some hashLocation =>
    let node ← readAt s.simfsVolume.block hashLocation.index
    let d := node.index.get hashLocation.number
    let entry ← readAt s.simfsContext.directory d
    match ← cachedSlot cfg entry with
    | some slot =>
      let table ← modifyAtInt s.simfsContext.globalOpenFileTable slot
        (fun e => { e with referenceCount := e.referenceCount + 1 })
      match s.simfsContext.processControlBlocks with
      | [] => .error .undefinedBehaviour
      | pcb :: rest =>
        let pcbs :=
          if pcb.openFileTable = cfg.SIMFS_INVALID_OPEN_FILE_TABLE_INDEX then
            { pcb with openFileTable := slot, numberOfOpenFiles := 1 } :: rest
          else
            { rawPCB with numberOfOpenFiles := rawPCB.numberOfOpenFiles + 1 } :: pcb :: rest
        pure (.SIMFS_DUPLICATE_ERROR,
          { s with simfsContext :=
              { s.simfsContext with globalOpenFileTable := table, processControlBlocks := pcbs } },
          slot)
    | none =>
      let fileIndex ← findEmptyInFileTable cfg s.simfsContext.globalOpenFileTable
        cfg.SIMFS_MAX_NUMBER_OF_OPEN_FILES 0
      if fileIndex = -1 then
        pure (.SIMFS_ALLOC_ERROR, s, fileHandle)
      else
        let s1 ← setGOFTV s fileIndex d
        let directory := s1.simfsContext.directory.set d
          (.node { rawNode with globalOpenFileTableIndex := fileIndex } .wild)
        pure (.SIMFS_NO_ERROR,
          { s1 with simfsContext := { s1.simfsContext with directory := directory } },
          fileIndex)

/-- Lines 634-638 of `simfsWriteFile`: when the content reference of the local copy
`file` is `SIMFS_INVALID_INDEX`, a free block is looked up and its bit flipped in both
bitmaps.  The result is the content reference of the local copy and the two bitmaps. -/
def acquireBlock (cfg : Config) (s : State) (file : Block) :
    Except Fault (Nat × List Nat × List Nat) :=
  if file.fileDescriptor.block_ref = cfg.SIMFS_INVALID_INDEX then do
    let found ← simfsFindFreeBlock s.simfsVolume.bitvector
    let vbits ← simfsFlipBit s.simfsVolume.bitvector found
    let cbits ← simfsFlipBit s.simfsContext.bitvector found
    pure (found, vbits, cbits)
  else
    pure (file.fileDescriptor.block_ref, s.simfsVolume.bitvector, s.simfsContext.bitvector)

/-- `simfsWriteFile` (lines 625-642).  `writeBuffer` lists the bytes that can be read
at the pointer: the string, its terminating NUL and what follows in the same object.
The block reference obtained at line 635 is stored in the local copy `file` only. -/
def simfsWriteFile (cfg : Config) (fileHandle : Int) (writeBuffer : List Nat) (s : State) :
    Except Fault (SIMFS_ERROR × State) := do
  let slot ← readAtInt s.simfsContext.globalOpenFileTable fileHandle
  let fileDescriptor := slot.fileDescriptor
  if fileDescriptor = cfg.SIMFS_INVALID_INDEX then
    pure (.SIMFS_NOT_FOUND_ERROR, s)
  else
    let file ← readAt s.simfsVolume.block fileDescriptor
    if file.type = cfg.SIMFS_INVALID_CONTENT_TYPE then
      pure (.SIMFS_NOT_FOUND_ERROR, s)
    else
      let acquired ← acquireBlock cfg s file
      let target ← readAt s.simfsVolume.block acquired.1
      let data ← memcpy target.data writeBuffer 14
      let blocks := s.simfsVolume.block.set acquired.1 { target with data := data }
      pure (.SIMFS_NO_ERROR,
        { simfsContext := { s.simfsContext with bitvector := acquired.2.2 }
          simfsVolume := { s.simfsVolume with bitvector := acquired.2.1, block := blocks } })

/-- `simfsReadFile` (lines 664-675).  `*readBuffer` is made to point to the `data`
member of a block of the volume; the second component of the result is the content of
that array (`none` when `*readBuffer` is not assigned). -/
def simfsReadFile (cfg : Config) (fileHandle : Int) (s : State) :
    Except Fault (SIMFS_ERROR × Option (List Nat)) := do
  let slot ← readAtInt s.simfsContext.globalOpenFileTable fileHandle
  let fileDescriptor := slot.fileDescriptor
  if fileDescriptor = cfg.SIMFS_INVALID_INDEX then
    pure (.SIMFS_NOT_FOUND_ERROR, none)
  else
    let file ← readAt s.simfsVolume.block fileDescriptor
    if file.type = cfg.SIMFS_INVALID_CONTENT_TYPE then
      pure (.SIMFS_NOT_FOUND_ERROR, none)
    else
      let target ← readAt s.simfsVolume.block file.fileDescriptor.block_ref
      pure (.SIMFS_NO_ERROR, some target.data)

/-- The C string held by an array of bytes: the bytes before the first NUL. -/
def cString (bytes : List Nat) : List Nat := bytes.takeWhile (fun c => c != 0)

/-- `simfsCloseFile` (lines 691-704). -/
def simfsCloseFile (cfg : Config) (fileHandle : Int) (s : State) :
    Except Fault (SIMFS_ERROR × State) := do
  let file ← readAtInt s.simfsContext.globalOpenFileTable fileHandle
  let count := file.referenceCount - 1
  if count = 0 then
    let entry ← readAt s.simfsContext.directory file.fileDescriptor
    match entry with
    | .node e next =>
      let directory := s.simfsContext.directory.set file.fileDescriptor
        (.node { e with
          globalOpenFileTableIndex := cfg.SIMFS_INVALID_OPEN_FILE_TABLE_INDEX } next)
      let table ← modifyAtInt s.simfsContext.globalOpenFileTable fileHandle (fun f =>
        { f with
          referenceCount := count
          type := cfg.SIMFS_INVALID_OPEN_FILE_TABLE_INDEX
          fileDescriptor := cfg.SIMFS_INVALID_INDEX })
      pure (.SIMFS_NO_ERROR,
        { s with simfsContext :=
            { s.simfsContext with globalOpenFileTable := table, directory := directory } })
    | _ => .error .undefinedBehaviour
  else
    let table ← modifyAtInt s.simfsContext.globalOpenFileTable fileHandle
      (fun f => { f with referenceCount := count })
    pure (.SIMFS_NO_ERROR,
      { s with simfsContext := { s.simfsContext with globalOpenFileTable := table } })

/-! ## A sample run

A configuration with 4096 blocks (a bitmap of 512 bytes, the number of bytes that
`simfsMountFileSystem` copies), zero-filled allocations, and the calls of
`test_simfs.c`. -/

/-- A sample configuration: `SIMFS_INVALID_INDEX` is 0, the value the code compares empty
index slots with; the content types are numbered in the order invalid, folder, file,
index, data. -/
def sampleConfig : Config :=
  { SIMFS_NUMBER_OF_BLOCKS := 4096
    SIMFS_BLOCK_SIZE := 32
    SIMFS_DIRECTORY_SIZE := 64
    SIMFS_MAX_NUMBER_OF_OPEN_FILES := 4
    SIMFS_ROOT_NODE_INDEX := 0
    SIMFS_INITIAL_VALUE_OF_THE_UNIQUE_FILE_IDENTIFIER := 0
    SIMFS_INVALID_INDEX := 0
    SIMFS_INVALID_OPEN_FILE_TABLE_INDEX := -1
    SIMFS_INVALID_CONTENT_TYPE := 0
    SIMFS_FOLDER_CONTENT_TYPE := 1
    SIMFS_FILE_CONTENT_TYPE := 2
    SIMFS_INDEX_CONTENT_TYPE := 3
    SIMFS_DATA_CONTENT_TYPE := 4 }

/-- A zero-filled file descriptor. -/
def zeroDescriptor : FileDescriptor :=
  { identifier := 0, type := 0, name := [], accessRights := 0, owner := 0, size := 0
    creationTime := 0, lastAccessTime := 0, lastModificationTime := 0, block_ref := 0 }

/-- A zero-filled block with a `data` member of 28 bytes. -/
def zeroBlock : Block :=
  { type := 0, fileDescriptor := zeroDescriptor, data := List.replicate 28 0
    index := { i0 := 0, i1 := 0, i2 := 0, i3 := 0, i4 := 0, i5 := 0, i6 := 0 } }

/-- A zero-filled directory node. -/
def zeroDirEnt : DirEnt :=
  { nodeReference := 0, uniqueFileIdentifier := 0, globalOpenFileTableIndex := 0 }

/-- A zero-filled process control block. -/
def zeroPCB : ProcessControlBlock :=
  { currentWorkingDirectory := 0, numberOfOpenFiles := 0, openFileTable := 0 }

/-- A zero-filled slot of the global open-file table. -/
def zeroSlot : GlobalOpenFile :=
  { type := 0, fileDescriptor := 0, referenceCount := 0, accessRights := 0, owner := 0
    size := 0, creationTime := 0, lastAccessTime := 0, lastModificationTime := 0 }

/-- Zero-filled storage for the context. -/
def zeroContext : Context :=
  { globalOpenFileTable := List.replicate 4 zeroSlot
    directory := List.replicate 64 Chain.null
    bitvector := List.replicate 512 0
    processControlBlocks := [] }

/-- Zero-filled storage for the volume. -/
def zeroVolume : Volume :=
  { superblock := { nextUniqueIdentifier := 0, rootNodeIndex := 0, blockSize := 0,
                    numberOfBlocks := 0 }
    bitvector := List.replicate 512 0
    block := List.replicate 4096 zeroBlock }

/-- The name of the backing file, "simfsFile.dta". -/
def simfsFileName : List Nat := [115, 105, 109, 102, 115, 70, 105, 108, 101, 46, 100, 116, 97]

/-- The file name "a". -/
def nameA : List Nat := [97]

/-- The state carried by the result of an operation (zero-filled storage when the run
did not end with a result). -/
def stateOf (r : Except Fault (SIMFS_ERROR × State)) : State :=
  match r with
  | .ok (_, s) => s
  | .error _ => { simfsContext := zeroContext, simfsVolume := zeroVolume }

/-- The error code carried by the result of an operation (`none` when the run did not
end with a result). -/
def codeOf {α : Type} (r : Except Fault (SIMFS_ERROR × α)) : Option SIMFS_ERROR :=
  match r with
  | .ok (e, _) => some e
  | .error _ => none

/-- The state carried by the result of `simfsCreateFileSystem` or
`simfsMountFileSystem` (zero-filled storage when there is none). -/
def stateOfSome (r : Except Fault (SIMFS_ERROR × Option State)) : State :=
  match r with
  | .ok (_, some s) => s
  | _ => { simfsContext := zeroContext, simfsVolume := zeroVolume }

/-- Did the run end with `SIMFS_NO_ERROR` and a state? -/
def succeeded (r : Except Fault (SIMFS_ERROR × Option State)) : Bool :=
  match r with
  | .ok (.SIMFS_NO_ERROR, some _) => true
  | _ => false

/-- The state and the handle carried by the result of `simfsOpenFile`. -/
def openedOf (r : Except Fault (SIMFS_ERROR × State × Int)) : State × Int :=
  match r with
  | .ok (_, s, h) => (s, h)
  | .error _ => ({ simfsContext := zeroContext, simfsVolume := zeroVolume }, -1)

/-- `simfsCreateFileSystem` on zero-filled storage (`test_simfs.c`, line 12). -/
def createdState (cfg : Config) : Except Fault (SIMFS_ERROR × Option State) :=
  simfsCreateFileSystem cfg true (some zeroContext) (some zeroVolume) 0 0

/-- The state of the sample run after `simfsCreateFileSystem`. -/
def created (cfg : Config) : State := stateOfSome (createdState cfg)

/-- `simfsMountFileSystem` on the file just written (`test_simfs.c`, line 15). -/
def mountedState (cfg : Config) : Except Fault (SIMFS_ERROR × Option State) :=
  simfsMountFileSystem cfg simfsFileName true (some (created cfg).simfsVolume) zeroPCB
    (fun _ => zeroDirEnt) (some (created cfg).simfsContext)

/-- The mounted state of the sample run. -/
def mounted (cfg : Config) : State := stateOfSome (mountedState cfg)

/-- The sample run after `simfsCreateFile("a", SIMFS_FILE_CONTENT_TYPE)`. -/
def withA (cfg : Config) : State :=
  stateOf (simfsCreateFile cfg nameA cfg.SIMFS_FILE_CONTENT_TYPE zeroDirEnt (mounted cfg))

/-- The sample run after the file "a" has been created and then deleted. -/
def afterDelete (cfg : Config) : State := stateOf (simfsDeleteFile cfg nameA (withA cfg))

/-- The result of `simfsOpenFile("a", &h)` in the sample run, `h` holding
`SIMFS_INVALID_OPEN_FILE_TABLE_INDEX` before the call (`test_simfs.c`, lines 26-27). -/
def openA (cfg : Config) : Except Fault (SIMFS_ERROR × State × Int) :=
  simfsOpenFile cfg nameA cfg.SIMFS_INVALID_OPEN_FILE_TABLE_INDEX zeroDirEnt zeroPCB (withA cfg)

/-- The state after the file "a" has been opened. -/
def opened (cfg : Config) : State := (openedOf (openA cfg)).1

/-- The state after the handle 0 has been closed again. -/
def closed (cfg : Config) : State := stateOf (simfsCloseFile cfg 0 (opened cfg))

/-- A string of twenty bytes, "ABCDEFGHIJKLMNOPQRST", with its terminating NUL. -/
def twentyBytes : List Nat :=
  [65, 66, 67, 68, 69, 70, 71, 72, 73, 74, 75, 76, 77, 78, 79, 80, 81, 82, 83, 84, 0]

/-- The string "hello" with its terminating NUL, in a buffer of sixteen bytes. -/
def helloBuffer : List Nat := [104, 101, 108, 108, 111, 0, 0, 0, 0, 0, 0, 0, 0, 0, 0, 0]

/-- The state after `simfsWriteFile(0, buffer)` on the opened file. -/
def written (cfg : Config) (buffer : List Nat) : State :=
  stateOf (simfsWriteFile cfg 0 buffer (opened cfg))

/-- The C string that `simfsReadFile` hands back. -/
def readString (cfg : Config) (fileHandle : Int) (s : State) :
    Except Fault (SIMFS_ERROR × Option (List Nat)) :=
  (simfsReadFile cfg fileHandle s).map (fun r => (r.1, r.2.map cString))

/-- Slot `h` of the global open-file table (a zero-filled slot outside the table). -/
def slotOf (s : State) (h : Nat) : GlobalOpenFile :=
  s.simfsContext.globalOpenFileTable.getD h zeroSlot

/-- Block `b` of the volume (a zero-filled block outside the array). -/
def blockOf (s : State) (b : Nat) : Block := s.simfsVolume.block.getD b zeroBlock

/-- The array that the result of `simfsReadFile` points to (empty when there is
none). -/
def dataOf (r : Except Fault (SIMFS_ERROR × Option (List Nat))) : List Nat :=
  match r with
  | .ok (_, some data) => data
  | _ => []

/-- Did `simfsReadFile` return `SIMFS_NO_ERROR` with a buffer? -/
def readSucceeded (r : Except Fault (SIMFS_ERROR × Option (List Nat))) : Bool :=
  match r with
  | .ok (.SIMFS_NO_ERROR, some _) => true
  | _ => false

/-- The sample configuration with `SIMFS_INVALID_INDEX` set to 65535 instead of 0. -/
def otherConfig : Config := { sampleConfig with SIMFS_INVALID_INDEX := 65535 }

/-! ## `simfsGetFileInfo` (`simfs.c`, lines 451-470) -/

/-- `simfsGetFileInfo` (lines 451-470).  `infoBuffer` is what the caller's buffer holds
before the call; the third component of the result is what it holds after the call.  The
result of `findFile` is used without a test: when it is `NULL`, line 455 reads through a
null pointer.  The function assigns nothing but the buffer, so the state returned is the
state received. -/
def simfsGetFileInfo (cfg : Config) (fileName : List Nat) (infoBuffer : FileDescriptor)
    (s : State) : Except Fault (SIMFS_ERROR × State × FileDescriptor) := do
  match ← findFile cfg s fileName with
  | none => .error .undefinedBehaviour
  | some ff =>
    let node ← readAt s.simfsVolume.block ff.index
    let file ← readAt s.simfsVolume.block (node.index.get ff.number)
    let fileDescriptor := file.fileDescriptor
    pure (.SIMFS_NO_ERROR, s,
      { infoBuffer with
        block_ref := fileDescriptor.block_ref
        type := fileDescriptor.type
        accessRights := fileDescriptor.accessRights
        identifier := fileDescriptor.identifier
        name := fileDescriptor.name
        creationTime := fileDescriptor.creationTime
        lastAccessTime := fileDescriptor.lastAccessTime
        lastModificationTime := fileDescriptor.lastModificationTime
        owner := fileDescriptor.owner
        size := fileDescriptor.size })

/-! ## More sample runs -/

/-- The file name "d". -/
def nameD : List Nat := [100]

/-- The file name "f". -/
def nameF : List Nat := [102]

/-- A volume image in which the root lists a folder "d" (block 2) whose content
reference names the index block 3, and block 3 lists the descriptor of a file "f"
(block 4): the image written by `simfsCreateFileSystem` in the sample run, with these
three blocks filled in and their bits set. -/
def folderImage : Volume :=
  let v := (created sampleConfig).simfsVolume
  { v with
    bitvector := v.bitvector.set 0 0xF8
    block :=
      (((v.block.modify (fun b => { b with index := b.index.set 0 2 }) 0).set 2
        { zeroBlock with
          type := sampleConfig.SIMFS_FOLDER_CONTENT_TYPE
          fileDescriptor :=
            { zeroDescriptor with
              type := sampleConfig.SIMFS_FOLDER_CONTENT_TYPE, name := nameD, identifier := 1
              block_ref := 3 } }).set 3
        { zeroBlock with
          type := sampleConfig.SIMFS_INDEX_CONTENT_TYPE
          index := zeroBlock.index.set 0 4 }).set 4
        { zeroBlock with
          type := sampleConfig.SIMFS_FILE_CONTENT_TYPE
          fileDescriptor :=
            { zeroDescriptor with
              type := sampleConfig.SIMFS_FILE_CONTENT_TYPE, name := nameF, identifier := 2 } } }

/-- The state after `simfsMountFileSystem` on a file that holds `folderImage`. -/
def folderMounted : State :=
  stateOfSome (simfsMountFileSystem sampleConfig simfsFileName true (some folderImage) zeroPCB
    (fun _ => zeroDirEnt) (some (created sampleConfig).simfsContext))

/-- Storage for the volume in which block 2 holds bytes of an earlier use: a descriptor
with size 7 and content reference 9.  Everything else is zero-filled. -/
def staleVolume : Volume :=
  { zeroVolume with
    block := zeroVolume.block.set 2
      { zeroBlock with
        fileDescriptor := { zeroDescriptor with size := 7, block_ref := 9 } } }

/-- The state after `simfsCreateFileSystem` when `malloc` returns `staleVolume`. -/
def staleCreated : State :=
  stateOfSome (simfsCreateFileSystem sampleConfig true (some zeroContext) (some staleVolume) 0 0)

/-- The state after `simfsMountFileSystem` on the file written from `staleCreated`. -/
def staleMounted : State :=
  stateOfSome (simfsMountFileSystem sampleConfig simfsFileName true
    (some staleCreated.simfsVolume) zeroPCB (fun _ => zeroDirEnt)
    (some staleCreated.simfsContext))

/-- The state after `simfsCreateFile("a", SIMFS_FILE_CONTENT_TYPE)` on `staleMounted`. -/
def staleWithA : State :=
  stateOf (simfsCreateFile sampleConfig nameA sampleConfig.SIMFS_FILE_CONTENT_TYPE zeroDirEnt
    staleMounted)

/-- The buffer filled by `simfsGetFileInfo` (the buffer as it was when the run did not
end with a result). -/
def infoOf (infoBuffer : FileDescriptor)
    (r : Except Fault (SIMFS_ERROR × State × FileDescriptor)) : FileDescriptor :=
  match r with
  | .ok (_, _, buffer) => buffer
  | .error _ => infoBuffer

/-- The result of a second `simfsOpenFile("a", &h)` while "a" is open. -/
def openAgain (cfg : Config) : Except Fault (SIMFS_ERROR × State × Int) :=
  simfsOpenFile cfg nameA cfg.SIMFS_INVALID_OPEN_FILE_TABLE_INDEX zeroDirEnt zeroPCB
    (opened cfg)

/-- The state after "a" has been opened twice. -/
def openedTwice (cfg : Config) : State := (openedOf (openAgain cfg)).1

/-- The state after "a" has been opened twice and handle 0 closed once. -/
def closedOnce (cfg : Config) : State := stateOf (simfsCloseFile cfg 0 (openedTwice cfg))

/-- The state after "a" has been opened twice and handle 0 closed twice. -/
def closedTwice (cfg : Config) : State := stateOf (simfsCloseFile cfg 0 (closedOnce cfg))

/-- The value of `hash` in the words of its specification: start from 5381 and, for each
byte `c` of the string in order, replace `h` by `((h << 5) + h) xor c` in `unsigned long`
arithmetic (64 bits); the result is reduced modulo `SIMFS_DIRECTORY_SIZE`. -/
def hashSpec (cfg : Config) (str : List Nat) : Nat :=
  str.foldl (fun h c => (((h <<< 5) + h) ^^^ c) % 2 ^ 64) 5381 % cfg.SIMFS_DIRECTORY_SIZE

/-- The sample run after "a" has been opened and then deleted while open. -/
def deletedWhileOpen (cfg : Config) : State :=
  stateOf (simfsDeleteFile cfg nameA (opened cfg))

/-- The string "world" with its terminating NUL, in a buffer of sixteen bytes. -/
def worldBuffer : List Nat := [119, 111, 114, 108, 100, 0, 0, 0, 0, 0, 0, 0, 0, 0, 0, 0]

/-- A volume image in which the root lists a file "a" (block 2) of size 5 whose content
reference names the data block 3, which holds "hello": the image written by
`simfsCreateFileSystem` in the sample run, with these two blocks filled in and their
bits set. -/
def contentImage : Volume :=
  let v := (created sampleConfig).simfsVolume
  { v with
    bitvector := v.bitvector.set 0 0xF0
    block :=
      ((v.block.modify (fun b => { b with index := b.index.set 0 2 }) 0).set 2
        { zeroBlock with
          type := sampleConfig.SIMFS_FILE_CONTENT_TYPE
          fileDescriptor :=
            { zeroDescriptor with
              type := sampleConfig.SIMFS_FILE_CONTENT_TYPE, name := nameA, identifier := 1
              size := 5, block_ref := 3 } }).set 3
        { zeroBlock with
          type := sampleConfig.SIMFS_DATA_CONTENT_TYPE
          data := helloBuffer ++ List.replicate 12 0 } }

/-- The state after `simfsMountFileSystem` on a file that holds `contentImage`, followed
by `simfsOpenFile("a", &h)`, which yields the handle 0. -/
def contentOpened : State :=
  (openedOf (simfsOpenFile sampleConfig nameA sampleConfig.SIMFS_INVALID_OPEN_FILE_TABLE_INDEX
    zeroDirEnt zeroPCB
    (stateOfSome (simfsMountFileSystem sampleConfig simfsFileName true (some contentImage)
      zeroPCB (fun _ => zeroDirEnt) (some (created sampleConfig).simfsContext))))).1

/-- The number of entries of the directory: the nodes of all conflict resolution
lists. -/
def entries (directory : List Chain) : Nat := (directory.map Chain.size).sum

/-- An index array whose seven elements are all 0. -/
def emptyIndex : Index := { i0 := 0, i1 := 0, i2 := 0, i3 := 0, i4 := 0, i5 := 0, i6 := 0 }

/-- Is `nodes` an index chain of the volume?  In the words of the specification: each
node is linked to the next through its continuation slot (`index[6]`), and the chain
ends at the node whose continuation is 0. -/
def isChain (vol : Volume) : List Nat → Bool
  | [] => false
  | [n] =>
    match vol.block[n]? with
    | some b => b.index.get 6 == 0
    | none => false
  | n :: m :: rest =>
    match vol.block[n]? with
    | some b => b.index.get 6 != 0 && b.index.get 6 == m && isChain vol (m :: rest)
    | none => false

/-- Is slot `j` of `index` non-empty, referring to a file or folder descriptor whose name
is `fileName`? -/
def slotMatches (cfg : Config) (vol : Volume) (fileName : List Nat) (index : Index)
    (j : Nat) : Bool :=
  decide (index.get j ≠ 0) &&
  match vol.block[index.get j]? with
  | some b =>
    decide ((b.type = cfg.SIMFS_FOLDER_CONTENT_TYPE ∨ b.type = cfg.SIMFS_FILE_CONTENT_TYPE)
      ∧ b.fileDescriptor.name = fileName)
  | none => false

/-- The first (node, slot) in chain order whose slot matches `fileName`: the nodes are
taken in the order of the chain and the six slots of a node in ascending order. -/
def firstMatch (cfg : Config) (vol : Volume) (fileName : List Nat) : List Nat → Option ffret
  | [] => none
  | n :: rest =>
    match vol.block[n]? with
    | none => none
    | some b =>
      match (List.range' 0 6).find? (slotMatches cfg vol fileName b.index) with
      | some j => some { index := n, number := j }
      | none => firstMatch cfg vol fileName rest

/-- What the global pointer `simfsContext` refers to: nothing (`NULL`), live storage, or
storage that has been passed to `free`. -/
inductive ContextPointer where
  | null : ContextPointer
  | live : Context → ContextPointer
  | freed : ContextPointer
deriving DecidableEq, Repr

/-- `simfsUmountFileSystem` (lines 268-281).  `fopenOk` tells whether the backing file
could be opened.  The result is the error code, the volume image that the call wrote to
the backing file (`none` when nothing was written), and what the global `simfsContext`
refers to afterwards: line 278 passes it to `free` and nothing resets the pointer, which
keeps its value and is not `NULL`. -/
def simfsUmountFileSystem (fopenOk : Bool) (s : State) :
    SIMFS_ERROR × Option Volume × ContextPointer :=
  if ¬ fopenOk then (.SIMFS_ALLOC_ERROR, none, .live s.simfsContext)
  else (.SIMFS_NO_ERROR, some s.simfsVolume, .freed)

/-- `simfsMountFileSystem` (lines 232-260) for each state of the global `simfsContext`;
for `NULL` and for live storage it is the function above.  A pointer to freed storage is
not `NULL`, so line 235 does not return; the two allocation tests of lines 239 and 243
come next, and line 250 then stores through the pointer. -/
def simfsMountFileSystemAt (cfg : Config) (simfsFileName : List Nat) (mallocOk : Bool)
    (file : Option Volume) (rawPCB : ProcessControlBlock) (fresh : Nat → DirEnt) :
    ContextPointer → Except Fault (SIMFS_ERROR × Option State)
  | .null => simfsMountFileSystem cfg simfsFileName mallocOk file rawPCB fresh none
  | .live ctx => simfsMountFileSystem cfg simfsFileName mallocOk file rawPCB fresh (some ctx)
  | .freed =>
    if ¬ mallocOk then .ok (.SIMFS_ALLOC_ERROR, none) else
    match file with
    | none => .ok (.SIMFS_ALLOC_ERROR, none)
    | some _ => .error .undefinedBehaviour

/-- Storage for a process control block that holds bytes of an earlier use: its
`currentWorkingDirectory` reads 3.  `malloc` does not clear what it returns. -/
def strayPCB : ProcessControlBlock := { zeroPCB with currentWorkingDirectory := 3 }

/-- The result of a second `simfsOpenFile("a", &h)` while "a" is open, the allocation of
line 575 returning `strayPCB`. -/
def openAgainStray (cfg : Config) : Except Fault (SIMFS_ERROR × State × Int) :=
  simfsOpenFile cfg nameA cfg.SIMFS_INVALID_OPEN_FILE_TABLE_INDEX zeroDirEnt strayPCB
    (opened cfg)

/-- The state after "a" has been opened twice, the second time with `strayPCB`. -/
def openedTwiceStray (cfg : Config) : State := (openedOf (openAgainStray cfg)).1

/-- The mounted folder image after the folder "d" has been opened twice, the second time
with `strayPCB`: the head of the list of process control blocks then has block 3, the
index block of "d", as its current working directory. -/
def folderStray : State :=
  (openedOf (simfsOpenFile sampleConfig nameD sampleConfig.SIMFS_INVALID_OPEN_FILE_TABLE_INDEX
    zeroDirEnt strayPCB
    (openedOf (simfsOpenFile sampleConfig nameD
      sampleConfig.SIMFS_INVALID_OPEN_FILE_TABLE_INDEX zeroDirEnt zeroPCB folderMounted)).1)).1

end Simfs

/-! # Theorems -/

namespace Simfs

/-! ## Bytes and masks -/

theorem mask_eq_two_pow {s : Nat} (hs : s < 8) : 0x80 >>> s = 2 ^ (7 - s) := by
  interval_cases s <;> rfl

theorem mask_lt {s : Nat} (hs : s < 8) : 0x80 >>> s < 2 ^ 8 := by
  interval_cases s <;> decide

theorem and_mask (b : Nat) {s : Nat} (hs : s < 8) :
    (b &&& (0x80 >>> s) != 0) = b.testBit (7 - s) := by
  rw [mask_eq_two_pow hs, Nat.and_two_pow]
  cases b.testBit (7 - s) <;> simp

theorem bitIsSet_eq_testBit {bv : List Nat} {k b : Nat} (h : bv[k / 8]? = some b) :
    bitIsSet bv k = b.testBit (7 - k % 8) := by
  unfold bitIsSet
  rw [h]
  exact and_mask b (Nat.mod_lt _ (by decide))

theorem getElem?_of_isBytes {bv : List Nat} (hb : IsBytes bv) {i b : Nat}
    (h : bv[i]? = some b) : b < 256 := by
  obtain ⟨hi, rfl⟩ := List.getElem?_eq_some.mp h
  exact hb _ (List.getElem_mem hi)

theorem testBit_mask {s t : Nat} (hs : s < 8) (ht : t < 8) :
    (0x80 >>> s).testBit (7 - t) = decide (s = t) := by
  rw [mask_eq_two_pow hs, Nat.testBit_two_pow]
  congr 1
  apply propext
  omega

/-- Reading bit `m` after byte `k / 8` has been replaced. -/
theorem bitIsSet_set (bv : List Nat) (k m x b : Nat) (h : bv[k / 8]? = some b) :
    bitIsSet (bv.set (k / 8) x) m =
      if m / 8 = k / 8 then x.testBit (7 - m % 8) else bitIsSet bv m := by
  have hlt : k / 8 < bv.length := (List.getElem?_eq_some.mp h).1
  by_cases hm : m / 8 = k / 8
  · rw [if_pos hm]
    apply bitIsSet_eq_testBit
    rw [hm, List.getElem?_set, if_pos rfl, if_pos hlt]
  · rw [if_neg hm]
    unfold bitIsSet
    rw [List.getElem?_set_ne (Ne.symm hm)]

theorem bitIsSet_set_frame (bv : List Nat) (k x b : Nat) (h : bv[k / 8]? = some b)
    (hx : ∀ t, t < 8 → t ≠ k % 8 → x.testBit (7 - t) = b.testBit (7 - t)) :
    ∀ m, m ≠ k → bitIsSet (bv.set (k / 8) x) m = bitIsSet bv m := by
  intro m hm
  rw [bitIsSet_set bv k m x b h]
  split
  · next h8 =>
    have hmod : m % 8 ≠ k % 8 := by omega
    rw [hx _ (Nat.mod_lt _ (by decide)) hmod]
    exact (bitIsSet_eq_testBit (h8 ▸ h)).symm
  · rfl

theorem testBit_255 {i : Nat} (hi : i < 8) : Nat.testBit 255 i = true := by
  interval_cases i <;> rfl

theorem set_then_clear_byte {b s : Nat} (hb : b < 256) (hs : s < 8)
    (h0 : b.testBit (7 - s) = false) : (b ||| (0x80 >>> s)) &&& (0xFF ^^^ (0x80 >>> s)) = b := by
  apply Nat.eq_of_testBit_eq
  intro i
  rw [mask_eq_two_pow hs]
  simp only [Nat.testBit_and, Nat.testBit_or, Nat.testBit_xor, Nat.testBit_two_pow]
  by_cases hi : 7 - s = i
  · subst hi; simp [h0, testBit_255 (show 7 - s < 8 by omega)]
  · by_cases h8 : i < 8
    · simp [hi, testBit_255 h8]
    · have : b.testBit i = false := by
        apply Nat.testBit_lt_two_pow
        calc b < 2 ^ 8 := hb
          _ ≤ 2 ^ i := Nat.pow_le_pow_right (by decide) (by omega)
      simp [this, hi]

theorem list_set_self {α : Type} (l : List α) (n : Nat) (a : α) (h : l[n]? = some a) :
    l.set n a = l := by
  apply List.ext_getElem?
  intro i
  rw [List.getElem?_set]
  by_cases hi : n = i
  · subst hi
    rw [if_pos rfl, if_pos (List.getElem?_eq_some.mp h).1, h]
  · rw [if_neg hi]

theorem getElem?_some_of_lt {bv : List Nat} {k : Nat} (hk : k < 8 * bv.length) :
    ∃ b, bv[k / 8]? = some b := by
  have : k / 8 < bv.length := by omega
  exact ⟨bv[k / 8], List.getElem?_eq_getElem this⟩

/-! ## C8 -/

/-- C8 (as amended): for every bit vector `bv` and every in-range bit index `k` below
65536, the range of the `unsigned short` parameter, `simfsSetBit` makes bit `k` one,
`simfsClearBit` makes it zero and `simfsFlipBit` complements it; each keeps the length
and every other bit; flipping twice, or setting a clear bit and then clearing it, gives
back `bv`. -/
theorem C8_single_bit_mutation (bv : List Nat) (k : Nat) (hb : IsBytes bv)
    (hk : k < 8 * bv.length) (hk16 : k < 65536) :
    (∃ bv', simfsSetBit bv k = .ok bv' ∧ bv'.length = bv.length ∧ bitIsSet bv' k = true ∧
        ∀ m, m ≠ k → bitIsSet bv' m = bitIsSet bv m) ∧
    (∃ bv', simfsClearBit bv k = .ok bv' ∧ bv'.length = bv.length ∧ bitIsSet bv' k = false ∧
        ∀ m, m ≠ k → bitIsSet bv' m = bitIsSet bv m) ∧
    (∃ bv', simfsFlipBit bv k = .ok bv' ∧ bv'.length = bv.length ∧
        bitIsSet bv' k = !bitIsSet bv k ∧ ∀ m, m ≠ k → bitIsSet bv' m = bitIsSet bv m) ∧
    (simfsFlipBit bv k >>= fun bv' => simfsFlipBit bv' k) = .ok bv ∧
    (bitIsSet bv k = false →
        (simfsSetBit bv k >>= fun bv' => simfsClearBit bv' k) = .ok bv) := by
  obtain ⟨b, hbk⟩ := getElem?_some_of_lt hk
  have hmod : k % 65536 = k := Nat.mod_eq_of_lt hk16
  have hb256 : b < 2 ^ 8 := getElem?_of_isBytes hb hbk
  have hs : k % 8 < 8 := Nat.mod_lt _ (by decide)
  have hm := mask_lt hs
  have hlt : k / 8 < bv.length := (List.getElem?_eq_some.mp hbk).1
  have hget : bv[k / 8] = b := (List.getElem?_eq_some.mp hbk).2
  have hor : (b ||| (0x80 >>> (k % 8))) % 256 = b ||| (0x80 >>> (k % 8)) :=
    Nat.mod_eq_of_lt (Nat.or_lt_two_pow hb256 hm)
  have hxor : (b ^^^ (0x80 >>> (k % 8))) % 256 = b ^^^ (0x80 >>> (k % 8)) :=
    Nat.mod_eq_of_lt (Nat.xor_lt_two_pow hb256 hm)
  have hand : (b &&& (0xFF ^^^ (0x80 >>> (k % 8)))) % 256
      = b &&& (0xFF ^^^ (0x80 >>> (k % 8))) :=
    Nat.mod_eq_of_lt (Nat.and_lt_two_pow _ (Nat.xor_lt_two_pow (by decide) hm))
  refine ⟨?_, ?_, ?_, ?_, ?_⟩
  · refine ⟨bv.set (k / 8) (b ||| (0x80 >>> (k % 8))), ?_, by simp, ?_, ?_⟩
    · simp only [simfsSetBit, hmod, hbk, hor]
    · rw [bitIsSet_set bv k k _ b hbk, if_pos rfl, Nat.testBit_or, testBit_mask hs hs]
      simp
    · apply bitIsSet_set_frame bv k _ b hbk
      intro t ht hne
      rw [Nat.testBit_or, testBit_mask hs ht]
      simp [Ne.symm hne]
  · refine ⟨bv.set (k / 8) (b &&& (0xFF ^^^ (0x80 >>> (k % 8)))), ?_, by simp, ?_, ?_⟩
    · simp only [simfsClearBit, hmod, hbk, hand]
    · rw [bitIsSet_set bv k k _ b hbk, if_pos rfl, Nat.testBit_and, Nat.testBit_xor,
        testBit_mask hs hs, testBit_255 (by omega)]
      simp
    · apply bitIsSet_set_frame bv k _ b hbk
      intro t ht hne
      rw [Nat.testBit_and, Nat.testBit_xor, testBit_mask hs ht, testBit_255 (by omega)]
      simp [Ne.symm hne]
  · refine ⟨bv.set (k / 8) (b ^^^ (0x80 >>> (k % 8))), ?_, by simp, ?_, ?_⟩
    · simp only [simfsFlipBit, hmod, hbk, hxor]
    · rw [bitIsSet_set bv k k _ b hbk, if_pos rfl, Nat.testBit_xor, testBit_mask hs hs,
        bitIsSet_eq_testBit hbk]
      simp
    · apply bitIsSet_set_frame bv k _ b hbk
      intro t ht hne
      rw [Nat.testBit_xor, testBit_mask hs ht]
      simp [Ne.symm hne]
  · have h1 : simfsFlipBit bv k = .ok (bv.set (k / 8) (b ^^^ (0x80 >>> (k % 8)))) := by
      simp only [simfsFlipBit, hmod, hbk, hxor]
    have h2 : (bv.set (k / 8) (b ^^^ (0x80 >>> (k % 8))))[k / 8]?
        = some (b ^^^ (0x80 >>> (k % 8))) := by
      rw [List.getElem?_set, if_pos rfl, if_pos hlt]
    rw [h1]
    show simfsFlipBit _ k = _
    simp only [simfsFlipBit, hmod, h2, List.set_set, Nat.xor_cancel_right]
    rw [Nat.mod_eq_of_lt (show b < 256 from hb256), list_set_self bv _ b hbk]
  · intro h0
    have h0' : b.testBit (7 - k % 8) = false := by rw [← bitIsSet_eq_testBit hbk]; exact h0
    have h1 : simfsSetBit bv k = .ok (bv.set (k / 8) (b ||| (0x80 >>> (k % 8)))) := by
      simp only [simfsSetBit, hmod, hbk, hor]
    have h2 : (bv.set (k / 8) (b ||| (0x80 >>> (k % 8))))[k / 8]?
        = some (b ||| (0x80 >>> (k % 8))) := by
      rw [List.getElem?_set, if_pos rfl, if_pos hlt]
    rw [h1]
    show simfsClearBit _ k = _
    simp only [simfsClearBit, hmod, h2, List.set_set, set_then_clear_byte hb256 hs h0']
    rw [Nat.mod_eq_of_lt (show b < 256 from hb256), list_set_self bv _ b hbk]

/-- Witness of C8 on the six-byte test vector, bit 33. -/
theorem C8_single_bit_mutation_witness :
    IsBytes testBitVector ∧ 33 < 8 * testBitVector.length ∧
    (simfsFlipBit testBitVector 33 >>= fun bv' => simfsFlipBit bv' 33) = .ok testBitVector :=
  ⟨by decide, by decide,
    (C8_single_bit_mutation testBitVector 33 (by decide) (by decide) (by decide)).2.2.2.1⟩

/-! ## C6, C7: the search for a free block -/

theorem skipFullBytes_reach (bv : List Nat) (p b : Nat) (hp : p < 65536)
    (hfull : ∀ m, m < p → bv[m]? = some 0xFF) (hb : bv[p]? = some b) (hne : b ≠ 0xFF) :
    ∀ fuel i, i ≤ p → p - i < fuel → skipFullBytes bv fuel i = .ok p := by
  intro fuel
  induction fuel with
  | zero => intro i _ h; omega
  | succ n ih =>
    intro i hi hf
    unfold skipFullBytes
    by_cases h : i = p
    · subst h
      simp [hb, hne]
    · have hlt : i < p := by omega
      rw [hfull i hlt]
      simp only [if_true]
      rw [Nat.mod_eq_of_lt (by omega)]
      exact ih (i + 1) (by omega) (by omega)

theorem skipFullBytes_overrun (bv : List Nat) (hlen : bv.length < 65536)
    (hfull : ∀ m, m < bv.length → bv[m]? = some 0xFF) :
    ∀ fuel i, i ≤ bv.length → bv.length - i < fuel →
      skipFullBytes bv fuel i = .error .outOfBounds := by
  intro fuel
  induction fuel with
  | zero => intro i _ h; omega
  | succ n ih =>
    intro i hi hf
    unfold skipFullBytes
    by_cases h : i = bv.length
    · subst h
      simp
    · have hlt : i < bv.length := by omega
      rw [hfull i hlt]
      simp only [if_true]
      rw [Nat.mod_eq_of_lt (by omega)]
      exact ih (i + 1) (by omega) (by omega)

set_option maxRecDepth 100000 in
theorem scanBits_spec : ∀ b < 256, b ≠ 255 →
    ∃ j < 8, scanBits b 9 0x80 0 = .ok j ∧ (b &&& (0x80 >>> j) != 0) = false ∧
      ∀ t < j, (b &&& (0x80 >>> t) != 0) = true := by
  decide

/-- C6 (as amended): for every bit vector with a clear bit at an index below 65536, the
range of the `unsigned short` result, `simfsFindFreeBlock` returns an index `k` whose bit
is clear while every bit below `k` is set; and on the test vector (six 0xFF bytes with
bit 44 flipped) it returns 44, then 33 once bit 33 is cleared, then 44 again once bit 33
is set. -/
theorem C6_findFreeBlock_first_free (bv : List Nat) (n : Nat) (hb : IsBytes bv)
    (hn : n < 8 * bv.length) (h16 : n < 65536) (h0 : bitIsSet bv n = false) :
    (∃ k, simfsFindFreeBlock bv = .ok k ∧ k ≤ n ∧ bitIsSet bv k = false ∧
        ∀ m, m < k → bitIsSet bv m = true) ∧
    (simfsFlipBit testBitVector 44 >>= simfsFindFreeBlock) = .ok 44 ∧
    (simfsFlipBit testBitVector 44 >>= fun v => simfsClearBit v 33 >>= simfsFindFreeBlock)
      = .ok 33 ∧
    (simfsFlipBit testBitVector 44 >>= fun v => simfsClearBit v 33 >>= fun v =>
      simfsSetBit v 33 >>= simfsFindFreeBlock) = .ok 44 := by
  refine ⟨?_, by decide, by decide, by decide⟩
  classical
  -- the first byte that is not full
  have hex : ∃ p : Nat, ∃ b : Nat, bv[p]? = some b ∧ b ≠ 0xFF := by
    obtain ⟨b, hbn⟩ := getElem?_some_of_lt hn
    refine ⟨n / 8, b, hbn, ?_⟩
    rintro rfl
    rw [bitIsSet_eq_testBit hbn, testBit_255 (by omega)] at h0
    exact Bool.noConfusion h0
  obtain ⟨b, hpb, hne⟩ := Nat.find_spec hex
  have hmin : ∀ m, m < Nat.find hex → bv[m]? = some 0xFF := by
    intro m hm
    have hlt : Nat.find hex < bv.length := (List.getElem?_eq_some.mp hpb).1
    have hmlt : m < bv.length := by omega
    have := Nat.find_min hex hm
    rw [List.getElem?_eq_getElem hmlt]
    by_contra hc
    exact this ⟨bv[m], List.getElem?_eq_getElem hmlt, fun h => hc (by rw [h])⟩
  have hple : Nat.find hex ≤ n / 8 := by
    apply Nat.find_min'
    obtain ⟨b', hbn⟩ := getElem?_some_of_lt hn
    refine ⟨b', hbn, ?_⟩
    rintro rfl
    rw [bitIsSet_eq_testBit hbn, testBit_255 (by omega)] at h0
    exact Bool.noConfusion h0
  generalize Nat.find hex = p at hpb hmin hple
  have hb256 : b < 256 := getElem?_of_isBytes hb hpb
  obtain ⟨j, hj8, hscan, hclear, hset⟩ := scanBits_spec b hb256 hne
  have hskip := skipFullBytes_reach bv p b (by omega) hmin hpb hne 65537 0 (by omega) (by omega)
  have hdiv : (p * 8 + j) / 8 = p := by omega
  have hmod : (p * 8 + j) % 8 = j := by omega
  have hbit : ∀ m, m / 8 = p → bitIsSet bv m = (b &&& (0x80 >>> (m % 8)) != 0) := by
    intro m hm
    unfold bitIsSet
    rw [hm, hpb]
  refine ⟨p * 8 + j, ?_, ?_, ?_, ?_⟩
  · simp only [simfsFindFreeBlock, hskip, hpb, hscan, bind, Except.bind, pure, Except.pure]
    rw [Nat.mod_eq_of_lt (by omega)]
  · by_contra hlt
    have hlt : n < p * 8 + j := by omega
    have hn8 : n / 8 = p := by omega
    have h1 := hbit n hn8
    rw [hset (n % 8) (by omega)] at h1
    rw [h1] at h0
    exact Bool.noConfusion h0
  · rw [hbit _ hdiv, hmod, hclear]
  · intro m hm
    by_cases hmp : m / 8 = p
    · rw [hbit m hmp]
      exact hset _ (by omega)
    · have hm8 : m / 8 < p := by omega
      rw [bitIsSet_eq_testBit (hmin _ hm8)]
      exact testBit_255 (by omega)

/-- Witness of C6 on the test vector with bit 44 flipped. -/
theorem C6_findFreeBlock_first_free_witness :
    ∃ k, simfsFindFreeBlock [0xFF, 0xFF, 0xFF, 0xFF, 0xFF, 0xF7] = .ok k ∧ k ≤ 44 ∧
      bitIsSet [0xFF, 0xFF, 0xFF, 0xFF, 0xFF, 0xF7] k = false ∧
      ∀ m, m < k → bitIsSet [0xFF, 0xFF, 0xFF, 0xFF, 0xFF, 0xF7] m = true :=
  (C6_findFreeBlock_first_free [0xFF, 0xFF, 0xFF, 0xFF, 0xFF, 0xF7] 44
    (by decide) (by decide) (by decide) (by decide)).1

theorem longBitVector_getElem?_lt {m : Nat} (hm : m < 8192) :
    longBitVector[m]? = some 0xFF := by
  unfold longBitVector
  rw [List.getElem?_append_left (by rw [List.length_replicate]; exact hm),
    List.getElem?_replicate_of_lt hm]

theorem longBitVector_getElem?_last : longBitVector[8192]? = some 0 := by
  unfold longBitVector
  rw [List.getElem?_append_right (by rw [List.length_replicate]), List.length_replicate]
  rfl

theorem simfsFindFreeBlock_eq (bv : List Nat) (p b j : Nat)
    (hskip : skipFullBytes bv 65537 0 = .ok p) (hb : bv[p]? = some b)
    (hscan : scanBits b 9 0x80 0 = .ok j) :
    simfsFindFreeBlock bv = .ok ((p * 8 + j) % 65536) := by
  simp only [simfsFindFreeBlock, hskip, hb, hscan, bind, Except.bind, pure, Except.pure]

/-- C6 (as stated) fails on a bit vector of 8193 bytes whose only clear bits are those of
the last byte: bit 65536 is clear, yet the index computed, 8192 * 8 + 0, is returned as
the `unsigned short` 0, and bit 0 is set. -/
theorem C6_counterexample_long_vector :
    IsBytes longBitVector ∧ 65536 < 8 * longBitVector.length ∧
    bitIsSet longBitVector 65536 = false ∧
    simfsFindFreeBlock longBitVector = .ok 0 ∧ bitIsSet longBitVector 0 = true := by
  refine ⟨?_, ?_, ?_, ?_, ?_⟩
  · intro b hbm
    unfold longBitVector at hbm
    rw [List.mem_append, List.mem_replicate, List.mem_singleton] at hbm
    omega
  · rw [longBitVector, List.length_append, List.length_replicate]
    decide
  · have h : longBitVector[65536 / 8]? = some 0 := longBitVector_getElem?_last
    rw [bitIsSet_eq_testBit h]
    rfl
  · have hskip := skipFullBytes_reach longBitVector 8192 0 (by decide)
      (fun m hm => longBitVector_getElem?_lt hm) longBitVector_getElem?_last (by decide)
      65537 0 (by decide) (by decide)
    have hscan : scanBits 0 9 0x80 0 = .ok 0 := by decide
    exact simfsFindFreeBlock_eq longBitVector 8192 0 0 hskip longBitVector_getElem?_last
      hscan
  · have h : longBitVector[0 / 8]? = some 0xFF := longBitVector_getElem?_lt (by decide)
    rw [bitIsSet_eq_testBit h]
    rfl

/-- C7 (what the code does): on a bit vector of fewer than 65536 bytes that are all
0xFF, the first loop of `simfsFindFreeBlock` leaves the array: it reads the element just
past the last byte.  The function has no bound to compare with and no value that reports
a full volume. -/
theorem C7_full_bitmap_overrun (bv : List Nat) (hlen : bv.length < 65536)
    (hfull : ∀ b ∈ bv, b = 0xFF) : simfsFindFreeBlock bv = .error .outOfBounds := by
  have h := skipFullBytes_overrun bv hlen (fun m hm => by
    rw [List.getElem?_eq_getElem hm, hfull _ (List.getElem_mem hm)]) 65537 0
    (by omega) (by omega)
  simp only [simfsFindFreeBlock, h, bind, Except.bind]

/-- Witness of C7 on the six full bytes of the test vector. -/
theorem C7_full_bitmap_overrun_witness :
    simfsFindFreeBlock testBitVector = .error .outOfBounds :=
  C7_full_bitmap_overrun testBitVector (by decide) (by decide)

/-! ## C8: an index beyond the range of `unsigned short` -/

theorem setBit_wide (bv : List Nat) (b : Nat) (h : bv[0]? = some b) :
    simfsSetBit bv 65536 = .ok (bv.set 0 ((b ||| 0x80) % 256)) := by
  simp [simfsSetBit, h]

theorem flipBit_wide (bv : List Nat) (b : Nat) (h : bv[0]? = some b) :
    simfsFlipBit bv 65536 = .ok (bv.set 0 ((b ^^^ 0x80) % 256)) := by
  simp [simfsFlipBit, h]

/-- C8 (as stated) fails on the bit vector of 8193 bytes at the in-range index 65536,
which reaches the `unsigned short` parameter as 0: `simfsSetBit` leaves bit 65536 clear,
and `simfsFlipBit` leaves bit 65536 as it was and complements bit 0. -/
theorem C8_counterexample_wide_index :
    IsBytes longBitVector ∧ 65536 < 8 * longBitVector.length ∧
    bitIsSet longBitVector 65536 = false ∧ bitIsSet longBitVector 0 = true ∧
    (∃ bv', simfsSetBit longBitVector 65536 = .ok bv' ∧ bitIsSet bv' 65536 = false) ∧
    (∃ bv', simfsFlipBit longBitVector 65536 = .ok bv' ∧ bitIsSet bv' 65536 = false ∧
      bitIsSet bv' 0 = false) := by
  have h0 : longBitVector[0 / 8]? = some 0xFF := longBitVector_getElem?_lt (by decide)
  have hlast : longBitVector[65536 / 8]? = some 0 := longBitVector_getElem?_last
  have hclear : bitIsSet longBitVector 65536 = false := by
    rw [bitIsSet_eq_testBit hlast]
    rfl
  refine ⟨?_, ?_, hclear, ?_, ?_, ?_⟩
  · intro b hbm
    unfold longBitVector at hbm
    rw [List.mem_append, List.mem_replicate, List.mem_singleton] at hbm
    omega
  · rw [longBitVector, List.length_append, List.length_replicate]
    decide
  · rw [bitIsSet_eq_testBit h0]
    rfl
  · refine ⟨_, setBit_wide longBitVector 0xFF h0, ?_⟩
    rw [bitIsSet_set longBitVector 0 65536 _ 0xFF h0, if_neg (by decide)]
    exact hclear
  · refine ⟨_, flipBit_wide longBitVector 0xFF h0, ?_, ?_⟩
    · rw [bitIsSet_set longBitVector 0 65536 _ 0xFF h0, if_neg (by decide)]
      exact hclear
    · rw [bitIsSet_set longBitVector 0 0 _ 0xFF h0, if_pos rfl]
      decide

/-! ## Results in the error monad -/

theorem bind_eq_ok {ε α β : Type} (x : Except ε α) (f : α → Except ε β) (b : β) :
    (x >>= f) = .ok b ↔ ∃ a, x = .ok a ∧ f a = .ok b := by
  cases x <;> simp [bind, Except.bind]

theorem pure_eq_ok {ε α : Type} (a b : α) :
    (pure a : Except ε α) = .ok b ↔ a = b := by
  simp [pure, Except.pure]

theorem findEndOfIndex_ok {vol : Volume} {index : Nat} {r : Nat × Volume}
    (h : findEndOfIndex vol index = .ok r) :
    r = (index, vol) ∧ ∃ node, readAt vol.block index = .ok node ∧ node.index.get 0 = 0 := by
  unfold findEndOfIndex at h
  simp only [bind_eq_ok] at h
  obtain ⟨ret, hscan, h⟩ := h
  simp only [findEndOfIndexScan, List.getElem?_cons_zero, bind_eq_ok] at hscan
  obtain ⟨node, hnode, hscan⟩ := hscan
  by_cases h0 : node.index.get 0 = 0
  · simp only [h0, if_true, pure_eq_ok] at hscan
    subst hscan
    simp only [if_true, pure_eq_ok] at h
    exact ⟨h.symm, node, hnode, h0⟩
  · simp [h0] at hscan

theorem simfsCreateFile_ok {cfg : Config} {s s' : State} {fileName : List Nat} {type : Int}
    {fresh : DirEnt}
    (h : simfsCreateFile cfg fileName type fresh s = .ok (.SIMFS_NO_ERROR, s')) :
    ∃ pcb tail i bits node j blocks1 slot0 blocks2 ctx bucket created list,
      s.simfsContext.processControlBlocks = pcb :: tail ∧
      findFile cfg s fileName = .ok none ∧
      simfsFindFreeBlock s.simfsVolume.bitvector = .ok i ∧
      simfsFlipBit s.simfsVolume.bitvector i = .ok bits ∧
      readAt s.simfsVolume.block pcb.currentWorkingDirectory = .ok node ∧
      node.index.get 0 = 0 ∧
      firstEmptySlot node.index 6 0 = some j ∧
      modifyAt s.simfsVolume.block pcb.currentWorkingDirectory
        (fun b => { b with index := b.index.set j i }) = .ok blocks1 ∧
      readAt s.simfsContext.globalOpenFileTable 0 = .ok slot0 ∧
      modifyAt blocks1 i (fun b =>
          { b with
            type := cfg.SIMFS_FILE_CONTENT_TYPE
            fileDescriptor :=
              { b.fileDescriptor with
                type := type
                name := fileName
                accessRights := slot0.accessRights
                identifier := s.simfsVolume.superblock.nextUniqueIdentifier } }) = .ok blocks2 ∧
      findEmptyHash cfg fileName fresh s.simfsContext = .ok (ctx, bucket) ∧
      readAt blocks2 i = .ok created ∧
      readAt ctx.directory bucket = .ok list ∧
      s' =
        { simfsContext :=
            { ctx with directory := ctx.directory.set bucket (Chain.updateLast
                (fun e =>
                  { e with
                    uniqueFileIdentifier := created.fileDescriptor.identifier
                    nodeReference := created.fileDescriptor.block_ref }) list) }
          simfsVolume :=
            { superblock := s.simfsVolume.superblock, bitvector := bits, block := blocks2 } } := by
  unfold simfsCreateFile at h
  simp only [bind_eq_ok] at h
  obtain ⟨found, hff, h⟩ := h
  cases found with
  | some r => simp [pure, Except.pure] at h
  | none =>
    simp only at h
    split at h
    · exact absurd h (by simp)
    · next pcb tail hpcb =>
      simp only [bind_eq_ok] at h
      obtain ⟨i, hi, bits, hbits, r, hend, node, hnode, h⟩ := h
      obtain ⟨hr, node', hnode', h0⟩ := findEndOfIndex_ok hend
      subst hr
      simp only at hnode h
      rw [hnode'] at hnode
      have hEq : node' = node := by injection hnode
      subst hEq
      split at h
      · simp [pure, Except.pure] at h
      · next j hj =>
        simp only [bind_eq_ok] at h
        obtain ⟨blocks1, hb1, slot0, hslot0, blocks2, hb2, ⟨ctx, bucket⟩, hhash, created,
          hcreated, list, hlist, h⟩ := h
        simp only [pure_eq_ok, Prod.mk.injEq, true_and] at h
        exact ⟨pcb, tail, i, bits, node', j, blocks1, slot0, blocks2, ctx, bucket, created, list,
          hpcb, hff, hi, hbits, hnode', h0, hj, hb1, hslot0, hb2, hhash, hcreated, hlist, h.symm⟩

theorem eq_ok_of_codeOf {r : Except Fault (SIMFS_ERROR × State)} {e : SIMFS_ERROR}
    (h : codeOf r = some e) : r = .ok (e, stateOf r) := by
  cases r with
  | error f => simp [codeOf] at h
  | ok v =>
    obtain ⟨e', s⟩ := v
    simp only [codeOf, Option.some.injEq] at h
    subst h
    rfl

theorem eq_ok_of_dataOf {r : Except Fault (SIMFS_ERROR × Option (List Nat))}
    (h : readSucceeded r = true) : r = .ok (.SIMFS_NO_ERROR, some (dataOf r)) := by
  unfold readSucceeded at h
  split at h
  · rfl
  · exact absurd h (by decide)

theorem modifyAt_ok {α : Type} {xs ys : List α} {i : Nat} {f : α → α}
    (h : modifyAt xs i f = .ok ys) : ∃ x, xs[i]? = some x ∧ ys = xs.set i (f x) := by
  unfold modifyAt at h
  split at h
  · next x hx =>
    injection h with h
    exact ⟨x, hx, h.symm⟩
  · exact absurd h (by simp)

theorem readAt_ok {α : Type} {xs : List α} {i : Nat} {x : α}
    (h : readAt xs i = .ok x) : xs[i]? = some x := by
  unfold readAt at h
  split at h
  · next y hy =>
    injection h with h
    rw [hy, h]
  · exact absurd h (by simp)

/-! ## C10 -/

/-- C10: when `findFile` finds the name in the current directory, `simfsCreateFile`
returns `SIMFS_DUPLICATE_ERROR` for any `type` and the whole state (volume blocks,
superblock, both bitmaps, directory) is the one before the call. -/
theorem C10_duplicate_create_rejected (cfg : Config) (s : State) (fileName : List Nat)
    (type : Int) (fresh : DirEnt) (r : ffret)
    (h : findFile cfg s fileName = .ok (some r)) :
    simfsCreateFile cfg fileName type fresh s = .ok (.SIMFS_DUPLICATE_ERROR, s) := by
  simp [simfsCreateFile, h, bind, Except.bind, pure, Except.pure]

/-- Witness of C10: in the sample run, "a" resolves once it has been created, and
creating a folder "a" is rejected. -/
theorem C10_duplicate_create_rejected_witness :
    findFile sampleConfig (withA sampleConfig) nameA
      = .ok (some { index := 0, number := 0 }) ∧
    simfsCreateFile sampleConfig nameA 1 zeroDirEnt (withA sampleConfig)
      = .ok (.SIMFS_DUPLICATE_ERROR, withA sampleConfig) :=
  ⟨by decide!,
    C10_duplicate_create_rejected sampleConfig (withA sampleConfig) nameA 1 zeroDirEnt
      { index := 0, number := 0 } (by decide!)⟩

/-! ## C5 -/

/-- C5 (what the code does): a successful `simfsCreateFile` writes the superblock's
`nextUniqueIdentifier` into the descriptor of the block it allocated and leaves the
counter as it was: the counter is not advanced. -/
theorem C5_counter_not_advanced (cfg : Config) (s s' : State) (fileName : List Nat)
    (type : Int) (fresh : DirEnt)
    (h : simfsCreateFile cfg fileName type fresh s = .ok (.SIMFS_NO_ERROR, s')) :
    s'.simfsVolume.superblock.nextUniqueIdentifier
      = s.simfsVolume.superblock.nextUniqueIdentifier ∧
    ∃ i created, simfsFindFreeBlock s.simfsVolume.bitvector = .ok i ∧
      s'.simfsVolume.block[i]? = some created ∧
      created.fileDescriptor.identifier = s.simfsVolume.superblock.nextUniqueIdentifier := by
  obtain ⟨pcb, tail, i, bits, node, j, blocks1, slot0, blocks2, ctx, bucket, created, list,
    -, -, hi, -, -, -, -, -, -, hb2, -, hcreated, -, hs'⟩ := simfsCreateFile_ok h
  subst hs'
  refine ⟨rfl, i, created, hi, readAt_ok hcreated, ?_⟩
  obtain ⟨x, hx, hset⟩ := modifyAt_ok hb2
  have hlt : i < blocks1.length := (List.getElem?_eq_some.mp hx).1
  have := readAt_ok hcreated
  rw [hset, List.getElem?_set, if_pos rfl, if_pos hlt] at this
  injection this with this
  rw [← this]

/-- Witness of C5 in the sample run: the file "a" receives identifier 2 and the counter
is 2 before and after the call. -/
theorem C5_counter_not_advanced_witness :
    (mounted sampleConfig).simfsVolume.superblock.nextUniqueIdentifier = 2 ∧
    (withA sampleConfig).simfsVolume.superblock.nextUniqueIdentifier
      = (mounted sampleConfig).simfsVolume.superblock.nextUniqueIdentifier :=
  ⟨by decide!,
    (C5_counter_not_advanced sampleConfig (mounted sampleConfig) (withA sampleConfig) nameA
      sampleConfig.SIMFS_FILE_CONTENT_TYPE zeroDirEnt (eq_ok_of_codeOf (by decide!))).1⟩

/-! ## C9 -/

theorem eq_ok_of_succeeded {r : Except Fault (SIMFS_ERROR × Option State)}
    (h : succeeded r = true) : r = .ok (.SIMFS_NO_ERROR, some (stateOfSome r)) := by
  unfold succeeded at h
  split at h
  · rfl
  · exact absurd h (by decide)

theorem getElem?_set_self {α : Type} {xs : List α} {i : Nat} {a : α} (h : i < xs.length) :
    (xs.set i a)[i]? = some a := by
  rw [List.getElem?_set, if_pos rfl, if_pos h]

theorem memsetZero_exact {xs ys : List Nat} {n : Nat} (hlen : xs.length = n)
    (h : memsetZero xs n = .ok ys) : ys = List.replicate n 0 := by
  unfold memsetZero at h
  rw [if_pos (by omega)] at h
  injection h with h
  rw [← h, List.drop_of_length_le (by omega), List.append_nil]

theorem findFreeBlock_zeroed (rest : List Nat) : simfsFindFreeBlock (0 :: rest) = .ok 0 :=
  simfsFindFreeBlock_eq (0 :: rest) 0 0 0
    (skipFullBytes_reach (0 :: rest) 0 0 (by decide) (fun m hm => absurd hm (by omega))
      (List.getElem?_cons_zero ..) (by decide) 65537 0 (by omega) (by omega))
    (List.getElem?_cons_zero ..) (by decide)

theorem findFreeBlock_first_taken (rest : List Nat) :
    simfsFindFreeBlock (0x80 :: rest) = .ok 1 :=
  simfsFindFreeBlock_eq (0x80 :: rest) 0 0x80 1
    (skipFullBytes_reach (0x80 :: rest) 0 0x80 (by decide) (fun m hm => absurd hm (by omega))
      (List.getElem?_cons_zero ..) (by decide) 65537 0 (by omega) (by omega))
    (List.getElem?_cons_zero ..) (by decide)

/-- C9: when `simfsCreateFileSystem` returns `SIMFS_NO_ERROR` (the on-disk bitmap being an
array of `SIMFS_NUMBER_OF_BLOCKS / 8` bytes), the superblock carries the root node index,
the block size and the number of blocks of the configuration, block 0 is a folder
descriptor named "/" of size 0 whose content reference is block 1, block 1 is tagged as an
index block, and the on-disk bitmap is the byte 0xC0 followed by zero bytes; on the zeroed
bitmap the first search for a free block returns 0 and, once bit 0 is flipped, the second
returns 1. -/
theorem C9_createFileSystem_postcondition (cfg : Config) (fopenOk : Bool)
    (rawContext : Option Context) (rawVolume : Volume) (umask0 time : Nat) (s : State)
    (hshape : rawVolume.bitvector.length = cfg.SIMFS_NUMBER_OF_BLOCKS / 8)
    (h : simfsCreateFileSystem cfg fopenOk rawContext (some rawVolume) umask0 time
      = .ok (.SIMFS_NO_ERROR, some s)) :
    s.simfsVolume.superblock.rootNodeIndex = cfg.SIMFS_ROOT_NODE_INDEX ∧
    s.simfsVolume.superblock.blockSize = cfg.SIMFS_BLOCK_SIZE ∧
    s.simfsVolume.superblock.numberOfBlocks = cfg.SIMFS_NUMBER_OF_BLOCKS ∧
    (∃ b0, s.simfsVolume.block[0]? = some b0 ∧ b0.type = cfg.SIMFS_FOLDER_CONTENT_TYPE ∧
      b0.fileDescriptor.type = cfg.SIMFS_FOLDER_CONTENT_TYPE ∧
      b0.fileDescriptor.name = [47] ∧ b0.fileDescriptor.size = 0 ∧
      b0.fileDescriptor.block_ref = 1) ∧
    (∃ b1, s.simfsVolume.block[1]? = some b1 ∧ b1.type = cfg.SIMFS_INDEX_CONTENT_TYPE) ∧
    s.simfsVolume.bitvector = 0xC0 :: List.replicate (cfg.SIMFS_NUMBER_OF_BLOCKS / 8 - 1) 0 ∧
    simfsFindFreeBlock (List.replicate (cfg.SIMFS_NUMBER_OF_BLOCKS / 8) 0) = .ok 0 ∧
    simfsFindFreeBlock (0x80 :: List.replicate (cfg.SIMFS_NUMBER_OF_BLOCKS / 8 - 1) 0)
      = .ok 1 := by
  unfold simfsCreateFileSystem at h
  split at h
  · exact absurd h (by simp)
  cases rawContext with
  | none => exact absurd h (by simp)
  | some ctx0 =>
    simp only [bind_eq_ok] at h
    obtain ⟨table, -, directory, -, cbits, -, vbits0, hv0, blocks0, hb0, blocks1, hb1,
      first, hfirst, vbits1, hv1, second, hsecond, vbits2, hv2, h⟩ := h
    have hz := memsetZero_exact hshape hv0
    subst hz
    generalize cfg.SIMFS_NUMBER_OF_BLOCKS / 8 = n at *
    cases n with
    | zero =>
      have : simfsFindFreeBlock [] = .error .outOfBounds := by decide
      rw [List.replicate_zero, this] at hfirst
      exact absurd hfirst (by simp)
    | succ m =>
      rw [List.replicate_succ] at hfirst hv1
      rw [findFreeBlock_zeroed] at hfirst
      injection hfirst with hfirst
      subst hfirst
      have h1 : vbits1 = 0x80 :: List.replicate m 0 := by
        simp [simfsFlipBit] at hv1
        exact hv1.symm
      subst h1
      rw [findFreeBlock_first_taken] at hsecond
      injection hsecond with hsecond
      subst hsecond
      have h2 : vbits2 = 0xC0 :: List.replicate m 0 := by
        simp [simfsFlipBit] at hv2
        exact hv2.symm
      subst h2
      obtain ⟨x0, hx0, hset0⟩ := modifyAt_ok hb0
      obtain ⟨x1, hx1, hset1⟩ := modifyAt_ok hb1
      have hlt0 : 0 < rawVolume.block.length := (List.getElem?_eq_some.mp hx0).1
      have hlt1 : 1 < blocks0.length := (List.getElem?_eq_some.mp hx1).1
      simp only [pure_eq_ok, Prod.mk.injEq, true_and, Option.some.injEq] at h
      subst h
      subst hset1
      subst hset0
      refine ⟨rfl, rfl, rfl, ?_, ?_, ?_, ?_, ?_⟩
      · exact ⟨_, (List.getElem?_set_ne (by decide)).trans (getElem?_set_self hlt0),
          rfl, rfl, rfl, rfl, rfl⟩
      · exact ⟨_, getElem?_set_self hlt1, rfl⟩
      · simp
      · rw [List.replicate_succ]
        exact findFreeBlock_zeroed _
      · exact findFreeBlock_first_taken _

/-- Witness of C9: the sample run of `simfsCreateFileSystem` on zero-filled storage
returns `SIMFS_NO_ERROR`, and its bitmap starts with 0xC0. -/
theorem C9_createFileSystem_postcondition_witness :
    createdState sampleConfig = .ok (.SIMFS_NO_ERROR, some (created sampleConfig)) ∧
    (created sampleConfig).simfsVolume.bitvector
      = 0xC0 :: List.replicate (sampleConfig.SIMFS_NUMBER_OF_BLOCKS / 8 - 1) 0 :=
  ⟨eq_ok_of_succeeded (by decide!),
    (C9_createFileSystem_postcondition sampleConfig true (some zeroContext) zeroVolume 0 0
      (created sampleConfig) (by decide!) (eq_ok_of_succeeded (by decide!))).2.2.2.2.2.1⟩

/-! ## C1, C2, C3, C4: the calls of `test_simfs.c` on the sample volume -/

theorem memcpy_ok {α : Type} {dst src out : List α} {n : Nat}
    (h : memcpy dst src n = .ok out) :
    n ≤ dst.length ∧ n ≤ src.length ∧ out = src.take n ++ dst.drop n := by
  unfold memcpy at h
  split at h
  · next hc =>
    injection h with h
    exact ⟨hc.1, hc.2, h.symm⟩
  · exact absurd h (by simp)

theorem simfsReadFile_ok {cfg : Config} {h : Int} {s : State} {D : List Nat}
    (hr : simfsReadFile cfg h s = .ok (.SIMFS_NO_ERROR, some D)) :
    ∃ slot file target, readAtInt s.simfsContext.globalOpenFileTable h = .ok slot ∧
      readAt s.simfsVolume.block slot.fileDescriptor = .ok file ∧
      readAt s.simfsVolume.block file.fileDescriptor.block_ref = .ok target ∧
      D = target.data := by
  unfold simfsReadFile at hr
  simp only [bind_eq_ok] at hr
  obtain ⟨slot, hslot, hr⟩ := hr
  split at hr
  · simp [pure, Except.pure] at hr
  · simp only [bind_eq_ok] at hr
    obtain ⟨file, hfile, hr⟩ := hr
    split at hr
    · simp [pure, Except.pure] at hr
    · simp only [bind_eq_ok, pure_eq_ok, Prod.mk.injEq, true_and, Option.some.injEq] at hr
      obtain ⟨target, htarget, hr⟩ := hr
      exact ⟨slot, file, target, hslot, hfile, htarget, hr.symm⟩

theorem simfsWriteFile_ok {cfg : Config} {h : Int} {buf : List Nat} {s s' : State}
    (hw : simfsWriteFile cfg h buf s = .ok (.SIMFS_NO_ERROR, s')) :
    ∃ slot file block_ref vbits cbits target data,
      readAtInt s.simfsContext.globalOpenFileTable h = .ok slot ∧
      readAt s.simfsVolume.block slot.fileDescriptor = .ok file ∧
      acquireBlock cfg s file = .ok (block_ref, vbits, cbits) ∧
      readAt s.simfsVolume.block block_ref = .ok target ∧
      memcpy target.data buf 14 = .ok data ∧
      s' = { simfsContext := { s.simfsContext with bitvector := cbits }
             simfsVolume := { s.simfsVolume with
               bitvector := vbits
               block := s.simfsVolume.block.set block_ref { target with data := data } } } := by
  unfold simfsWriteFile at hw
  simp only [bind_eq_ok] at hw
  obtain ⟨slot, hslot, hw⟩ := hw
  by_cases h1 : slot.fileDescriptor = cfg.SIMFS_INVALID_INDEX
  · simp [h1, pure, Except.pure] at hw
  · simp only [h1, ↓reduceIte, bind_eq_ok] at hw
    obtain ⟨file, hfile, hw⟩ := hw
    by_cases h2 : file.type = cfg.SIMFS_INVALID_CONTENT_TYPE
    · simp [h2, pure, Except.pure] at hw
    · simp only [h2, ↓reduceIte, bind_eq_ok] at hw
      obtain ⟨⟨block_ref, vbits, cbits⟩, halloc, target, htarget, data, hdata, hs'⟩ := hw
      simp only [pure_eq_ok, Prod.mk.injEq, true_and] at hs'
      exact ⟨slot, file, block_ref, vbits, cbits, target, data, hslot, hfile, halloc, htarget,
        hdata, hs'.symm⟩

theorem simfsFindFreeBlock_lt {bv : List Nat} {k : Nat}
    (h : simfsFindFreeBlock bv = .ok k) : k < 65536 := by
  unfold simfsFindFreeBlock at h
  simp only [bind_eq_ok] at h
  obtain ⟨i, -, h⟩ := h
  split at h
  · exact absurd h (by simp)
  · simp only [bind_eq_ok, pure_eq_ok] at h
    obtain ⟨j, -, h⟩ := h
    rw [← h]
    exact Nat.mod_lt _ (by decide)

theorem simfsFlipBit_bit {bv bv' : List Nat} {k : Nat} (hb : IsBytes bv) (hk : k < 65536)
    (h : simfsFlipBit bv k = .ok bv') : bitIsSet bv' k = !bitIsSet bv k := by
  simp only [simfsFlipBit, Nat.mod_eq_of_lt hk] at h
  split at h
  · exact absurd h (by simp)
  · next b hbk =>
    injection h with h
    subst h
    have hs : k % 8 < 8 := Nat.mod_lt _ (by decide)
    have hb256 : b < 2 ^ 8 := getElem?_of_isBytes hb hbk
    rw [Nat.mod_eq_of_lt (Nat.xor_lt_two_pow hb256 (mask_lt hs)),
      bitIsSet_set bv k k _ b hbk, if_pos rfl, Nat.testBit_xor, testBit_mask hs hs,
      bitIsSet_eq_testBit hbk]
    simp

theorem map_type_set_data (blocks : List Block) (k b : Nat) (target : Block)
    (data : List Nat) (h : blocks[k]? = some target) :
    (blocks.set k { target with data := data })[b]?.map (fun x : Block => x.type)
      = blocks[b]?.map (fun x : Block => x.type) := by
  rw [List.getElem?_set]
  by_cases hkb : k = b
  · subst hkb
    rw [if_pos rfl, if_pos (List.getElem?_eq_some.mp h).1, h]
    rfl
  · rw [if_neg hkb]

/-- C1 (what the code does): whenever `simfsWriteFile` returns `SIMFS_NO_ERROR` on a
handle whose descriptor has `block_ref == SIMFS_INVALID_INDEX`, the bit of the block `k`
found free is complemented in the volume bitmap while the type tag of every block,
block `k` included, is what it was: the equivalence between bit and tag cannot hold both
before and after the call. -/
theorem C1_write_marks_untagged_block (cfg : Config) (s s' : State) (h : Int)
    (buf : List Nat) (slot : GlobalOpenFile) (file : Block)
    (hb : IsBytes s.simfsVolume.bitvector)
    (hslot : readAtInt s.simfsContext.globalOpenFileTable h = .ok slot)
    (hfile : readAt s.simfsVolume.block slot.fileDescriptor = .ok file)
    (hinv : file.fileDescriptor.block_ref = cfg.SIMFS_INVALID_INDEX)
    (hw : simfsWriteFile cfg h buf s = .ok (.SIMFS_NO_ERROR, s')) :
    ∃ k, simfsFindFreeBlock s.simfsVolume.bitvector = .ok k ∧
      bitIsSet s'.simfsVolume.bitvector k = !bitIsSet s.simfsVolume.bitvector k ∧
      ∀ b : Nat, s'.simfsVolume.block[b]?.map (fun x : Block => x.type)
        = s.simfsVolume.block[b]?.map (fun x : Block => x.type) := by
  obtain ⟨slot', file', block_ref, vbits, cbits, target, data, hslot', hfile', hacq, htarget,
    -, hs'⟩ := simfsWriteFile_ok hw
  rw [hslot] at hslot'
  injection hslot' with hslot'
  subst hslot'
  rw [hfile] at hfile'
  injection hfile' with hfile'
  subst hfile'
  unfold acquireBlock at hacq
  rw [if_pos hinv] at hacq
  simp only [bind_eq_ok, pure_eq_ok, Prod.mk.injEq] at hacq
  obtain ⟨found, hfound, vb, hvb, cb, -, e1, e2, -⟩ := hacq
  subst e1 e2 hs'
  exact ⟨found, hfound, simfsFlipBit_bit hb (simfsFindFreeBlock_lt hfound) hvb,
    fun b => map_type_set_data _ _ _ _ _ (readAt_ok htarget)⟩

/-- Witness of C1 in the sample run: the write of "hello" on the opened file "a" sets bit
3 and leaves block 3 tagged invalid; and after `simfsCreateFile("a")` and
`simfsDeleteFile("a")`, which both return `SIMFS_NO_ERROR`, bit 2 of the volume bitmap is
set although block 2 is tagged invalid, while bits 0 and 1 are clear although blocks 0
and 1 still hold the root folder and its index block (bit 2 and block 2 in the same way
with `SIMFS_INVALID_INDEX = 65535`). -/
theorem C1_write_marks_untagged_block_witness :
    (∃ k, simfsFindFreeBlock (opened sampleConfig).simfsVolume.bitvector = .ok k ∧
      bitIsSet (written sampleConfig helloBuffer).simfsVolume.bitvector k
        = !bitIsSet (opened sampleConfig).simfsVolume.bitvector k ∧
      ∀ b : Nat,
        (written sampleConfig helloBuffer).simfsVolume.block[b]?.map (fun x : Block => x.type)
          = (opened sampleConfig).simfsVolume.block[b]?.map (fun x : Block => x.type)) ∧
    (succeeded (mountedState sampleConfig) = true ∧
    codeOf (simfsCreateFile sampleConfig nameA sampleConfig.SIMFS_FILE_CONTENT_TYPE zeroDirEnt
      (mounted sampleConfig)) = some .SIMFS_NO_ERROR ∧
    codeOf (simfsDeleteFile sampleConfig nameA (withA sampleConfig)) = some .SIMFS_NO_ERROR ∧
    bitIsSet (afterDelete sampleConfig).simfsVolume.bitvector 2 = true ∧
    (afterDelete sampleConfig).simfsVolume.block[2]?.map (fun b => b.type)
      = some sampleConfig.SIMFS_INVALID_CONTENT_TYPE ∧
    bitIsSet (afterDelete sampleConfig).simfsVolume.bitvector 0 = false ∧
    (afterDelete sampleConfig).simfsVolume.block[0]?.map (fun b => b.type)
      = some sampleConfig.SIMFS_FOLDER_CONTENT_TYPE ∧
    bitIsSet (afterDelete sampleConfig).simfsVolume.bitvector 1 = false ∧
    (afterDelete sampleConfig).simfsVolume.block[1]?.map (fun b => b.type)
      = some sampleConfig.SIMFS_INDEX_CONTENT_TYPE ∧
    codeOf (simfsWriteFile sampleConfig 0 helloBuffer (opened sampleConfig))
      = some .SIMFS_NO_ERROR ∧
    bitIsSet (written sampleConfig helloBuffer).simfsVolume.bitvector 3 = true ∧
    (written sampleConfig helloBuffer).simfsVolume.block[3]?.map (fun b => b.type)
      = some sampleConfig.SIMFS_INVALID_CONTENT_TYPE ∧
    codeOf (simfsDeleteFile otherConfig nameA (withA otherConfig)) = some .SIMFS_NO_ERROR ∧
    bitIsSet (afterDelete otherConfig).simfsVolume.bitvector 2 = true ∧
    (afterDelete otherConfig).simfsVolume.block[2]?.map (fun b => b.type)
      = some otherConfig.SIMFS_INVALID_CONTENT_TYPE) := by
  have h : (IsBytes (opened sampleConfig).simfsVolume.bitvector ∧
      readAtInt (opened sampleConfig).simfsContext.globalOpenFileTable 0
        = .ok (slotOf (opened sampleConfig) 0) ∧
      readAt (opened sampleConfig).simfsVolume.block (slotOf (opened sampleConfig) 0).fileDescriptor
        = .ok (blockOf (opened sampleConfig) 2) ∧
      (blockOf (opened sampleConfig) 2).fileDescriptor.block_ref
        = sampleConfig.SIMFS_INVALID_INDEX) ∧
      (succeeded (mountedState sampleConfig) = true ∧
      codeOf (simfsCreateFile sampleConfig nameA sampleConfig.SIMFS_FILE_CONTENT_TYPE zeroDirEnt
        (mounted sampleConfig)) = some .SIMFS_NO_ERROR ∧
      codeOf (simfsDeleteFile sampleConfig nameA (withA sampleConfig)) = some .SIMFS_NO_ERROR ∧
      bitIsSet (afterDelete sampleConfig).simfsVolume.bitvector 2 = true ∧
      (afterDelete sampleConfig).simfsVolume.block[2]?.map (fun b => b.type)
        = some sampleConfig.SIMFS_INVALID_CONTENT_TYPE ∧
      bitIsSet (afterDelete sampleConfig).simfsVolume.bitvector 0 = false ∧
      (afterDelete sampleConfig).simfsVolume.block[0]?.map (fun b => b.type)
        = some sampleConfig.SIMFS_FOLDER_CONTENT_TYPE ∧
      bitIsSet (afterDelete sampleConfig).simfsVolume.bitvector 1 = false ∧
      (afterDelete sampleConfig).simfsVolume.block[1]?.map (fun b => b.type)
        = some sampleConfig.SIMFS_INDEX_CONTENT_TYPE ∧
      codeOf (simfsWriteFile sampleConfig 0 helloBuffer (opened sampleConfig))
        = some .SIMFS_NO_ERROR ∧
      bitIsSet (written sampleConfig helloBuffer).simfsVolume.bitvector 3 = true ∧
      (written sampleConfig helloBuffer).simfsVolume.block[3]?.map (fun b => b.type)
        = some sampleConfig.SIMFS_INVALID_CONTENT_TYPE ∧
      codeOf (simfsDeleteFile otherConfig nameA (withA otherConfig)) = some .SIMFS_NO_ERROR ∧
      bitIsSet (afterDelete otherConfig).simfsVolume.bitvector 2 = true ∧
      (afterDelete otherConfig).simfsVolume.block[2]?.map (fun b => b.type)
        = some otherConfig.SIMFS_INVALID_CONTENT_TYPE) := by decide!
  exact ⟨C1_write_marks_untagged_block sampleConfig (opened sampleConfig)
      (written sampleConfig helloBuffer) 0 helloBuffer (slotOf (opened sampleConfig) 0)
      (blockOf (opened sampleConfig) 2) h.1.1 h.1.2.1 h.1.2.2.1 h.1.2.2.2
      (eq_ok_of_codeOf h.2.2.2.2.2.2.2.2.2.2.1),
    h.2⟩

/-- C2 (what the code does): whenever `simfsWriteFile` returns `SIMFS_NO_ERROR`, what
`simfsReadFile` hands back after the call agrees, from byte 14 on, with what it handed
back before the call: no byte of the buffer beyond the fourteenth reaches the volume. -/
theorem C2_only_fourteen_bytes_stored (cfg : Config) (s s' : State) (h : Int)
    (buf D D' : List Nat)
    (hw : simfsWriteFile cfg h buf s = .ok (.SIMFS_NO_ERROR, s'))
    (hr : simfsReadFile cfg h s = .ok (.SIMFS_NO_ERROR, some D))
    (hr' : simfsReadFile cfg h s' = .ok (.SIMFS_NO_ERROR, some D')) :
    D'.drop 14 = D.drop 14 := by
  obtain ⟨slot, file, block_ref, vbits, cbits, target, data, hslot, hfile, -, htarget, hdata,
    hs'⟩ := simfsWriteFile_ok hw
  obtain ⟨slot1, file1, target1, hslot1, hfile1, htarget1, hD⟩ := simfsReadFile_ok hr
  obtain ⟨slot2, file2, target2, hslot2, hfile2, htarget2, hD'⟩ := simfsReadFile_ok hr'
  subst hs'
  simp only at hslot2 hfile2 htarget2
  rw [hslot] at hslot1 hslot2
  injection hslot1 with hslot1
  injection hslot2 with hslot2
  subst hslot1 hslot2
  rw [hfile] at hfile1
  injection hfile1 with hfile1
  subst hfile1
  obtain ⟨h14, hb14, hdata⟩ := memcpy_ok hdata
  have htl : block_ref < s.simfsVolume.block.length :=
    (List.getElem?_eq_some.mp (readAt_ok htarget)).1
  -- the descriptor read after the write carries the same content reference
  have hfd : file2.fileDescriptor = file.fileDescriptor := by
    have h2 := readAt_ok hfile2
    rw [List.getElem?_set] at h2
    by_cases heq : block_ref = slot.fileDescriptor
    · rw [if_pos heq, if_pos htl] at h2
      injection h2 with h2
      have h3 := readAt_ok htarget
      rw [heq, readAt_ok hfile] at h3
      injection h3 with h3
      rw [← h2, h3]
    · rw [if_neg heq, readAt_ok hfile] at h2
      injection h2 with h2
      rw [h2]
  rw [hfd] at htarget2
  have h2 := readAt_ok htarget2
  have h1 := readAt_ok htarget1
  rw [List.getElem?_set] at h2
  by_cases heq : block_ref = file.fileDescriptor.block_ref
  · rw [if_pos heq, if_pos htl] at h2
    injection h2 with h2
    have h3 := readAt_ok htarget
    rw [heq, h1] at h3
    injection h3 with h3
    rw [hD', hD, ← h2, h3]
    simp only
    rw [hdata]
    have hlen : (List.take 14 buf).length = 14 := by
      rw [List.length_take]; omega
    rw [List.drop_append_eq_append_drop, hlen, List.drop_of_length_le (by omega)]
    simp
  · rw [if_neg heq, h1] at h2
    injection h2 with h2
    rw [hD', hD, h2]

/-- Witness of C2 in the sample run: the file "a" is created and opened with handle 0;
`simfsWriteFile(0, "ABCDEFGHIJKLMNOPQRST")` and `simfsReadFile(0, ..)` return
`SIMFS_NO_ERROR`, but the string read is not the string written.  With
`SIMFS_INVALID_INDEX = 0` the string read is empty (also after writing "hello"): the
block written is referenced by a local copy of the descriptor only.  With
`SIMFS_INVALID_INDEX = 65535` the string read is "ABCDEFGHIJKLMN". -/
theorem C2_only_fourteen_bytes_stored_witness :
    (dataOf (simfsReadFile otherConfig 0 (written otherConfig twentyBytes))).drop 14
      = (dataOf (simfsReadFile otherConfig 0 (opened otherConfig))).drop 14 ∧
    (cString twentyBytes
      = [65, 66, 67, 68, 69, 70, 71, 72, 73, 74, 75, 76, 77, 78, 79, 80, 81, 82, 83, 84] ∧
    cString helloBuffer = [104, 101, 108, 108, 111] ∧
    (codeOf (openA sampleConfig) = some .SIMFS_NO_ERROR ∧
      (openedOf (openA sampleConfig)).2 = 0 ∧
      codeOf (simfsWriteFile sampleConfig 0 twentyBytes (opened sampleConfig))
        = some .SIMFS_NO_ERROR ∧
      readString sampleConfig 0 (written sampleConfig twentyBytes)
        = .ok (.SIMFS_NO_ERROR, some []) ∧
      codeOf (simfsWriteFile sampleConfig 0 helloBuffer (opened sampleConfig))
        = some .SIMFS_NO_ERROR ∧
      readString sampleConfig 0 (written sampleConfig helloBuffer)
        = .ok (.SIMFS_NO_ERROR, some [])) ∧
    (codeOf (openA otherConfig) = some .SIMFS_NO_ERROR ∧
      (openedOf (openA otherConfig)).2 = 0 ∧
      codeOf (simfsWriteFile otherConfig 0 twentyBytes (opened otherConfig))
        = some .SIMFS_NO_ERROR ∧
      readString otherConfig 0 (written otherConfig twentyBytes)
        = .ok (.SIMFS_NO_ERROR,
            some [65, 66, 67, 68, 69, 70, 71, 72, 73, 74, 75, 76, 77, 78]))) :=
  ⟨C2_only_fourteen_bytes_stored otherConfig (opened otherConfig)
      (written otherConfig twentyBytes) 0 twentyBytes _ _ (eq_ok_of_codeOf (by decide!))
      (eq_ok_of_dataOf (by decide!)) (eq_ok_of_dataOf (by decide!)),
    by decide!⟩

theorem attach_size (fresh : DirEnt) : ∀ (c c' : Chain),
    Chain.attach c fresh = .ok c' → c'.size = c.size + 1 := by
  intro c
  induction c with
  | null => intro c' h; simp [Chain.attach] at h
  | wild => intro c' h; simp [Chain.attach] at h
  | node d next ih =>
    intro c' h
    cases next with
    | null =>
      simp only [Chain.attach] at h
      injection h with h
      subst h
      rfl
    | wild =>
      simp [Chain.attach, bind, Except.bind] at h
    | node d2 n2 =>
      simp only [Chain.attach, bind_eq_ok, pure_eq_ok] at h
      obtain ⟨rest, hrest, h⟩ := h
      subst h
      have := ih rest hrest
      simp only [Chain.size] at this ⊢
      omega

theorem updateLast_size (f : DirEnt → DirEnt) : ∀ c : Chain,
    (Chain.updateLast f c).size = c.size := by
  intro c
  induction c with
  | null => rfl
  | wild => rfl
  | node d next ih =>
    cases next with
    | null => rfl
    | wild => rfl
    | node d2 n2 =>
      simp only [Chain.updateLast, Chain.size] at ih ⊢
      omega

theorem findEmptyHash_ok {cfg : Config} {fileName : List Nat} {fresh : DirEnt}
    {ctx ctx' : Context} {bucket : Nat}
    (h : findEmptyHash cfg fileName fresh ctx = .ok (ctx', bucket)) :
    bucket = hash cfg fileName % 65536 ∧
    ∃ old c, ctx.directory[bucket]? = some old ∧ c.size = old.size + 1 ∧
      ctx' = { ctx with directory := ctx.directory.set bucket c } := by
  unfold findEmptyHash at h
  simp only [bind_eq_ok] at h
  obtain ⟨hashed, hread, h⟩ := h
  have hget := readAt_ok hread
  split at h
  · simp only [pure_eq_ok, Prod.mk.injEq] at h
    obtain ⟨h1, h2⟩ := h
    subst h2
    exact ⟨rfl, .null,
      .node { nodeReference := cfg.SIMFS_INVALID_INDEX, globalOpenFileTableIndex := -1,
              uniqueFileIdentifier := -1 } .null, hget, rfl, h1.symm⟩
  · simp only [bind_eq_ok, pure_eq_ok, Prod.mk.injEq] at h
    obtain ⟨list, hlist, h1, h2⟩ := h
    subst h2
    exact ⟨rfl, hashed, list, hget, attach_size fresh _ _ hlist, h1.symm⟩

theorem simfsDeleteFile_directory {cfg : Config} {fileName : List Nat} {s s' : State}
    {e : SIMFS_ERROR} (h : simfsDeleteFile cfg fileName s = .ok (e, s')) :
    s'.simfsContext.directory = s.simfsContext.directory := by
  unfold simfsDeleteFile at h
  simp only [bind_eq_ok] at h
  obtain ⟨found, -, h⟩ := h
  cases found with
  | none =>
    simp only [pure_eq_ok, Prod.mk.injEq] at h
    rw [← h.2]
  | some indexPoint =>
    simp only [bind_eq_ok] at h
    obtain ⟨node, -, descriptor, -, block, -, h⟩ := h
    split at h
    · split at h
      · simp only [pure_eq_ok, Prod.mk.injEq] at h
        rw [← h.2]
      · simp only [bind_eq_ok, pure_eq_ok, Prod.mk.injEq] at h
        obtain ⟨vbits, -, cbits, -, -, h⟩ := h
        rw [← h]
    · split at h
      · simp only [bind_eq_ok, pure_eq_ok, Prod.mk.injEq] at h
        obtain ⟨v1, -, c1, -, v2, -, c2, -, blocks, -, -, h⟩ := h
        rw [← h]
      · simp only [pure_eq_ok, Prod.mk.injEq] at h
        rw [← h.2]

/-- C3 (what the code does): whenever `simfsCreateFile(name, type)` returns
`SIMFS_NO_ERROR` and the following `simfsDeleteFile(name)` returns, the bucket `hash(name)`
of the directory holds one node more than before the create: the directory is not
restored. -/
theorem C3_directory_keeps_entry (cfg : Config) (s s1 s2 : State) (fileName : List Nat)
    (type : Int)
    (fresh : DirEnt) (e : SIMFS_ERROR)
    (hc : simfsCreateFile cfg fileName type fresh s = .ok (.SIMFS_NO_ERROR, s1))
    (hd : simfsDeleteFile cfg fileName s1 = .ok (e, s2)) :
    ∃ old new, s.simfsContext.directory[hash cfg fileName % 65536]? = some old ∧
      s2.simfsContext.directory[hash cfg fileName % 65536]? = some new ∧
      new.size = old.size + 1 := by
  rw [simfsDeleteFile_directory hd]
  obtain ⟨pcb, tail, i, bits, node, j, blocks1, slot0, blocks2, ctx, bucket, created, list,
    -, -, -, -, -, -, -, -, -, -, hhash, -, hlist, hs1⟩ := simfsCreateFile_ok hc
  obtain ⟨hb, old, c, hold, hsize, hctx⟩ := findEmptyHash_ok hhash
  subst hs1
  subst hb
  have hlt : hash cfg fileName % 65536 < s.simfsContext.directory.length :=
    (List.getElem?_eq_some.mp hold).1
  have hl := readAt_ok hlist
  rw [hctx] at hl
  simp only at hl
  rw [getElem?_set_self hlt] at hl
  injection hl with hl
  subst hl
  refine ⟨old, Chain.updateLast (fun e =>
      { e with
        uniqueFileIdentifier := created.fileDescriptor.identifier
        nodeReference := created.fileDescriptor.block_ref }) c, hold, ?_, ?_⟩
  · show (List.set _ _ _)[_]? = _
    rw [hctx]
    simp only
    rw [List.set_set, getElem?_set_self hlt]
  · rw [updateLast_size, hsize]

/-- Witness of C3 in the sample run: `simfsCreateFile("a")` and `simfsDeleteFile("a")`
both return `SIMFS_NO_ERROR`; the bucket `hash("a") = 4` of the directory, empty before,
still holds the entry of "a"; the first byte of the on-disk bitmap is 0x20 instead of
0xC0 and the first byte of the in-memory bitmap is 0 instead of 0xC0. -/
theorem C3_directory_keeps_entry_witness :
    (∃ old new,
      (mounted sampleConfig).simfsContext.directory[hash sampleConfig nameA % 65536]?
        = some old ∧
      (afterDelete sampleConfig).simfsContext.directory[hash sampleConfig nameA % 65536]?
        = some new ∧
      new.size = old.size + 1) ∧
    codeOf (simfsCreateFile sampleConfig nameA sampleConfig.SIMFS_FILE_CONTENT_TYPE zeroDirEnt
      (mounted sampleConfig)) = some .SIMFS_NO_ERROR ∧
    codeOf (simfsDeleteFile sampleConfig nameA (withA sampleConfig)) = some .SIMFS_NO_ERROR ∧
    hash sampleConfig nameA = 4 ∧
    (mounted sampleConfig).simfsContext.directory[4]? = some .null ∧
    (afterDelete sampleConfig).simfsContext.directory[4]?
      = some (.node { nodeReference := 0, uniqueFileIdentifier := 2,
                      globalOpenFileTableIndex := -1 } .null) ∧
    (mounted sampleConfig).simfsVolume.bitvector[0]? = some 0xC0 ∧
    (afterDelete sampleConfig).simfsVolume.bitvector[0]? = some 0x20 ∧
    (mounted sampleConfig).simfsContext.bitvector[0]? = some 0xC0 ∧
    (afterDelete sampleConfig).simfsContext.bitvector[0]? = some 0 :=
  ⟨C3_directory_keeps_entry sampleConfig (mounted sampleConfig) (withA sampleConfig)
      (afterDelete sampleConfig) nameA sampleConfig.SIMFS_FILE_CONTENT_TYPE zeroDirEnt
      .SIMFS_NO_ERROR (eq_ok_of_codeOf (by decide!)) (eq_ok_of_codeOf (by decide!)),
    by decide!⟩

theorem findEmptyInFileTable_ok (cfg : Config) (table : List GlobalOpenFile) :
    ∀ (todo i : Nat) (k : Int), findEmptyInFileTable cfg table todo i = .ok k →
      k = -1 ∨ ∃ (n : Nat) (e : GlobalOpenFile), k = (n : Int) ∧ table[n]? = some e ∧
        e.type = cfg.SIMFS_INVALID_CONTENT_TYPE := by
  intro todo
  induction todo with
  | zero =>
    intro i k h
    simp only [findEmptyInFileTable] at h
    injection h with h
    exact Or.inl h.symm
  | succ n ih =>
    intro i k h
    simp only [findEmptyInFileTable, bind_eq_ok] at h
    obtain ⟨e, he, h⟩ := h
    split at h
    · next ht =>
      simp only [pure_eq_ok] at h
      exact Or.inr ⟨i, e, h.symm, readAt_ok he, ht⟩
    · exact ih _ _ h

theorem readAtInt_natCast {α : Type} (xs : List α) (n : Nat) :
    readAtInt xs (n : Int) = readAt xs n := by
  unfold readAtInt
  rw [if_neg (by omega)]
  simp

theorem modifyAtInt_natCast {α : Type} (xs : List α) (n : Nat) (f : α → α) :
    modifyAtInt xs (n : Int) f = modifyAt xs n f := by
  unfold modifyAtInt
  rw [if_neg (by omega)]
  simp

/-- C4 (what the code does): whenever the two constants
`SIMFS_INVALID_OPEN_FILE_TABLE_INDEX` and `SIMFS_INVALID_CONTENT_TYPE` differ and
`simfsCloseFile(h)` returns on a slot whose reference count is 1, it returns
`SIMFS_NO_ERROR` and leaves the slot with count 0 and type
`SIMFS_INVALID_OPEN_FILE_TABLE_INDEX`; `findEmptyInFileTable` does not report that slot
free, from whatever slot the search starts. -/
theorem C4_closed_slot_not_reported_free (cfg : Config) (s s' : State) (h : Nat)
    (e : GlobalOpenFile) (err : SIMFS_ERROR)
    (hne : cfg.SIMFS_INVALID_OPEN_FILE_TABLE_INDEX ≠ cfg.SIMFS_INVALID_CONTENT_TYPE)
    (hslot : s.simfsContext.globalOpenFileTable[h]? = some e)
    (hcount : e.referenceCount = 1)
    (hclose : simfsCloseFile cfg (h : Int) s = .ok (err, s')) :
    err = .SIMFS_NO_ERROR ∧
    s'.simfsContext.globalOpenFileTable[h]?.map (fun x => (x.type, x.referenceCount))
      = some (cfg.SIMFS_INVALID_OPEN_FILE_TABLE_INDEX, 0) ∧
    ∀ todo i, findEmptyInFileTable cfg s'.simfsContext.globalOpenFileTable todo i
      ≠ .ok (h : Int) := by
  have hlt : h < s.simfsContext.globalOpenFileTable.length :=
    (List.getElem?_eq_some.mp hslot).1
  unfold simfsCloseFile at hclose
  simp only [bind_eq_ok, readAtInt_natCast, modifyAtInt_natCast] at hclose
  obtain ⟨file, hfile, hclose⟩ := hclose
  have hfe : file = e := by
    have := readAt_ok hfile
    rw [hslot] at this
    injection this with this
    exact this.symm
  subst hfe
  rw [if_pos (by omega)] at hclose
  simp only [bind_eq_ok] at hclose
  obtain ⟨entry, -, hclose⟩ := hclose
  split at hclose
  · simp only [bind_eq_ok, pure_eq_ok, Prod.mk.injEq] at hclose
    obtain ⟨table, htable, herr, hs'⟩ := hclose
    obtain ⟨x, hx, hset⟩ := modifyAt_ok htable
    subst hs'
    have hnew : (table[h]?).map (fun x => (x.type, x.referenceCount))
        = some (cfg.SIMFS_INVALID_OPEN_FILE_TABLE_INDEX, 0) := by
      rw [hset, getElem?_set_self hlt]
      simp only [Option.map_some', Option.some.injEq, Prod.mk.injEq, true_and]
      omega
    refine ⟨herr.symm, hnew, ?_⟩
    intro todo i hfind
    rcases findEmptyInFileTable_ok cfg _ todo i _ hfind with hk | ⟨n, e', hk, hn, ht⟩
    · omega
    · have hnh : n = h := by omega
      subst hnh
      simp only at hn
      rw [hn] at hnew
      simp only [Option.map_some', Option.some.injEq, Prod.mk.injEq] at hnew
      exact hne (hnew.1.symm.trans ht)
  · exact absurd hclose (by simp)

/-- Witness of C4 in the sample run: slot 0 is the free slot reported before the open;
`simfsOpenFile("a", &h)` returns `SIMFS_NO_ERROR` with `h = 0` and count 1;
`simfsCloseFile(0)` returns `SIMFS_NO_ERROR`; afterwards `findEmptyInFileTable` reports
slot 1, and opening "a" again takes slot 1. -/
theorem C4_closed_slot_not_reported_free_witness :
    (∀ todo i, findEmptyInFileTable sampleConfig
      (closed sampleConfig).simfsContext.globalOpenFileTable todo i ≠ .ok ((0 : Nat) : Int)) ∧
    findEmptyInFileTable sampleConfig (withA sampleConfig).simfsContext.globalOpenFileTable
      sampleConfig.SIMFS_MAX_NUMBER_OF_OPEN_FILES 0 = .ok 0 ∧
    codeOf (openA sampleConfig) = some .SIMFS_NO_ERROR ∧
    (openedOf (openA sampleConfig)).2 = 0 ∧
    (opened sampleConfig).simfsContext.globalOpenFileTable[0]?.map
      (fun e => (e.type, e.referenceCount)) = some (sampleConfig.SIMFS_FILE_CONTENT_TYPE, 1) ∧
    codeOf (simfsCloseFile sampleConfig 0 (opened sampleConfig)) = some .SIMFS_NO_ERROR ∧
    (closed sampleConfig).simfsContext.globalOpenFileTable[0]?.map
      (fun e => (e.type, e.referenceCount))
      = some (sampleConfig.SIMFS_INVALID_OPEN_FILE_TABLE_INDEX, 0) ∧
    findEmptyInFileTable sampleConfig (closed sampleConfig).simfsContext.globalOpenFileTable
      sampleConfig.SIMFS_MAX_NUMBER_OF_OPEN_FILES 0 = .ok 1 ∧
    codeOf (simfsOpenFile sampleConfig nameA (-1) zeroDirEnt zeroPCB (closed sampleConfig))
      = some .SIMFS_NO_ERROR ∧
    (openedOf (simfsOpenFile sampleConfig nameA (-1) zeroDirEnt zeroPCB
      (closed sampleConfig))).2 = 1 :=
  ⟨(C4_closed_slot_not_reported_free sampleConfig (opened sampleConfig) (closed sampleConfig)
      0 (slotOf (opened sampleConfig) 0) .SIMFS_NO_ERROR (by decide) (by decide!) (by decide!)
      (eq_ok_of_codeOf (by decide!))).2.2,
    by decide!⟩

/-! ## Name resolution -/

theorem findSlot_some (cfg : Config) (vol : Volume) (fileName : List Nat) (index : Index) :
    ∀ (todo j k : Nat), findSlot cfg vol fileName index todo j = .ok (some k) →
      index.get k ≠ 0 ∧ ∃ d, readAt vol.block (index.get k) = .ok d ∧
        (d.type = cfg.SIMFS_FOLDER_CONTENT_TYPE ∨ d.type = cfg.SIMFS_FILE_CONTENT_TYPE) ∧
        d.fileDescriptor.name = fileName := by
  intro todo
  induction todo with
  | zero =>
    intro j k h
    simp [findSlot] at h
  | succ n ih =>
    intro j k h
    unfold findSlot at h
    by_cases h0 : index.get j ≠ 0
    · rw [if_pos h0] at h
      simp only [bind_eq_ok] at h
      obtain ⟨b, hb, h⟩ := h
      split at h
      · next hc =>
        simp only [pure_eq_ok, Option.some.injEq] at h
        subst h
        exact ⟨h0, b, hb, hc.1, hc.2⟩
      · exact ih _ _ h
    · rw [if_neg h0] at h
      exact ih _ _ h

theorem findFileFrom_some (cfg : Config) (vol : Volume) (fileName : List Nat) :
    ∀ (fuel node : Nat) (ff : ffret),
      findFileFrom cfg vol fileName fuel node = .ok (some ff) →
      ∃ b d, readAt vol.block ff.index = .ok b ∧ b.index.get ff.number ≠ 0 ∧
        readAt vol.block (b.index.get ff.number) = .ok d ∧
        (d.type = cfg.SIMFS_FOLDER_CONTENT_TYPE ∨ d.type = cfg.SIMFS_FILE_CONTENT_TYPE) ∧
        d.fileDescriptor.name = fileName := by
  intro fuel
  induction fuel with
  | zero =>
    intro node ff h
    simp [findFileFrom] at h
  | succ n ih =>
    intro node ff h
    unfold findFileFrom at h
    simp only [bind_eq_ok] at h
    obtain ⟨b, hb, found, hfound, h⟩ := h
    cases found with
    | some j =>
      simp only [pure_eq_ok, Option.some.injEq] at h
      subst h
      obtain ⟨h0, d, hd, ht, hn⟩ := findSlot_some cfg vol fileName b.index _ _ _ hfound
      exact ⟨b, d, hb, h0, hd, ht, hn⟩
    | none =>
      simp only at h
      split at h
      · exact ih _ _ h
      · simp [pure, Except.pure] at h

/-- What a match of `findFile` refers to: a non-empty slot of a block that can be read,
whose entry is a block tagged folder or file with the name looked for. -/
theorem findFile_some {cfg : Config} {s : State} {fileName : List Nat} {ff : ffret}
    (h : findFile cfg s fileName = .ok (some ff)) :
    ∃ b d, readAt s.simfsVolume.block ff.index = .ok b ∧ b.index.get ff.number ≠ 0 ∧
      readAt s.simfsVolume.block (b.index.get ff.number) = .ok d ∧
      (d.type = cfg.SIMFS_FOLDER_CONTENT_TYPE ∨ d.type = cfg.SIMFS_FILE_CONTENT_TYPE) ∧
      d.fileDescriptor.name = fileName := by
  unfold findFile at h
  split at h
  · exact absurd h (by simp)
  · exact findFileFrom_some cfg _ fileName _ _ _ h

/-! ## C14, C15, C16 -/

/-- C14: when the name does not resolve (`findFile` returns `NULL`), `simfsDeleteFile` and
`simfsOpenFile` each return `SIMFS_NOT_FOUND_ERROR`; the whole state (volume, both
bitmaps, directory, global open-file table) and the caller's handle variable are what
they were before the call. -/
theorem C14_unresolved_name_not_found (cfg : Config) (s : State) (fileName : List Nat)
    (fileHandle : Int) (rawNode : DirEnt) (rawPCB : ProcessControlBlock)
    (h : findFile cfg s fileName = .ok none) :
    simfsDeleteFile cfg fileName s = .ok (.SIMFS_NOT_FOUND_ERROR, s) ∧
    simfsOpenFile cfg fileName fileHandle rawNode rawPCB s
      = .ok (.SIMFS_NOT_FOUND_ERROR, s, fileHandle) := by
  constructor
  · simp [simfsDeleteFile, h, bind, Except.bind, pure, Except.pure]
  · simp [simfsOpenFile, h, bind, Except.bind, pure, Except.pure]

/-- Witness of C14: on the freshly mounted sample volume "a" does not resolve; delete and
open report not found and the handle keeps its value 7. -/
theorem C14_unresolved_name_not_found_witness :
    findFile sampleConfig (mounted sampleConfig) nameA = .ok none ∧
    simfsDeleteFile sampleConfig nameA (mounted sampleConfig)
      = .ok (.SIMFS_NOT_FOUND_ERROR, mounted sampleConfig) ∧
    simfsOpenFile sampleConfig nameA 7 zeroDirEnt zeroPCB (mounted sampleConfig)
      = .ok (.SIMFS_NOT_FOUND_ERROR, mounted sampleConfig, 7) :=
  ⟨by decide!,
    C14_unresolved_name_not_found sampleConfig (mounted sampleConfig) nameA 7 zeroDirEnt
      zeroPCB (by decide!)⟩

/-- C15 (what the code does): when the name does not resolve, `simfsGetFileInfo` does not
return `SIMFS_NOT_FOUND_ERROR`: it reads through the null pointer that `findFile`
returned, and the run leaves the defined behaviour of the language. -/
theorem C15_getInfo_absent_name_faults (cfg : Config) (s : State) (fileName : List Nat)
    (infoBuffer : FileDescriptor) (h : findFile cfg s fileName = .ok none) :
    simfsGetFileInfo cfg fileName infoBuffer s = .error .undefinedBehaviour := by
  simp [simfsGetFileInfo, h, bind, Except.bind]

/-- Witness of C15: `simfsGetFileInfo("a", ..)` on the freshly mounted sample volume. -/
theorem C15_getInfo_absent_name_faults_witness :
    findFile sampleConfig (mounted sampleConfig) nameA = .ok none ∧
    simfsGetFileInfo sampleConfig nameA zeroDescriptor (mounted sampleConfig)
      = .error .undefinedBehaviour :=
  ⟨by decide!,
    C15_getInfo_absent_name_faults sampleConfig (mounted sampleConfig) nameA zeroDescriptor
      (by decide!)⟩

/-- C16: when the name resolves, to the slot `ff` of `findFile`, the block `d` that the
slot refers to can be read, `simfsGetFileInfo` returns `SIMFS_NO_ERROR`, the buffer holds
the descriptor of `d` field by field (identifier, name, type, access rights, owner, size,
the three times, content reference), and the state (volume, bitmaps, directory, open-file
tables) is the one before the call. -/
theorem C16_getInfo_pure_read (cfg : Config) (s : State) (fileName : List Nat)
    (infoBuffer : FileDescriptor) (ff : ffret)
    (h : findFile cfg s fileName = .ok (some ff)) :
    ∃ node d, s.simfsVolume.block[ff.index]? = some node ∧
      s.simfsVolume.block[node.index.get ff.number]? = some d ∧
      simfsGetFileInfo cfg fileName infoBuffer s
        = .ok (.SIMFS_NO_ERROR, s, d.fileDescriptor) := by
  obtain ⟨node, d, hnode, -, hd, -, -⟩ := findFile_some h
  refine ⟨node, d, readAt_ok hnode, readAt_ok hd, ?_⟩
  simp only [simfsGetFileInfo, h, hnode, hd, bind, Except.bind, pure, Except.pure]

/-- Witness of C16 in the sample run: "a" resolves to slot 0 of block 0, which refers to
block 2, and the buffer receives the descriptor of block 2. -/
theorem C16_getInfo_pure_read_witness :
    findFile sampleConfig (withA sampleConfig) nameA
      = .ok (some { index := 0, number := 0 }) ∧
    (∃ node d, (withA sampleConfig).simfsVolume.block[0]? = some node ∧
      (withA sampleConfig).simfsVolume.block[node.index.get 0]? = some d ∧
      simfsGetFileInfo sampleConfig nameA zeroDescriptor (withA sampleConfig)
        = .ok (.SIMFS_NO_ERROR, withA sampleConfig, d.fileDescriptor)) ∧
    (blockOf (withA sampleConfig) 0).index.get 0 = 2 ∧
    (blockOf (withA sampleConfig) 2).fileDescriptor
      = { zeroDescriptor with identifier := 2, type := 2, name := nameA } :=
  ⟨by decide!,
    C16_getInfo_pure_read sampleConfig (withA sampleConfig) nameA zeroDescriptor
      { index := 0, number := 0 } (by decide!),
    by decide!⟩

/-! ## C12, C13 -/

theorem readAt_of_getElem? {α : Type} {xs : List α} {i : Nat} {x : α}
    (h : xs[i]? = some x) : readAt xs i = .ok x := by
  simp [readAt, h]

theorem someSlotUsed_of_exists (index : Index) :
    ∀ (todo i k : Nat), i ≤ k → k < i + todo → index.get k ≠ 0 →
      someSlotUsed index todo i = true := by
  intro todo
  induction todo with
  | zero => intro i k h1 h2; omega
  | succ n ih =>
    intro i k h1 h2 hk
    unfold someSlotUsed
    by_cases hi : index.get i ≠ 0
    · rw [if_pos hi]
    · rw [if_neg hi]
      have hne : i ≠ k := fun h => hi (h ▸ hk)
      exact ih (i + 1) k (by omega) (by omega) hk

theorem map_index_set_type (blocks : List Block) (k b : Nat) (x : Block) (t : Int)
    (h : blocks[k]? = some x) :
    (blocks.set k { x with type := t })[b]?.map (fun y : Block => y.index)
      = blocks[b]?.map (fun y : Block => y.index) := by
  rw [List.getElem?_set]
  by_cases hkb : k = b
  · subst hkb
    rw [if_pos rfl, if_pos (List.getElem?_eq_some.mp h).1, h]
    rfl
  · rw [if_neg hkb]

/-- `simfsDeleteFile` assigns no element of an `index` member. -/
theorem simfsDeleteFile_index {cfg : Config} {fileName : List Nat} {s s' : State}
    {e : SIMFS_ERROR} (h : simfsDeleteFile cfg fileName s = .ok (e, s')) (b : Nat) :
    s'.simfsVolume.block[b]?.map (fun y : Block => y.index)
      = s.simfsVolume.block[b]?.map (fun y : Block => y.index) := by
  unfold simfsDeleteFile at h
  simp only [bind_eq_ok] at h
  obtain ⟨found, -, h⟩ := h
  cases found with
  | none =>
    simp only [pure_eq_ok, Prod.mk.injEq] at h
    rw [← h.2]
  | some indexPoint =>
    simp only [bind_eq_ok] at h
    obtain ⟨node, -, descriptor, -, block, -, h⟩ := h
    split at h
    · split at h
      · simp only [pure_eq_ok, Prod.mk.injEq] at h
        rw [← h.2]
      · simp only [bind_eq_ok, pure_eq_ok, Prod.mk.injEq] at h
        obtain ⟨vbits, -, cbits, -, -, h⟩ := h
        rw [← h]
    · split at h
      · simp only [bind_eq_ok, pure_eq_ok, Prod.mk.injEq] at h
        obtain ⟨v1, -, c1, -, v2, -, c2, -, blocks, hblocks, -, h⟩ := h
        obtain ⟨x, hx, hset⟩ := modifyAt_ok hblocks
        rw [← h, hset]
        exact map_index_set_type _ _ _ _ _ hx
      · simp only [pure_eq_ok, Prod.mk.injEq] at h
        rw [← h.2]

/-- C13 (what the code does): whenever the name resolves, to the slot `ip` of
`findFile`, and `simfsDeleteFile` returns, the slot that referred to the descriptor still
holds the same block number, which is not 0: the slot of the parent's index is not
emptied. -/
theorem C13_delete_keeps_slot (cfg : Config) (s s' : State) (fileName : List Nat)
    (ip : ffret) (e : SIMFS_ERROR)
    (hfind : findFile cfg s fileName = .ok (some ip))
    (hdel : simfsDeleteFile cfg fileName s = .ok (e, s')) :
    ∃ node node', s.simfsVolume.block[ip.index]? = some node ∧
      s'.simfsVolume.block[ip.index]? = some node' ∧
      node'.index.get ip.number = node.index.get ip.number ∧
      node.index.get ip.number ≠ 0 := by
  obtain ⟨node, d, hnode, h0, -, -, -⟩ := findFile_some hfind
  have hidx := simfsDeleteFile_index hdel ip.index
  rw [readAt_ok hnode] at hidx
  cases hn' : s'.simfsVolume.block[ip.index]? with
  | none => rw [hn'] at hidx; simp at hidx
  | some node' =>
    rw [hn'] at hidx
    simp only [Option.map_some', Option.some.injEq] at hidx
    exact ⟨node, node', readAt_ok hnode, rfl, by rw [hidx], h0⟩

/-- Witness of C13 in the sample run: `simfsDeleteFile("a")` returns `SIMFS_NO_ERROR`;
afterwards slot 0 of the root still holds 2 and bit 2, the bit of the descriptor's own
block, is still set; the name no longer resolves, block 2 being tagged invalid. -/
theorem C13_delete_keeps_slot_witness :
    (∃ node node', (withA sampleConfig).simfsVolume.block[0]? = some node ∧
      (afterDelete sampleConfig).simfsVolume.block[0]? = some node' ∧
      node'.index.get 0 = node.index.get 0 ∧ node.index.get 0 ≠ 0) ∧
    codeOf (simfsDeleteFile sampleConfig nameA (withA sampleConfig)) = some .SIMFS_NO_ERROR ∧
    (blockOf (afterDelete sampleConfig) 0).index.get 0 = 2 ∧
    bitIsSet (afterDelete sampleConfig).simfsVolume.bitvector 2 = true ∧
    findFile sampleConfig (afterDelete sampleConfig) nameA = .ok none :=
  ⟨C13_delete_keeps_slot sampleConfig (withA sampleConfig) (afterDelete sampleConfig) nameA
      { index := 0, number := 0 } .SIMFS_NO_ERROR (by decide!) (eq_ok_of_codeOf (by decide!)),
    by decide!⟩


/-! ## C11 -/

theorem firstEmptySlot_zero {index : Index} {j : Nat} (h0 : index.get 0 = 0)
    (h : firstEmptySlot index 6 0 = some j) : j = 0 := by
  unfold firstEmptySlot at h
  rw [if_pos h0] at h
  injection h with h
  exact h.symm

/-- C11 (what the code does): whenever `simfsCreateFile(name, SIMFS_FILE_CONTENT_TYPE)`
returns `SIMFS_NO_ERROR`, having taken block `i`, not 0, `simfsGetFileInfo(name, buf)`
returns `SIMFS_NO_ERROR` and `buf` holds the name, the type file, the access rights of
slot 0 of the global open-file table and the identifier; its size, content reference,
owner and times are those that block `i` held before the create: `simfsCreateFile` does
not assign them. -/
theorem C11_getInfo_after_create (cfg : Config) (s s1 : State) (fileName : List Nat)
    (fresh : DirEnt) (infoBuffer : FileDescriptor)
    (hc : simfsCreateFile cfg fileName cfg.SIMFS_FILE_CONTENT_TYPE fresh s
      = .ok (.SIMFS_NO_ERROR, s1)) :
    ∃ i old slot0, simfsFindFreeBlock s.simfsVolume.bitvector = .ok i ∧
      s.simfsVolume.block[i]? = some old ∧
      s.simfsContext.globalOpenFileTable[0]? = some slot0 ∧
      (i ≠ 0 → simfsGetFileInfo cfg fileName infoBuffer s1
        = .ok (.SIMFS_NO_ERROR, s1,
            { old.fileDescriptor with
              type := cfg.SIMFS_FILE_CONTENT_TYPE
              name := fileName
              accessRights := slot0.accessRights
              identifier := s.simfsVolume.superblock.nextUniqueIdentifier })) := by
  obtain ⟨pcb, tail, i, bits, node, j, blocks1, slot0, blocks2, ctx, bucket, created, list,
    hpcb, -, hi, -, hnode, h0, hj, hb1, hslot0, hb2, hhash, hcreated, -, hs1⟩ :=
    simfsCreateFile_ok hc
  have hj0 := firstEmptySlot_zero h0 hj
  subst hj0
  obtain ⟨x1, hx1, hset1⟩ := modifyAt_ok hb1
  obtain ⟨x2, hx2, hset2⟩ := modifyAt_ok hb2
  obtain ⟨-, oldc, c, -, -, hctx⟩ := findEmptyHash_ok hhash
  have hnode1 : x1 = node := by
    have := readAt_ok hnode
    rw [hx1] at this
    injection this
  subst hnode1
  have hcwd : pcb.currentWorkingDirectory < s.simfsVolume.block.length :=
    (List.getElem?_eq_some.mp hx1).1
  have hlen1 : blocks1.length = s.simfsVolume.block.length := by rw [hset1]; simp
  have hilt1 : i < blocks1.length := (List.getElem?_eq_some.mp hx2).1
  have hilt : i < s.simfsVolume.block.length := by omega
  -- the block taken, before the call
  obtain ⟨old, hold⟩ : ∃ old, s.simfsVolume.block[i]? = some old :=
    ⟨_, List.getElem?_eq_getElem hilt⟩
  have hx2fd : x2.fileDescriptor = old.fileDescriptor := by
    rw [hset1, List.getElem?_set] at hx2
    by_cases hci : pcb.currentWorkingDirectory = i
    · rw [if_pos hci, if_pos hcwd] at hx2
      injection hx2 with hx2
      rw [hci, hold] at hx1
      injection hx1 with hx1
      rw [← hx2, hx1]
    · rw [if_neg hci, hold] at hx2
      injection hx2 with hx2
      rw [hx2]
  refine ⟨i, old, slot0, hi, hold, readAt_ok hslot0, ?_⟩
  intro hi0
  -- the block of the current directory, after the call
  have hcwd1 : pcb.currentWorkingDirectory < blocks1.length := by omega
  obtain ⟨nodeNew, hnew, hnewidx⟩ : ∃ nodeNew,
      blocks2[pcb.currentWorkingDirectory]? = some nodeNew ∧
      nodeNew.index = x1.index.set 0 i := by
    rw [hset2, List.getElem?_set]
    by_cases hci : i = pcb.currentWorkingDirectory
    · rw [if_pos hci, if_pos hilt1]
      refine ⟨_, rfl, ?_⟩
      rw [hset1, hci, getElem?_set_self hcwd] at hx2
      injection hx2 with hx2
      rw [← hx2, hci]
    · rw [if_neg hci, hset1, getElem?_set_self hcwd]
      exact ⟨_, rfl, rfl⟩
  have hget0 : nodeNew.index.get 0 = i := by rw [hnewidx]; rfl
  have hcr : blocks2[i]? = some created := readAt_ok hcreated
  have hcreated_eq : created =
      { x2 with
        type := cfg.SIMFS_FILE_CONTENT_TYPE
        fileDescriptor :=
          { x2.fileDescriptor with
            type := cfg.SIMFS_FILE_CONTENT_TYPE
            name := fileName
            accessRights := slot0.accessRights
            identifier := s.simfsVolume.superblock.nextUniqueIdentifier } } := by
    rw [hset2, getElem?_set_self hilt1] at hcr
    injection hcr with hcr
    exact hcr.symm
  have hlen2 : blocks2.length = blocks1.length := by rw [hset2]; simp
  -- `findFile` finds the new entry in slot 0
  have hfind : findFile cfg s1 fileName
      = .ok (some { index := pcb.currentWorkingDirectory, number := 0 }) := by
    subst hs1
    simp only [findFile, hctx, hpcb]
    rw [hlen2, hlen1]
    unfold findFileFrom
    simp only [readAt_of_getElem? hnew, bind, Except.bind]
    unfold findSlot
    rw [hget0, if_pos hi0]
    simp only [readAt_of_getElem? hcr, bind, Except.bind]
    rw [hcreated_eq]
    simp [pure, Except.pure]
  subst hs1
  simp only [simfsGetFileInfo, hfind, readAt_of_getElem? hnew, hget0,
    readAt_of_getElem? hcr, bind, Except.bind, pure, Except.pure]
  rw [hcreated_eq, hx2fd]

/-- Witness of C11 on storage that is not zero-filled: block 2 of `staleVolume` holds a
descriptor with size 7 and content reference 9; after create-file-system, mount and
`simfsCreateFile("a", SIMFS_FILE_CONTENT_TYPE)`, which returns `SIMFS_NO_ERROR`,
`simfsGetFileInfo("a", buf)` reports the name "a", the type file, size 7 and content
reference 9. -/
theorem C11_getInfo_after_create_witness :
    codeOf (simfsCreateFile sampleConfig nameA sampleConfig.SIMFS_FILE_CONTENT_TYPE zeroDirEnt
      staleMounted) = some .SIMFS_NO_ERROR ∧
    (infoOf zeroDescriptor
      (simfsGetFileInfo sampleConfig nameA zeroDescriptor staleWithA)).name = nameA ∧
    (infoOf zeroDescriptor
      (simfsGetFileInfo sampleConfig nameA zeroDescriptor staleWithA)).type
        = sampleConfig.SIMFS_FILE_CONTENT_TYPE ∧
    (infoOf zeroDescriptor
      (simfsGetFileInfo sampleConfig nameA zeroDescriptor staleWithA)).size = 7 ∧
    (infoOf zeroDescriptor
      (simfsGetFileInfo sampleConfig nameA zeroDescriptor staleWithA)).block_ref = 9 := by
  obtain ⟨i, old, slot0, hi, hold, -, h⟩ :=
    C11_getInfo_after_create sampleConfig staleMounted staleWithA nameA zeroDirEnt
      zeroDescriptor (eq_ok_of_codeOf (by decide!))
  have hi2 : i = 2 := by
    have h2 : simfsFindFreeBlock staleMounted.simfsVolume.bitvector = .ok 2 := by decide!
    rw [hi] at h2
    injection h2
  subst hi2
  have hold2 : (staleMounted.simfsVolume.block[2]?).map
      (fun b : Block => (b.fileDescriptor.size, b.fileDescriptor.block_ref))
      = some (7, 9) := by decide!
  rw [hold] at hold2
  simp only [Option.map_some', Option.some.injEq, Prod.mk.injEq] at hold2
  refine ⟨by decide!, ?_⟩
  rw [h (by decide)]
  simp only [infoOf]
  exact ⟨trivial, trivial, hold2.1, hold2.2⟩

/-! ## Open and close -/

theorem modifyAt_of_getElem? {α : Type} {xs : List α} {i : Nat} {x : α} (f : α → α)
    (h : xs[i]? = some x) : modifyAt xs i f = .ok (xs.set i (f x)) := by
  simp [modifyAt, h]

/-- C20 (what the code does): for every handle `h` of a slot `e` of the global
open-file table, `simfsCloseFile(h)` returns `SIMFS_NO_ERROR`.  When the count of `e` is
not 1 the slot keeps all its other fields and has its count lowered by one, nothing
else changing.  When the count is 1 (and `directory[e.fileDescriptor]` is a node) the
count becomes 0, the link of that node is reset to `SIMFS_INVALID_OPEN_FILE_TABLE_INDEX`,
the descriptor of the slot becomes `SIMFS_INVALID_INDEX`, and the type of the slot
becomes `SIMFS_INVALID_OPEN_FILE_TABLE_INDEX`, which is not the value
`SIMFS_INVALID_CONTENT_TYPE` that marks a free slot. -/
theorem C20_close_releases (cfg : Config) (s : State) (h : Nat) (e : GlobalOpenFile)
    (hslot : s.simfsContext.globalOpenFileTable[h]? = some e) :
    (e.referenceCount ≠ 1 →
      simfsCloseFile cfg (h : Int) s = .ok (.SIMFS_NO_ERROR,
        { s with simfsContext :=
            { s.simfsContext with
              globalOpenFileTable := s.simfsContext.globalOpenFileTable.set h
                { e with referenceCount := e.referenceCount - 1 } } })) ∧
    (e.referenceCount = 1 → ∀ (d : DirEnt) (next : Chain),
      s.simfsContext.directory[e.fileDescriptor]? = some (.node d next) →
      simfsCloseFile cfg (h : Int) s = .ok (.SIMFS_NO_ERROR,
        { s with simfsContext :=
            { s.simfsContext with
              globalOpenFileTable := s.simfsContext.globalOpenFileTable.set h
                { e with
                  referenceCount := 0
                  type := cfg.SIMFS_INVALID_OPEN_FILE_TABLE_INDEX
                  fileDescriptor := cfg.SIMFS_INVALID_INDEX }
              directory := s.simfsContext.directory.set e.fileDescriptor
                (.node { d with
                  globalOpenFileTableIndex := cfg.SIMFS_INVALID_OPEN_FILE_TABLE_INDEX }
                  next) } })) := by
  constructor
  · intro hn
    have hn' : ¬ e.referenceCount - 1 = 0 := by omega
    simp only [simfsCloseFile, readAtInt_natCast, modifyAtInt_natCast,
      readAt_of_getElem? hslot, modifyAt_of_getElem? _ hslot, hn', bind, Except.bind, pure,
      Except.pure, ↓reduceIte]
  · intro h1 d next hdir
    have h0 : e.referenceCount - 1 = 0 := by omega
    simp only [simfsCloseFile, readAtInt_natCast, modifyAtInt_natCast,
      readAt_of_getElem? hslot, modifyAt_of_getElem? _ hslot, readAt_of_getElem? hdir, h0,
      bind, Except.bind, pure, Except.pure, ↓reduceIte]

/-- Witness of C20 in the sample run: "a" is opened twice (slot 0, count 2).  The first
`simfsCloseFile(0)` leaves the slot with type file and count 1; the second leaves it with
count 0, type `SIMFS_INVALID_OPEN_FILE_TABLE_INDEX` (-1) and descriptor
`SIMFS_INVALID_INDEX`, and resets the link of `directory[2]`; `findEmptyInFileTable` then
reports slot 1, not slot 0. -/
theorem C20_close_releases_witness :
    simfsCloseFile sampleConfig ((0 : Nat) : Int) (openedTwice sampleConfig)
      = .ok (.SIMFS_NO_ERROR,
        { openedTwice sampleConfig with simfsContext :=
            { (openedTwice sampleConfig).simfsContext with
              globalOpenFileTable :=
                (openedTwice sampleConfig).simfsContext.globalOpenFileTable.set 0
                  { slotOf (openedTwice sampleConfig) 0 with
                    referenceCount :=
                      (slotOf (openedTwice sampleConfig) 0).referenceCount - 1 } } }) ∧
    simfsCloseFile sampleConfig ((0 : Nat) : Int) (closedOnce sampleConfig)
      = .ok (.SIMFS_NO_ERROR,
        { closedOnce sampleConfig with simfsContext :=
            { (closedOnce sampleConfig).simfsContext with
              globalOpenFileTable :=
                (closedOnce sampleConfig).simfsContext.globalOpenFileTable.set 0
                  { slotOf (closedOnce sampleConfig) 0 with
                    referenceCount := 0
                    type := sampleConfig.SIMFS_INVALID_OPEN_FILE_TABLE_INDEX
                    fileDescriptor := sampleConfig.SIMFS_INVALID_INDEX }
              directory := (closedOnce sampleConfig).simfsContext.directory.set
                (slotOf (closedOnce sampleConfig) 0).fileDescriptor
                (.node { zeroDirEnt with
                  globalOpenFileTableIndex :=
                    sampleConfig.SIMFS_INVALID_OPEN_FILE_TABLE_INDEX } .wild) } }) ∧
    (slotOf (openedTwice sampleConfig) 0).referenceCount = 2 ∧
    (slotOf (closedOnce sampleConfig) 0).referenceCount = 1 ∧
    (slotOf (closedOnce sampleConfig) 0).type = sampleConfig.SIMFS_FILE_CONTENT_TYPE ∧
    (slotOf (closedTwice sampleConfig) 0).referenceCount = 0 ∧
    (slotOf (closedTwice sampleConfig) 0).type = -1 ∧
    sampleConfig.SIMFS_INVALID_CONTENT_TYPE = 0 ∧
    (closedTwice sampleConfig).simfsContext.directory[2]?
      = some (.node { zeroDirEnt with globalOpenFileTableIndex := -1 } .wild) ∧
    findEmptyInFileTable sampleConfig
      (closedTwice sampleConfig).simfsContext.globalOpenFileTable
      sampleConfig.SIMFS_MAX_NUMBER_OF_OPEN_FILES 0 = .ok 1 := by
  have h : ((openedTwice sampleConfig).simfsContext.globalOpenFileTable[0]?
        = some (slotOf (openedTwice sampleConfig) 0) ∧
      (slotOf (openedTwice sampleConfig) 0).referenceCount ≠ 1 ∧
      (closedOnce sampleConfig).simfsContext.globalOpenFileTable[0]?
        = some (slotOf (closedOnce sampleConfig) 0) ∧
      (slotOf (closedOnce sampleConfig) 0).referenceCount = 1 ∧
      (closedOnce sampleConfig).simfsContext.directory[
          (slotOf (closedOnce sampleConfig) 0).fileDescriptor]?
        = some (.node { zeroDirEnt with globalOpenFileTableIndex := 0 } .wild)) ∧
      (slotOf (openedTwice sampleConfig) 0).referenceCount = 2 ∧
      (slotOf (closedOnce sampleConfig) 0).referenceCount = 1 ∧
      (slotOf (closedOnce sampleConfig) 0).type = sampleConfig.SIMFS_FILE_CONTENT_TYPE ∧
      (slotOf (closedTwice sampleConfig) 0).referenceCount = 0 ∧
      (slotOf (closedTwice sampleConfig) 0).type = -1 ∧
      sampleConfig.SIMFS_INVALID_CONTENT_TYPE = 0 ∧
      (closedTwice sampleConfig).simfsContext.directory[2]?
        = some (.node { zeroDirEnt with globalOpenFileTableIndex := -1 } .wild) ∧
      findEmptyInFileTable sampleConfig
        (closedTwice sampleConfig).simfsContext.globalOpenFileTable
        sampleConfig.SIMFS_MAX_NUMBER_OF_OPEN_FILES 0 = .ok 1 := by decide!
  exact ⟨(C20_close_releases sampleConfig (openedTwice sampleConfig) 0
      (slotOf (openedTwice sampleConfig) 0) h.1.1).1 h.1.2.1,
    (C20_close_releases sampleConfig (closedOnce sampleConfig) 0
      (slotOf (closedOnce sampleConfig) 0) h.1.2.2.1).2 h.1.2.2.2.1
      { zeroDirEnt with globalOpenFileTableIndex := 0 } .wild h.1.2.2.2.2,
    h.2⟩

/-- C17 (what the code does): whenever the name resolves to the descriptor block `d`,
`directory[d]` carries no link to a slot and `findEmptyInFileTable` reports slot `k`,
`simfsOpenFile(name, &h)` returns `SIMFS_NO_ERROR` with `h = k`; slot `k` had type
`SIMFS_INVALID_CONTENT_TYPE` and now has count 1, descriptor `d` and the type, access
rights, owner, size and times of block `d`, the other slots being unchanged.  The
directory is changed in bucket `d` only, the bucket numbered by the descriptor block:
it is replaced by one new node linked to `k`, whose other members and `next` are what
the allocation held.  Every other bucket, the bucket `hash(name)` of the file's entry
included when it is not `d`, is left as it was. -/
theorem C17_first_open_links_block_bucket (cfg : Config) (s : State) (fileName : List Nat)
    (fileHandle : Int) (rawNode : DirEnt) (rawPCB : ProcessControlBlock) (ff : ffret)
    (node : Block) (entry : Chain) (k : Nat)
    (hfind : findFile cfg s fileName = .ok (some ff))
    (hnode : s.simfsVolume.block[ff.index]? = some node)
    (hentry : s.simfsContext.directory[node.index.get ff.number]? = some entry)
    (hclosed : cachedSlot cfg entry = .ok none)
    (hfree : findEmptyInFileTable cfg s.simfsContext.globalOpenFileTable
      cfg.SIMFS_MAX_NUMBER_OF_OPEN_FILES 0 = .ok (k : Int)) :
    ∃ (s' : State) (file : Block) (old : GlobalOpenFile),
      simfsOpenFile cfg fileName fileHandle rawNode rawPCB s
        = .ok (.SIMFS_NO_ERROR, s', (k : Int)) ∧
      s.simfsVolume.block[node.index.get ff.number]? = some file ∧
      s.simfsContext.globalOpenFileTable[k]? = some old ∧
      old.type = cfg.SIMFS_INVALID_CONTENT_TYPE ∧
      s'.simfsContext.globalOpenFileTable
        = s.simfsContext.globalOpenFileTable.set k
            { type := file.type
              fileDescriptor := node.index.get ff.number
              referenceCount := 1
              accessRights := file.fileDescriptor.accessRights
              creationTime := file.fileDescriptor.creationTime
              lastAccessTime := file.fileDescriptor.lastAccessTime
              lastModificationTime := file.fileDescriptor.lastModificationTime
              owner := file.fileDescriptor.owner
              size := file.fileDescriptor.size } ∧
      s'.simfsContext.directory
        = s.simfsContext.directory.set (node.index.get ff.number)
            (.node { rawNode with globalOpenFileTableIndex := (k : Int) } .wild) ∧
      (∀ b : Nat, b ≠ node.index.get ff.number →
        s'.simfsContext.directory[b]? = s.simfsContext.directory[b]?) ∧
      s'.simfsVolume = s.simfsVolume := by
  obtain ⟨b, file, hb, -, hfile, -, -⟩ := findFile_some hfind
  have hbn : b = node := by
    have := readAt_ok hb
    rw [hnode] at this
    injection this with this
    exact this.symm
  subst hbn
  have hfile' := readAt_ok hfile
  rcases findEmptyInFileTable_ok cfg _ _ _ _ hfree with hk | ⟨n, old, hk, hold, htype⟩
  · omega
  · have hnk : n = k := by omega
    subst hnk
    have hk1 : ¬ ((n : Int) = -1) := by omega
    refine ⟨{ s with simfsContext :=
        { s.simfsContext with
          globalOpenFileTable := s.simfsContext.globalOpenFileTable.set n
            { type := file.type
              fileDescriptor := b.index.get ff.number
              referenceCount := 1
              accessRights := file.fileDescriptor.accessRights
              creationTime := file.fileDescriptor.creationTime
              lastAccessTime := file.fileDescriptor.lastAccessTime
              lastModificationTime := file.fileDescriptor.lastModificationTime
              owner := file.fileDescriptor.owner
              size := file.fileDescriptor.size }
          directory := s.simfsContext.directory.set (b.index.get ff.number)
            (.node { rawNode with globalOpenFileTableIndex := (n : Int) } .wild) } },
      file, old, ?_, hfile', hold, htype, rfl, rfl, ?_, rfl⟩
    · simp only [simfsOpenFile, hfind, readAt_of_getElem? hnode,
        readAt_of_getElem? hentry, hclosed, hfree, hk1, setGOFTV, hfile,
        modifyAtInt_natCast, modifyAt_of_getElem? _ hold, bind, Except.bind, pure,
        Except.pure, ↓reduceIte]
    · intro c hc
      simp only
      rw [List.getElem?_set]
      rw [if_neg (fun h => hc h.symm)]


/-- Witness of C17 in the sample run: "a" has its descriptor in block 2 and its entry
in bucket `hash("a") = 4`, whose link is -1.  `simfsOpenFile("a", &h)` returns
`SIMFS_NO_ERROR` with `h = 0`; bucket 4 is as it was, its link still -1, and bucket 2,
empty before, holds a new node linked to slot 0. -/
theorem C17_first_open_links_block_bucket_witness :
    (∃ s', openA sampleConfig = .ok (.SIMFS_NO_ERROR, s', ((0 : Nat) : Int)) ∧
      s'.simfsContext.directory[4]? = (withA sampleConfig).simfsContext.directory[4]? ∧
      s'.simfsContext.directory[2]?
        = some (.node { zeroDirEnt with globalOpenFileTableIndex := 0 } .wild)) ∧
    hash sampleConfig nameA = 4 ∧
    (blockOf (withA sampleConfig) 0).index.get 0 = 2 ∧
    (withA sampleConfig).simfsContext.directory[2]? = some .null ∧
    (withA sampleConfig).simfsContext.directory[4]?
      = some (.node { nodeReference := 0, uniqueFileIdentifier := 2,
                      globalOpenFileTableIndex := -1 } .null) ∧
    (opened sampleConfig).simfsContext.directory[4]?
      = some (.node { nodeReference := 0, uniqueFileIdentifier := 2,
                      globalOpenFileTableIndex := -1 } .null) ∧
    (slotOf (opened sampleConfig) 0).referenceCount = 1 ∧
    (slotOf (opened sampleConfig) 0).fileDescriptor = 2 := by
  have h : (findFile sampleConfig (withA sampleConfig) nameA
        = .ok (some { index := 0, number := 0 }) ∧
      (withA sampleConfig).simfsVolume.block[({ index := 0, number := 0 } : ffret).index]?
        = some (blockOf (withA sampleConfig) 0) ∧
      (withA sampleConfig).simfsContext.directory[
          (blockOf (withA sampleConfig) 0).index.get ({ index := 0, number := 0 } : ffret).number]? = some .null ∧
      findEmptyInFileTable sampleConfig (withA sampleConfig).simfsContext.globalOpenFileTable
        sampleConfig.SIMFS_MAX_NUMBER_OF_OPEN_FILES 0 = .ok ((0 : Nat) : Int) ∧
      2 < (withA sampleConfig).simfsContext.directory.length) ∧
      hash sampleConfig nameA = 4 ∧
      (blockOf (withA sampleConfig) 0).index.get 0 = 2 ∧
      (withA sampleConfig).simfsContext.directory[2]? = some .null ∧
      (withA sampleConfig).simfsContext.directory[4]?
        = some (.node { nodeReference := 0, uniqueFileIdentifier := 2,
                        globalOpenFileTableIndex := -1 } .null) ∧
      (opened sampleConfig).simfsContext.directory[4]?
        = some (.node { nodeReference := 0, uniqueFileIdentifier := 2,
                        globalOpenFileTableIndex := -1 } .null) ∧
      (slotOf (opened sampleConfig) 0).referenceCount = 1 ∧
      (slotOf (opened sampleConfig) 0).fileDescriptor = 2 := by decide!
  refine ⟨?_, h.2⟩
  obtain ⟨s', file, old, hopen, -, -, -, -, hdir, hframe, -⟩ :=
    C17_first_open_links_block_bucket sampleConfig (withA sampleConfig) nameA (-1)
      zeroDirEnt zeroPCB { index := 0, number := 0 } (blockOf (withA sampleConfig) 0)
      .null 0 h.1.1 h.1.2.1 h.1.2.2.1 (by decide) h.1.2.2.2.1
  have hd : (blockOf (withA sampleConfig) 0).index.get 0 = 2 := h.2.2.1
  refine ⟨s', hopen, hframe 4 ?_, ?_⟩
  · rw [hd]
    decide
  · rw [hdir]
    simp only
    rw [hd]
    exact getElem?_set_self h.1.2.2.2.2


/-! ## C28 -/

theorem xor_mod_word (a c : Nat) (hc : c < 2 ^ 64) :
    (a ^^^ c) % 2 ^ 64 = (a % 2 ^ 64) ^^^ c := by
  apply Nat.eq_of_testBit_eq
  intro i
  simp only [Nat.testBit_mod_two_pow, Nat.testBit_xor]
  by_cases hi : i < 64
  · simp [hi]
  · have hci : c.testBit i = false :=
      Nat.testBit_lt_two_pow (lt_of_lt_of_le hc (Nat.pow_le_pow_right (by decide) (by omega)))
    simp [hi, hci]

theorem hashLoop_eq_foldl (str : List Nat) (hb : IsBytes str) : ∀ h : Nat,
    hashLoop h str = str.foldl (fun h c => (((h <<< 5) + h) ^^^ c) % 2 ^ 64) h := by
  induction str with
  | nil => intro h; rfl
  | cons c rest ih =>
    intro h
    have hc : c < 2 ^ 64 := lt_trans (hb c (List.mem_cons_self c rest)) (by decide)
    have hrest : IsBytes rest := fun b hbm => hb b (List.mem_cons_of_mem c hbm)
    rw [hashLoop, List.foldl_cons, ih hrest, xor_mod_word _ _ hc, Nat.mod_add_mod]

/-- C28: for every string of bytes and every `SIMFS_DIRECTORY_SIZE` other than 0,
`hash(s)` is smaller than `SIMFS_DIRECTORY_SIZE`; it is 5381 modulo
`SIMFS_DIRECTORY_SIZE` for the empty string; and it is the value the specification
describes (`hashSpec`), a function of the bytes of the string. -/
theorem C28_hash_within_directory (cfg : Config) (str : List Nat)
    (hsize : 0 < cfg.SIMFS_DIRECTORY_SIZE) (hb : IsBytes str) :
    hash cfg str < cfg.SIMFS_DIRECTORY_SIZE ∧
    hash cfg [] = 5381 % cfg.SIMFS_DIRECTORY_SIZE ∧
    hash cfg str = hashSpec cfg str := by
  refine ⟨Nat.mod_lt _ hsize, rfl, ?_⟩
  unfold hash hashSpec
  rw [hashLoop_eq_foldl str hb]

/-- Witness of C28: the string "a" in the sample configuration (64 buckets) has hash 4,
which is `(5381 * 33 xor 97) mod 64`. -/
theorem C28_hash_within_directory_witness :
    (hash sampleConfig nameA < sampleConfig.SIMFS_DIRECTORY_SIZE ∧
      hash sampleConfig [] = 5381 % sampleConfig.SIMFS_DIRECTORY_SIZE ∧
      hash sampleConfig nameA = hashSpec sampleConfig nameA) ∧
    hash sampleConfig nameA = 4 ∧ hashSpec sampleConfig nameA = 4 ∧
    (5381 * 33 ^^^ 97) % 64 = 4 :=
  ⟨C28_hash_within_directory sampleConfig nameA (by decide) (by decide), by decide!⟩

/-! ## C23, C21, C27 -/

/-- C23: for every handle of a slot of the global open-file table whose `fileDescriptor`
is `SIMFS_INVALID_INDEX`, or whose `fileDescriptor` names a block tagged
`SIMFS_INVALID_CONTENT_TYPE`, `simfsWriteFile` and `simfsReadFile` return
`SIMFS_NOT_FOUND_ERROR`; the state after `simfsWriteFile` (volume blocks and both bitmaps
included) is the state before the call, and `simfsReadFile`, which changes no state,
assigns no buffer. -/
theorem C23_dead_handle_not_found (cfg : Config) (s : State) (h : Nat) (e : GlobalOpenFile)
    (writeBuffer : List Nat)
    (hslot : s.simfsContext.globalOpenFileTable[h]? = some e)
    (hdead : e.fileDescriptor = cfg.SIMFS_INVALID_INDEX ∨
      ∃ b, s.simfsVolume.block[e.fileDescriptor]? = some b ∧
        b.type = cfg.SIMFS_INVALID_CONTENT_TYPE) :
    simfsWriteFile cfg (h : Int) writeBuffer s = .ok (.SIMFS_NOT_FOUND_ERROR, s) ∧
    simfsReadFile cfg (h : Int) s = .ok (.SIMFS_NOT_FOUND_ERROR, none) := by
  by_cases hfd : e.fileDescriptor = cfg.SIMFS_INVALID_INDEX
  · constructor
    · simp only [simfsWriteFile, readAtInt_natCast, readAt_of_getElem? hslot, hfd, bind,
        Except.bind, pure, Except.pure, ↓reduceIte]
    · simp only [simfsReadFile, readAtInt_natCast, readAt_of_getElem? hslot, hfd, bind,
        Except.bind, pure, Except.pure, ↓reduceIte]
  · rcases hdead with hd | ⟨b, hb, htype⟩
    · exact absurd hd hfd
    · constructor
      · simp only [simfsWriteFile, readAtInt_natCast, readAt_of_getElem? hslot, hfd,
          readAt_of_getElem? hb, htype, bind, Except.bind, pure, Except.pure, ↓reduceIte]
      · simp only [simfsReadFile, readAtInt_natCast, readAt_of_getElem? hslot, hfd,
          readAt_of_getElem? hb, htype, bind, Except.bind, pure, Except.pure, ↓reduceIte]

/-- Witness of C23 in the sample run: after "a" has been opened and closed, slot 0 has
`fileDescriptor = SIMFS_INVALID_INDEX`; after "a" has been opened and deleted, slot 0
names block 2, which is tagged invalid.  In both states write and read on handle 0
return `SIMFS_NOT_FOUND_ERROR`. -/
theorem C23_dead_handle_not_found_witness :
    (simfsWriteFile sampleConfig ((0 : Nat) : Int) helloBuffer (closed sampleConfig)
        = .ok (.SIMFS_NOT_FOUND_ERROR, closed sampleConfig) ∧
      simfsReadFile sampleConfig ((0 : Nat) : Int) (closed sampleConfig)
        = .ok (.SIMFS_NOT_FOUND_ERROR, none)) ∧
    (simfsWriteFile sampleConfig ((0 : Nat) : Int) helloBuffer (deletedWhileOpen sampleConfig)
        = .ok (.SIMFS_NOT_FOUND_ERROR, deletedWhileOpen sampleConfig) ∧
      simfsReadFile sampleConfig ((0 : Nat) : Int) (deletedWhileOpen sampleConfig)
        = .ok (.SIMFS_NOT_FOUND_ERROR, none)) ∧
    (slotOf (closed sampleConfig) 0).fileDescriptor = sampleConfig.SIMFS_INVALID_INDEX ∧
    (slotOf (deletedWhileOpen sampleConfig) 0).fileDescriptor = 2 ∧
    (blockOf (deletedWhileOpen sampleConfig) 2).type
      = sampleConfig.SIMFS_INVALID_CONTENT_TYPE := by
  have h : ((closed sampleConfig).simfsContext.globalOpenFileTable[0]?
        = some (slotOf (closed sampleConfig) 0) ∧
      (slotOf (closed sampleConfig) 0).fileDescriptor = sampleConfig.SIMFS_INVALID_INDEX) ∧
      ((deletedWhileOpen sampleConfig).simfsContext.globalOpenFileTable[0]?
        = some (slotOf (deletedWhileOpen sampleConfig) 0) ∧
      (deletedWhileOpen sampleConfig).simfsVolume.block[
          (slotOf (deletedWhileOpen sampleConfig) 0).fileDescriptor]?
        = some (blockOf (deletedWhileOpen sampleConfig) 2) ∧
      (blockOf (deletedWhileOpen sampleConfig) 2).type
        = sampleConfig.SIMFS_INVALID_CONTENT_TYPE ∧
      (slotOf (deletedWhileOpen sampleConfig) 0).fileDescriptor = 2) := by decide!
  exact ⟨C23_dead_handle_not_found sampleConfig (closed sampleConfig) 0
      (slotOf (closed sampleConfig) 0) helloBuffer h.1.1 (Or.inl h.1.2),
    C23_dead_handle_not_found sampleConfig (deletedWhileOpen sampleConfig) 0
      (slotOf (deletedWhileOpen sampleConfig) 0) helloBuffer h.2.1
      (Or.inr ⟨blockOf (deletedWhileOpen sampleConfig) 2, h.2.2.1, h.2.2.2.1⟩),
    h.1.2, h.2.2.2.2, h.2.2.2.1⟩

/-- C21 (what the code does): `simfsCloseFile` does not examine the slot.  For every
handle `h` of a slot whose reference count is 0 or less (a slot that is free or was
fully closed), it returns `SIMFS_NO_ERROR`, not `SIMFS_SYSTEM_ERROR`, and lowers the
count of the slot by one, below 0; the count is kept as an integer, its declared type
being in `simfs.h`. -/
theorem C21_close_dead_handle (cfg : Config) (s : State) (h : Nat) (e : GlobalOpenFile)
    (hslot : s.simfsContext.globalOpenFileTable[h]? = some e)
    (hdead : e.referenceCount ≤ 0) :
    simfsCloseFile cfg (h : Int) s = .ok (.SIMFS_NO_ERROR,
      { s with simfsContext :=
          { s.simfsContext with
            globalOpenFileTable := s.simfsContext.globalOpenFileTable.set h
              { e with referenceCount := e.referenceCount - 1 } } }) ∧
    e.referenceCount - 1 < 0 ∧
    s.simfsContext.globalOpenFileTable.set h { e with referenceCount := e.referenceCount - 1 }
      ≠ s.simfsContext.globalOpenFileTable := by
  have hn' : ¬ e.referenceCount - 1 = 0 := by omega
  refine ⟨?_, by omega, ?_⟩
  · simp only [simfsCloseFile, readAtInt_natCast, modifyAtInt_natCast,
      readAt_of_getElem? hslot, modifyAt_of_getElem? _ hslot, hn', bind, Except.bind, pure,
      Except.pure, ↓reduceIte]
  · intro heq
    have hlt : h < s.simfsContext.globalOpenFileTable.length :=
      (List.getElem?_eq_some.mp hslot).1
    have h1 := @getElem?_set_self GlobalOpenFile _ h
      { e with referenceCount := e.referenceCount - 1 } hlt
    rw [heq, hslot] at h1
    injection h1 with h1
    have h2 := congrArg GlobalOpenFile.referenceCount h1
    simp only at h2
    omega

/-- Witness of C21 in the sample run: after "a" has been opened and closed, slot 0 has
count 0; a second `simfsCloseFile(0)` returns `SIMFS_NO_ERROR` and leaves the count -1.
Slot 1, never used, has count 0, and `simfsCloseFile(1)` returns `SIMFS_NO_ERROR` as
well. -/
theorem C21_close_dead_handle_witness :
    simfsCloseFile sampleConfig ((0 : Nat) : Int) (closed sampleConfig)
      = .ok (.SIMFS_NO_ERROR,
        { closed sampleConfig with simfsContext :=
          { (closed sampleConfig).simfsContext with
            globalOpenFileTable :=
              (closed sampleConfig).simfsContext.globalOpenFileTable.set 0
                { slotOf (closed sampleConfig) 0 with
                  referenceCount := (slotOf (closed sampleConfig) 0).referenceCount - 1 } } }) ∧
    (slotOf (closed sampleConfig) 0).referenceCount = 0 ∧
    (slotOf (stateOf (simfsCloseFile sampleConfig 0 (closed sampleConfig))) 0).referenceCount
      = -1 ∧
    (slotOf (closed sampleConfig) 1).referenceCount = 0 ∧
    codeOf (simfsCloseFile sampleConfig 1 (closed sampleConfig)) = some .SIMFS_NO_ERROR := by
  have h : ((closed sampleConfig).simfsContext.globalOpenFileTable[0]?
        = some (slotOf (closed sampleConfig) 0) ∧
      (slotOf (closed sampleConfig) 0).referenceCount ≤ 0) ∧
      (slotOf (closed sampleConfig) 0).referenceCount = 0 ∧
      (slotOf (stateOf (simfsCloseFile sampleConfig 0 (closed sampleConfig))) 0).referenceCount
        = -1 ∧
      (slotOf (closed sampleConfig) 1).referenceCount = 0 ∧
      codeOf (simfsCloseFile sampleConfig 1 (closed sampleConfig))
        = some .SIMFS_NO_ERROR := by decide!
  exact ⟨(C21_close_dead_handle sampleConfig (closed sampleConfig) 0
      (slotOf (closed sampleConfig) 0) h.1.1 h.1.2).1, h.2⟩

theorem simfsFlipBit_ne {bv bv' : List Nat} {k : Nat} (hb : IsBytes bv) (hk : k < 65536)
    (h : simfsFlipBit bv k = .ok bv') : bv' ≠ bv := by
  intro heq
  have hbit := simfsFlipBit_bit hb hk h
  rw [heq] at hbit
  cases hx : bitIsSet bv k <;> rw [hx] at hbit <;> exact absurd hbit (by decide)

/-- C27 (what the code does): `simfsCreateFile` flips the bit of the block it takes in
the bitmap of the volume only.  Whenever it returns `SIMFS_NO_ERROR` from a state in
which the two bitmaps are equal, the bit of the block taken has changed in the bitmap of
the volume, the working bitmap of the context is the one before the call, and the two
bitmaps differ. -/
theorem C27_create_desynchronises (cfg : Config) (s s' : State) (fileName : List Nat)
    (type : Int) (fresh : DirEnt)
    (hb : IsBytes s.simfsVolume.bitvector)
    (hsync : s.simfsContext.bitvector = s.simfsVolume.bitvector)
    (hc : simfsCreateFile cfg fileName type fresh s = .ok (.SIMFS_NO_ERROR, s')) :
    ∃ i, simfsFindFreeBlock s.simfsVolume.bitvector = .ok i ∧
      bitIsSet s'.simfsVolume.bitvector i = !bitIsSet s.simfsVolume.bitvector i ∧
      s'.simfsContext.bitvector = s.simfsContext.bitvector ∧
      s'.simfsContext.bitvector ≠ s'.simfsVolume.bitvector := by
  obtain ⟨pcb, tail, i, bits, node, j, blocks1, slot0, blocks2, ctx, bucket, created, list,
    -, -, hi, hbits, -, -, -, -, -, -, hhash, -, -, hs'⟩ := simfsCreateFile_ok hc
  obtain ⟨-, old, c, -, -, hctx⟩ := findEmptyHash_ok hhash
  subst hs'
  subst hctx
  refine ⟨i, hi, simfsFlipBit_bit hb (simfsFindFreeBlock_lt hi) hbits, rfl, ?_⟩
  show s.simfsContext.bitvector ≠ bits
  rw [hsync]
  exact fun heq => simfsFlipBit_ne hb (simfsFindFreeBlock_lt hi) hbits heq.symm

/-- Witness of C27 in the sample run: after `simfsMountFileSystem` the two bitmaps are
equal; after `simfsCreateFile("a", SIMFS_FILE_CONTENT_TYPE)`, which returns
`SIMFS_NO_ERROR` and takes block 2, bit 2 is set in the bitmap of the volume and clear
in the bitmap of the context. -/
theorem C27_create_desynchronises_witness :
    (∃ i, simfsFindFreeBlock (mounted sampleConfig).simfsVolume.bitvector = .ok i ∧
      bitIsSet (withA sampleConfig).simfsVolume.bitvector i
        = !bitIsSet (mounted sampleConfig).simfsVolume.bitvector i ∧
      (withA sampleConfig).simfsContext.bitvector
        = (mounted sampleConfig).simfsContext.bitvector ∧
      (withA sampleConfig).simfsContext.bitvector
        ≠ (withA sampleConfig).simfsVolume.bitvector) ∧
    (mounted sampleConfig).simfsContext.bitvector
      = (mounted sampleConfig).simfsVolume.bitvector ∧
    simfsFindFreeBlock (mounted sampleConfig).simfsVolume.bitvector = .ok 2 ∧
    bitIsSet (withA sampleConfig).simfsVolume.bitvector 2 = true ∧
    bitIsSet (withA sampleConfig).simfsContext.bitvector 2 = false := by
  have h : (IsBytes (mounted sampleConfig).simfsVolume.bitvector ∧
      codeOf (simfsCreateFile sampleConfig nameA sampleConfig.SIMFS_FILE_CONTENT_TYPE
        zeroDirEnt (mounted sampleConfig)) = some .SIMFS_NO_ERROR) ∧
      (mounted sampleConfig).simfsContext.bitvector
        = (mounted sampleConfig).simfsVolume.bitvector ∧
      simfsFindFreeBlock (mounted sampleConfig).simfsVolume.bitvector = .ok 2 ∧
      bitIsSet (withA sampleConfig).simfsVolume.bitvector 2 = true ∧
      bitIsSet (withA sampleConfig).simfsContext.bitvector 2 = false := by decide!
  exact ⟨C27_create_desynchronises sampleConfig (mounted sampleConfig) (withA sampleConfig)
      nameA sampleConfig.SIMFS_FILE_CONTENT_TYPE zeroDirEnt h.1.1 h.2.1
      (eq_ok_of_codeOf h.1.2), h.2⟩

/-! ## C22 -/

/-- C22 (what the code does): for every handle of a slot whose descriptor block is live
and has a content reference other than `SIMFS_INVALID_INDEX` (the file has content),
`simfsWriteFile` returns `SIMFS_NO_ERROR` after copying 14 bytes of the buffer into the
`data` of the block that the content reference names: the block of the previous content
is overwritten in place.  Both bitmaps are the ones before the call (no free block is
taken), and every other block, the descriptor with its content reference, size and
times included when it is not the content block itself, is untouched. -/
theorem C22_write_overwrites_in_place (cfg : Config) (s : State) (h : Nat)
    (e : GlobalOpenFile) (file target : Block) (writeBuffer data : List Nat)
    (hslot : s.simfsContext.globalOpenFileTable[h]? = some e)
    (hfd : e.fileDescriptor ≠ cfg.SIMFS_INVALID_INDEX)
    (hfile : s.simfsVolume.block[e.fileDescriptor]? = some file)
    (htype : file.type ≠ cfg.SIMFS_INVALID_CONTENT_TYPE)
    (hcontent : file.fileDescriptor.block_ref ≠ cfg.SIMFS_INVALID_INDEX)
    (htarget : s.simfsVolume.block[file.fileDescriptor.block_ref]? = some target)
    (hdata : memcpy target.data writeBuffer 14 = .ok data) :
    simfsWriteFile cfg (h : Int) writeBuffer s = .ok (.SIMFS_NO_ERROR,
      { s with simfsVolume :=
          { s.simfsVolume with
            block := s.simfsVolume.block.set file.fileDescriptor.block_ref
              { target with data := data } } }) ∧
    data.take 14 = writeBuffer.take 14 ∧
    (s.simfsVolume.block.set file.fileDescriptor.block_ref
        { target with data := data })[file.fileDescriptor.block_ref]?
      = some { target with data := data } ∧
    ∀ b : Nat, b ≠ file.fileDescriptor.block_ref →
      (s.simfsVolume.block.set file.fileDescriptor.block_ref
        { target with data := data })[b]? = s.simfsVolume.block[b]? := by
  have hlt : file.fileDescriptor.block_ref < s.simfsVolume.block.length :=
    (List.getElem?_eq_some.mp htarget).1
  refine ⟨?_, ?_, getElem?_set_self hlt, ?_⟩
  · simp only [simfsWriteFile, readAtInt_natCast, readAt_of_getElem? hslot, hfd,
      readAt_of_getElem? hfile, htype, acquireBlock, hcontent,
      readAt_of_getElem? htarget, hdata, bind, Except.bind, pure, Except.pure, ↓reduceIte]
  · obtain ⟨-, hlen, hd⟩ := memcpy_ok hdata
    rw [hd, List.take_append_of_le_length (by rw [List.length_take]; omega),
      List.take_take, Nat.min_self]
  · intro b hb
    rw [List.getElem?_set, if_neg (fun hc => hb hc.symm)]

/-- Witness of C22 on the mounted content image: "a" (block 2, size 5) has its content
"hello" in block 3, whose bit is set.  `simfsWriteFile(0, "world")` returns
`SIMFS_NO_ERROR`; afterwards block 3 holds "world", the two bitmaps are as before, and
the descriptor in block 2 still has content reference 3 and size 5. -/
theorem C22_write_overwrites_in_place_witness :
    simfsWriteFile sampleConfig ((0 : Nat) : Int) worldBuffer contentOpened
      = .ok (.SIMFS_NO_ERROR,
        { contentOpened with simfsVolume :=
          { contentOpened.simfsVolume with
            block := contentOpened.simfsVolume.block.set
              (blockOf contentOpened 2).fileDescriptor.block_ref
              { blockOf contentOpened 3 with
                data := worldBuffer.take 14 ++ List.replicate 14 0 } } }) ∧
    (blockOf contentOpened 2).fileDescriptor.block_ref = 3 ∧
    (blockOf contentOpened 2).fileDescriptor.size = 5 ∧
    bitIsSet contentOpened.simfsVolume.bitvector 3 = true ∧
    cString (blockOf contentOpened 3).data = [104, 101, 108, 108, 111] ∧
    cString (blockOf (stateOf (simfsWriteFile sampleConfig 0 worldBuffer contentOpened)) 3).data
      = [119, 111, 114, 108, 100] ∧
    (blockOf (stateOf (simfsWriteFile sampleConfig 0 worldBuffer contentOpened)) 2).fileDescriptor
      = (blockOf contentOpened 2).fileDescriptor ∧
    (stateOf (simfsWriteFile sampleConfig 0 worldBuffer contentOpened)).simfsVolume.bitvector
      = contentOpened.simfsVolume.bitvector := by
  have h : contentOpened.simfsContext.globalOpenFileTable[0]? = some (slotOf contentOpened 0) ∧
      (slotOf contentOpened 0).fileDescriptor ≠ sampleConfig.SIMFS_INVALID_INDEX ∧
      contentOpened.simfsVolume.block[(slotOf contentOpened 0).fileDescriptor]?
        = some (blockOf contentOpened 2) ∧
      (blockOf contentOpened 2).type ≠ sampleConfig.SIMFS_INVALID_CONTENT_TYPE ∧
      (blockOf contentOpened 2).fileDescriptor.block_ref ≠ sampleConfig.SIMFS_INVALID_INDEX ∧
      contentOpened.simfsVolume.block[(blockOf contentOpened 2).fileDescriptor.block_ref]?
        = some (blockOf contentOpened 3) ∧
      memcpy (blockOf contentOpened 3).data worldBuffer 14
        = .ok (worldBuffer.take 14 ++ List.replicate 14 0) := by decide!
  exact ⟨(C22_write_overwrites_in_place sampleConfig contentOpened 0 (slotOf contentOpened 0)
      (blockOf contentOpened 2) (blockOf contentOpened 3) worldBuffer
      (worldBuffer.take 14 ++ List.replicate 14 0)
      h.1 h.2.1 h.2.2.1 h.2.2.2.1 h.2.2.2.2.1 h.2.2.2.2.2.1 h.2.2.2.2.2.2).1,
    by decide!⟩

/-! ## C24 -/

theorem entries_set : ∀ (directory : List Chain) (b : Nat) (old c : Chain),
    directory[b]? = some old →
    entries (directory.set b c) + old.size = entries directory + c.size := by
  intro directory
  induction directory with
  | nil => intro b old c h; simp at h
  | cons x rest ih =>
    intro b old c h
    cases b with
    | zero =>
      simp only [List.getElem?_cons_zero, Option.some.injEq] at h
      subst h
      simp only [entries, List.set_cons_zero, List.map_cons, List.sum_cons]
      omega
    | succ n =>
      simp only [List.getElem?_cons_succ] at h
      have := ih n old c h
      simp only [entries, List.set_cons_succ, List.map_cons, List.sum_cons] at this ⊢
      omega

theorem entries_of_null : ∀ (directory : List Chain), (∀ c ∈ directory, c = Chain.null) →
    entries directory = 0 := by
  intro directory
  induction directory with
  | nil => intro _; rfl
  | cons x rest ih =>
    intro h
    have hx : x = Chain.null := h x (List.mem_cons_self x rest)
    have hr := ih (fun c hc => h c (List.mem_cons_of_mem x hc))
    simp only [entries, List.map_cons, List.sum_cons] at hr ⊢
    rw [hr, hx]
    rfl

theorem emptyIndex_get (j : Nat) : emptyIndex.get j = 0 := by
  unfold Index.get
  split <;> rfl

theorem findEmptyHash_entries {cfg : Config} {fileName : List Nat} {fresh : DirEnt}
    {ctx ctx' : Context} {bucket : Nat}
    (h : findEmptyHash cfg fileName fresh ctx = .ok (ctx', bucket)) :
    entries ctx'.directory = entries ctx.directory + 1 := by
  obtain ⟨-, old, c, hold, hsize, hctx⟩ := findEmptyHash_ok h
  subst hctx
  have := entries_set ctx.directory bucket old c hold
  simp only
  omega

theorem hashSlots_entries (cfg : Config) (vol : Volume) (fresh : Nat → DirEnt)
    (index : Index) (b0 : Block) (hb0 : vol.block[0]? = some b0)
    (htype : b0.type ≠ cfg.SIMFS_INVALID_CONTENT_TYPE) :
    ∀ (todo i : Nat) (acc acc' : Context × Nat),
      (∀ j, i ≤ j → j < i + todo → index.get j = 0) →
      hashSlots cfg vol fresh index todo i acc = .ok acc' →
      entries acc'.1.directory = entries acc.1.directory + todo := by
  intro todo
  induction todo with
  | zero =>
    intro i acc acc' _ h
    simp only [hashSlots] at h
    injection h with h
    rw [h]
    rfl
  | succ n ih =>
    intro i acc acc' hz h
    obtain ⟨ctx, count⟩ := acc
    have hi : index.get i = 0 := hz i (Nat.le_refl i) (by omega)
    simp only [hashSlots, hi, readAt_of_getElem? hb0, bind, Except.bind, htype, ne_eq,
      not_false_eq_true, ↓reduceIte] at h
    cases hf : findEmptyHash cfg b0.fileDescriptor.name (fresh count) ctx with
    | error f => rw [hf] at h; exact absurd h (by simp)
    | ok r =>
      obtain ⟨ctx', bucket⟩ := r
      rw [hf] at h
      have h1 := findEmptyHash_entries hf
      have h2 := ih (i + 1) (ctx', count + 1) acc' (fun j hj1 hj2 => hz j (by omega) (by omega)) h
      simp only at h2 ⊢
      omega

/-- C24 (what the code does): whenever `simfsMountFileSystem` returns `SIMFS_NO_ERROR`
on an image whose root folder has no children (the seven elements of the index it walks
are 0), starting from an empty directory, the directory holds seven entries afterwards,
not none: one for the path of the backing file, and one for each of the six empty slots,
each of which is read as a reference to block 0. -/
theorem C24_mount_adds_entries_without_children (cfg : Config) (simfsFileName : List Nat)
    (image : Volume) (rawPCB : ProcessControlBlock) (fresh : Nat → DirEnt) (ctx : Context)
    (s' : State) (root b0 : Block)
    (hempty : ∀ c ∈ ctx.directory, c = Chain.null)
    (hroot : image.block[image.superblock.rootNodeIndex]? = some root)
    (hchildren : root.index = emptyIndex)
    (hb0 : image.block[0]? = some b0)
    (htype : b0.type ≠ cfg.SIMFS_INVALID_CONTENT_TYPE)
    (hmount : simfsMountFileSystem cfg simfsFileName true (some image) rawPCB fresh
      (some ctx) = .ok (.SIMFS_NO_ERROR, some s')) :
    entries ctx.directory = 0 ∧ entries s'.simfsContext.directory = 7 := by
  have h0 := entries_of_null ctx.directory hempty
  refine ⟨h0, ?_⟩
  simp only [simfsMountFileSystem, Bool.not_true, ↓reduceIte, bind_eq_ok, pure_eq_ok,
    Prod.mk.injEq, Option.some.injEq, true_and, Prod.exists, not_true_eq_false,
    Bool.false_eq_true] at hmount
  obtain ⟨ctx2, bucket, hhash, list, hlist, bits, -, ctx4, n, hrec, hs'⟩ := hmount
  subst hs'
  have h1 := findEmptyHash_entries hhash
  have h2 := entries_set ctx2.directory bucket list
    (Chain.updateLast (fun e => { e with
      uniqueFileIdentifier := image.superblock.nextUniqueIdentifier
      nodeReference := image.superblock.rootNodeIndex }) list) (readAt_ok hlist)
  rw [updateLast_size] at h2
  unfold recursiveHashing at hrec
  simp only [readAt_of_getElem? hroot, bind, Except.bind] at hrec
  split at hrec
  · exact absurd hrec (by simp)
  · next acc' hslots =>
    have h3 := hashSlots_entries cfg
      { image with superblock :=
          { image.superblock with
            nextUniqueIdentifier := (image.superblock.nextUniqueIdentifier + 1) % 2 ^ 64 } }
      fresh root.index b0 hb0 htype 6 0 _ acc'
      (fun j _ _ => by rw [hchildren]; exact emptyIndex_get j) hslots
    have h6 : root.index.get 6 = 0 := by rw [hchildren]; exact emptyIndex_get 6
    rw [if_pos h6] at hrec
    simp only [pure, Except.pure, Except.ok.injEq] at hrec
    rw [hrec] at h3
    simp only at h1 h2 h3 ⊢
    omega

/-- Witness of C24 in the sample run: the root of the volume written by
`simfsCreateFileSystem` has no children and the directory is empty; after
`simfsMountFileSystem` the directory holds seven entries, six in bucket `hash("/")` = 10
and one in bucket `hash("simfsFile.dta")` = 30.  On the folder image, whose root lists
the folder "d" (block 2, identifier 1), the entry in bucket `hash("d")` = 1 has
`nodeReference` 0 and `uniqueFileIdentifier` -1. -/
theorem C24_mount_adds_entries_without_children_witness :
    (entries (created sampleConfig).simfsContext.directory = 0 ∧
      entries (mounted sampleConfig).simfsContext.directory = 7) ∧
    (mounted sampleConfig).simfsContext.directory.map Chain.size
      = List.replicate 10 0 ++ [6] ++ List.replicate 19 0 ++ [1] ++ List.replicate 33 0 ∧
    hash sampleConfig [47] = 10 ∧ hash sampleConfig simfsFileName = 30 ∧
    hash sampleConfig nameD = 1 ∧
    (blockOf folderMounted 0).index.get 0 = 2 ∧
    (blockOf folderMounted 2).fileDescriptor.identifier = 1 ∧
    folderMounted.simfsContext.directory[1]?
      = some (.node { nodeReference := 0, uniqueFileIdentifier := -1,
                      globalOpenFileTableIndex := -1 } .null) := by
  have h : ((∀ c ∈ (created sampleConfig).simfsContext.directory, c = Chain.null) ∧
      (created sampleConfig).simfsVolume.block[
          (created sampleConfig).simfsVolume.superblock.rootNodeIndex]?
        = some (blockOf (created sampleConfig) 0) ∧
      (blockOf (created sampleConfig) 0).index = emptyIndex ∧
      (created sampleConfig).simfsVolume.block[0]? = some (blockOf (created sampleConfig) 0) ∧
      (blockOf (created sampleConfig) 0).type ≠ sampleConfig.SIMFS_INVALID_CONTENT_TYPE ∧
      succeeded (mountedState sampleConfig) = true) ∧
      (mounted sampleConfig).simfsContext.directory.map Chain.size
        = List.replicate 10 0 ++ [6] ++ List.replicate 19 0 ++ [1] ++ List.replicate 33 0 ∧
      hash sampleConfig [47] = 10 ∧ hash sampleConfig simfsFileName = 30 ∧
      hash sampleConfig nameD = 1 ∧
      (blockOf folderMounted 0).index.get 0 = 2 ∧
      (blockOf folderMounted 2).fileDescriptor.identifier = 1 ∧
      folderMounted.simfsContext.directory[1]?
        = some (.node { nodeReference := 0, uniqueFileIdentifier := -1,
                        globalOpenFileTableIndex := -1 } .null) := by decide!
  exact ⟨C24_mount_adds_entries_without_children sampleConfig simfsFileName
      (created sampleConfig).simfsVolume zeroPCB (fun _ => zeroDirEnt)
      (created sampleConfig).simfsContext (mounted sampleConfig)
      (blockOf (created sampleConfig) 0) (blockOf (created sampleConfig) 0)
      h.1.1 h.1.2.1 h.1.2.2.1 h.1.2.2.2.1 h.1.2.2.2.2.1 (eq_ok_of_succeeded h.1.2.2.2.2.2),
    h.2⟩

/-! ## C26 -/

theorem findSlot_eq_find (cfg : Config) (vol : Volume) (fileName : List Nat) (index : Index)
    (hrange : ∀ j < 6, index.get j < vol.block.length) :
    ∀ (todo j : Nat), j + todo ≤ 6 →
      findSlot cfg vol fileName index todo j
        = .ok ((List.range' j todo).find? (slotMatches cfg vol fileName index)) := by
  intro todo
  induction todo with
  | zero => intro j _; rfl
  | succ n ih =>
    intro j hj
    have hlt := hrange j (by omega)
    have hget := List.getElem?_eq_getElem hlt
    unfold findSlot
    rw [List.range'_succ, List.find?_cons]
    by_cases h0 : index.get j ≠ 0
    · rw [if_pos h0]
      simp only [readAt_of_getElem? hget, bind, Except.bind]
      by_cases hc : (vol.block[index.get j].type = cfg.SIMFS_FOLDER_CONTENT_TYPE
          ∨ vol.block[index.get j].type = cfg.SIMFS_FILE_CONTENT_TYPE)
          ∧ vol.block[index.get j].fileDescriptor.name = fileName
      · rw [if_pos hc]
        have hm : slotMatches cfg vol fileName index j = true := by
          simp [slotMatches, hget, h0, hc]
        rw [hm]
        rfl
      · rw [if_neg hc]
        have hm : slotMatches cfg vol fileName index j = false := by
          simp [slotMatches, hget, hc]
        rw [hm]
        exact ih (j + 1) (by omega)
    · rw [if_neg h0]
      have hm : slotMatches cfg vol fileName index j = false := by
        simp only [ne_eq, Decidable.not_not] at h0
        simp [slotMatches, h0]
      rw [hm]
      exact ih (j + 1) (by omega)

theorem isChain_single {vol : Volume} {n : Nat} (h : isChain vol [n] = true) :
    ∃ b, vol.block[n]? = some b ∧ b.index.get 6 = 0 := by
  unfold isChain at h
  split at h
  · next b hb => exact ⟨b, hb, by simpa using h⟩
  · exact absurd h (by decide)

theorem isChain_cons {vol : Volume} {n m : Nat} {rest : List Nat}
    (h : isChain vol (n :: m :: rest) = true) :
    ∃ b, vol.block[n]? = some b ∧ b.index.get 6 ≠ 0 ∧ b.index.get 6 = m ∧
      isChain vol (m :: rest) = true := by
  unfold isChain at h
  split at h
  · next b hb =>
    simp only [Bool.and_eq_true, bne_iff_ne, ne_eq, beq_iff_eq] at h
    exact ⟨b, hb, h.1.1, h.1.2, h.2⟩
  · exact absurd h (by decide)

theorem isChain_head_lt {vol : Volume} {n : Nat} {rest : List Nat}
    (h : isChain vol (n :: rest) = true) : n < vol.block.length := by
  cases rest with
  | nil =>
    obtain ⟨b, hb, -⟩ := isChain_single h
    exact (List.getElem?_eq_some.mp hb).1
  | cons m rest =>
    obtain ⟨b, hb, -⟩ := isChain_cons h
    exact (List.getElem?_eq_some.mp hb).1

theorem isChain_suffix {vol : Volume} : ∀ (pre : List Nat) (x : Nat) (suf : List Nat),
    isChain vol (pre ++ x :: suf) = true → isChain vol (x :: suf) = true := by
  intro pre
  induction pre with
  | nil => intro x suf h; exact h
  | cons p pre ih =>
    intro x suf h
    cases pre with
    | nil =>
      obtain ⟨b, -, -, -, h'⟩ := isChain_cons (show isChain vol (p :: x :: suf) = true from h)
      exact h'
    | cons q pre =>
      obtain ⟨b, -, -, -, h'⟩ :=
        isChain_cons (show isChain vol (p :: q :: (pre ++ x :: suf)) = true from h)
      exact ih x suf h'

theorem isChain_det {vol : Volume} : ∀ (l1 l2 : List Nat) (a : Nat),
    isChain vol (a :: l1) = true → isChain vol (a :: l2) = true → l1 = l2 := by
  intro l1
  induction l1 with
  | nil =>
    intro l2 a h1 h2
    cases l2 with
    | nil => rfl
    | cons m l2 =>
      obtain ⟨b, hb, h0⟩ := isChain_single h1
      obtain ⟨b', hb', hne, -⟩ := isChain_cons h2
      rw [hb] at hb'
      injection hb' with hb'
      subst hb'
      exact absurd h0 hne
  | cons m l1 ih =>
    intro l2 a h1 h2
    obtain ⟨b, hb, hne, hm, hrest⟩ := isChain_cons h1
    cases l2 with
    | nil =>
      obtain ⟨b', hb', h0⟩ := isChain_single h2
      rw [hb] at hb'
      injection hb' with hb'
      subst hb'
      exact absurd h0 hne
    | cons m' l2 =>
      obtain ⟨b', hb', -, hm', hrest'⟩ := isChain_cons h2
      rw [hb] at hb'
      injection hb' with hb'
      subst hb'
      have hmm : m = m' := hm.symm.trans hm'
      subst hmm
      rw [ih l2 m hrest hrest']

theorem isChain_nodup {vol : Volume} : ∀ (nodes : List Nat),
    isChain vol nodes = true → nodes.Nodup := by
  intro nodes
  induction nodes with
  | nil => intro _; exact List.nodup_nil
  | cons n rest ih =>
    intro h
    have hrest : rest.Nodup := by
      cases rest with
      | nil => exact List.nodup_nil
      | cons m rest =>
        obtain ⟨b, -, -, -, h'⟩ := isChain_cons h
        exact ih h'
    refine List.nodup_cons.mpr ⟨?_, hrest⟩
    intro hmem
    obtain ⟨pre, suf, hsplit⟩ := List.append_of_mem hmem
    have h1 : isChain vol (n :: suf) = true := by
      apply isChain_suffix (n :: pre) n suf
      rw [List.cons_append, ← hsplit]
      exact h
    have heq := isChain_det rest suf n h h1
    have hlen := congrArg List.length hsplit
    rw [heq] at hlen
    simp only [List.length_append, List.length_cons] at hlen
    omega

theorem isChain_length_le {vol : Volume} (nodes : List Nat)
    (h : isChain vol nodes = true) : nodes.length ≤ vol.block.length := by
  have hnd := isChain_nodup nodes h
  have hall : ∀ n ∈ nodes, n < vol.block.length := by
    intro n hn
    obtain ⟨pre, suf, hsplit⟩ := List.append_of_mem hn
    rw [hsplit] at h
    exact isChain_head_lt (isChain_suffix pre n suf h)
  calc nodes.length = nodes.toFinset.card := (List.toFinset_card_of_nodup hnd).symm
    _ ≤ (Finset.range vol.block.length).card :=
        Finset.card_le_card (fun x hx => Finset.mem_range.mpr (hall x (List.mem_toFinset.mp hx)))
    _ = vol.block.length := Finset.card_range _

theorem findFileFrom_eq_firstMatch (cfg : Config) (vol : Volume) (fileName : List Nat) :
    ∀ (rest : List Nat) (n fuel : Nat), isChain vol (n :: rest) = true →
      (∀ k ∈ n :: rest, ∀ b, vol.block[k]? = some b →
        ∀ j < 6, b.index.get j < vol.block.length) →
      (n :: rest).length ≤ fuel →
      findFileFrom cfg vol fileName fuel n = .ok (firstMatch cfg vol fileName (n :: rest)) := by
  intro rest
  induction rest with
  | nil =>
    intro n fuel h hrange hfuel
    obtain ⟨b, hb, h0⟩ := isChain_single h
    cases fuel with
    | zero => simp at hfuel
    | succ fuel =>
      have hs := findSlot_eq_find cfg vol fileName b.index
        (hrange n (List.mem_cons_self n []) b hb) 6 0 (by omega)
      simp only [findFileFrom, readAt_of_getElem? hb, hs, bind, Except.bind, firstMatch, hb]
      cases (List.range' 0 6).find? (slotMatches cfg vol fileName b.index) with
      | some j => rfl
      | none => simp [h0, pure, Except.pure]
  | cons m rest ih =>
    intro n fuel h hrange hfuel
    obtain ⟨b, hb, hne, hm, hrest⟩ := isChain_cons h
    cases fuel with
    | zero => simp at hfuel
    | succ fuel =>
      have hs := findSlot_eq_find cfg vol fileName b.index
        (hrange n (List.mem_cons_self n _) b hb) 6 0 (by omega)
      have hrec := ih m fuel hrest
        (fun k hk => hrange k (List.mem_cons_of_mem n hk))
        (by simp only [List.length_cons] at hfuel ⊢; omega)
      rw [firstMatch]
      simp only [findFileFrom, readAt_of_getElem? hb, hs, bind, Except.bind, hb]
      cases (List.range' 0 6).find? (slotMatches cfg vol fileName b.index) with
      | some j => rfl
      | none =>
        have hne' : ¬ m = 0 := hm ▸ hne
        simp only [hm, ne_eq, hne', not_false_eq_true, ↓reduceIte]
        exact hrec

theorem find_range_none {p : Nat → Bool} :
    (List.range' 0 6).find? p = none ↔ ∀ j < 6, p j = false := by
  rw [List.find?_eq_none]
  constructor
  · intro h j hj
    have := h j (by simp [List.mem_range']; omega)
    simpa using this
  · intro h x hx
    have hx' : x < 6 := by simp [List.mem_range'] at hx; omega
    simp [h x hx']

theorem firstMatch_none_iff (cfg : Config) (vol : Volume) (fileName : List Nat) :
    ∀ (nodes : List Nat), (∀ n ∈ nodes, n < vol.block.length) →
      (firstMatch cfg vol fileName nodes = none ↔
        ∀ n ∈ nodes, ∀ b, vol.block[n]? = some b →
          ∀ j < 6, slotMatches cfg vol fileName b.index j = false) := by
  intro nodes
  induction nodes with
  | nil => intro _; simp [firstMatch]
  | cons n rest ih =>
    intro hall
    obtain ⟨bn, hn⟩ : ∃ bn, vol.block[n]? = some bn :=
      ⟨_, List.getElem?_eq_getElem (hall n (List.mem_cons_self n rest))⟩
    have ih' := ih (fun k hk => hall k (List.mem_cons_of_mem n hk))
    rw [firstMatch]
    simp only [hn]
    cases hf : (List.range' 0 6).find? (slotMatches cfg vol fileName bn.index) with
    | some j =>
      simp only [false_iff, reduceCtorEq]
      intro hcontra
      have := find_range_none.mpr (hcontra n (List.mem_cons_self n rest) _ hn)
      rw [hf] at this
      exact absurd this (by simp)
    | none =>
      simp only
      rw [ih']
      have hnone := find_range_none.mp hf
      constructor
      · intro h k hk b hb
        rcases List.mem_cons.mp hk with hkn | hk'
        · subst hkn
          rw [hn] at hb
          injection hb with hb
          subst hb
          exact hnone
        · exact h k hk' b hb
      · intro h k hk b hb
        exact h k (List.mem_cons_of_mem n hk) b hb

/-- C26 (what the code does): `findFile` walks the chain that starts at the `index`
member of the block of the current directory itself, not at the block that the
descriptor's content reference names.  Whenever the nodes from that block on form a
finite chain (linked through `index[6]`, ending at continuation 0) and every slot of
these nodes refers to a block of the volume, `findFile` terminates and returns the first
(node, slot) in chain order whose slot is not 0 and refers to a file or folder
descriptor with the name sought; it returns `NULL` exactly when no slot of the chain
does. -/
theorem C26_findFile_walks_own_index (cfg : Config) (s : State) (fileName : List Nat)
    (pcb : ProcessControlBlock) (others : List ProcessControlBlock) (tail : List Nat)
    (hpcb : s.simfsContext.processControlBlocks = pcb :: others)
    (hchain : isChain s.simfsVolume (pcb.currentWorkingDirectory :: tail) = true)
    (hrange : ∀ k ∈ pcb.currentWorkingDirectory :: tail, ∀ b ∈ s.simfsVolume.block[k]?,
      ∀ j < 6, b.index.get j < s.simfsVolume.block.length) :
    findFile cfg s fileName
      = .ok (firstMatch cfg s.simfsVolume fileName (pcb.currentWorkingDirectory :: tail)) ∧
    (findFile cfg s fileName = .ok none ↔
      ∀ n ∈ pcb.currentWorkingDirectory :: tail, ∀ b, s.simfsVolume.block[n]? = some b →
        ∀ j < 6, slotMatches cfg s.simfsVolume fileName b.index j = false) := by
  have hlen := isChain_length_le _ hchain
  have hfind : findFile cfg s fileName
      = .ok (firstMatch cfg s.simfsVolume fileName (pcb.currentWorkingDirectory :: tail)) := by
    simp only [findFile, hpcb]
    exact findFileFrom_eq_firstMatch cfg s.simfsVolume fileName tail
      pcb.currentWorkingDirectory _ hchain
      (fun k hk b hb => hrange k hk b (Option.mem_def.mpr hb)) (by omega)
  have hall : ∀ n ∈ pcb.currentWorkingDirectory :: tail, n < s.simfsVolume.block.length := by
    intro n hn
    obtain ⟨pre, suf, hsplit⟩ := List.append_of_mem hn
    rw [hsplit] at hchain
    exact isChain_head_lt (isChain_suffix pre n suf hchain)
  refine ⟨hfind, ?_⟩
  rw [hfind, ← firstMatch_none_iff cfg s.simfsVolume fileName _ hall]
  constructor
  · intro h
    injection h
  · intro h
    rw [h]

/-- Witness of C26 in the sample run: after "a" has been created the current directory
is the root, block 0, whose own index has slot 0 = 2 and continuation 0, and `findFile`
returns (block 0, slot 0).  The content reference of the root names block 1, whose chain
[1] has no slot that matches "a". -/
theorem C26_findFile_walks_own_index_witness :
    (findFile sampleConfig (withA sampleConfig) nameA
        = .ok (firstMatch sampleConfig (withA sampleConfig).simfsVolume nameA
            (zeroPCB.currentWorkingDirectory :: [])) ∧
      (findFile sampleConfig (withA sampleConfig) nameA = .ok none ↔
        ∀ n ∈ zeroPCB.currentWorkingDirectory :: [], ∀ b,
          (withA sampleConfig).simfsVolume.block[n]? = some b →
          ∀ j < 6, slotMatches sampleConfig (withA sampleConfig).simfsVolume nameA b.index j
            = false)) ∧
    findFile sampleConfig (withA sampleConfig) nameA = .ok (some { index := 0, number := 0 }) ∧
    (blockOf (withA sampleConfig) 0).fileDescriptor.block_ref = 1 ∧
    isChain (withA sampleConfig).simfsVolume [1] = true ∧
    firstMatch sampleConfig (withA sampleConfig).simfsVolume nameA [1] = none := by
  have h : ((withA sampleConfig).simfsContext.processControlBlocks = zeroPCB :: [] ∧
      isChain (withA sampleConfig).simfsVolume (zeroPCB.currentWorkingDirectory :: []) = true ∧
      (∀ k ∈ zeroPCB.currentWorkingDirectory :: [],
        ∀ b ∈ (withA sampleConfig).simfsVolume.block[k]?,
        ∀ j < 6, b.index.get j < (withA sampleConfig).simfsVolume.block.length)) ∧
      findFile sampleConfig (withA sampleConfig) nameA
        = .ok (some { index := 0, number := 0 }) ∧
      (blockOf (withA sampleConfig) 0).fileDescriptor.block_ref = 1 ∧
      isChain (withA sampleConfig).simfsVolume [1] = true ∧
      firstMatch sampleConfig (withA sampleConfig).simfsVolume nameA [1] = none := by decide!
  exact ⟨C26_findFile_walks_own_index sampleConfig (withA sampleConfig) nameA zeroPCB [] []
      h.1.1 h.1.2.1 h.1.2.2, h.2⟩


/-! ## C12: a folder that is not empty -/

/-- C12 (what the code does): when the name resolves to a descriptor whose content
reference names a block tagged as index block in which one of `index[0]` .. `index[6]`
is not 0, `simfsDeleteFile` returns `SIMFS_NOT_EMPTY_ERROR` and the whole state (volume
blocks, both bitmaps, directory) is the one before the call.  No call of
`simfsDeleteFile`, whatever its name and its result, changes an element of that index
block: the slot is still not 0 after it. -/
theorem C12_non_empty_folder_stays (cfg : Config) (s : State) (fileName : List Nat)
    (ip : ffret) (node descriptor block : Block) (i : Nat)
    (hfind : findFile cfg s fileName = .ok (some ip))
    (hnode : s.simfsVolume.block[ip.index]? = some node)
    (hdesc : s.simfsVolume.block[node.index.get ip.number]? = some descriptor)
    (hblock : s.simfsVolume.block[descriptor.fileDescriptor.block_ref]? = some block)
    (htype : block.type = cfg.SIMFS_INDEX_CONTENT_TYPE)
    (hi : i < 7) (hused : block.index.get i ≠ 0) :
    simfsDeleteFile cfg fileName s = .ok (.SIMFS_NOT_EMPTY_ERROR, s) ∧
    ∀ (other : List Nat) (e : SIMFS_ERROR) (s' : State),
      simfsDeleteFile cfg other s = .ok (e, s') →
      ∃ block', s'.simfsVolume.block[descriptor.fileDescriptor.block_ref]? = some block' ∧
        block'.index = block.index ∧ block'.index.get i ≠ 0 := by
  have hu := someSlotUsed_of_exists block.index 7 0 i (by omega) (by omega) hused
  constructor
  · simp only [simfsDeleteFile, hfind, readAt_of_getElem? hnode, readAt_of_getElem? hdesc,
      readAt_of_getElem? hblock, htype, hu, bind, Except.bind, pure, Except.pure, if_true]
  · intro other e s' hdel
    have hidx := simfsDeleteFile_index hdel descriptor.fileDescriptor.block_ref
    rw [hblock] at hidx
    cases hb' : s'.simfsVolume.block[descriptor.fileDescriptor.block_ref]? with
    | none => rw [hb'] at hidx; simp at hidx
    | some block' =>
      rw [hb'] at hidx
      simp only [Option.map_some', Option.some.injEq] at hidx
      exact ⟨block', rfl, hidx, by rw [hidx]; exact hused⟩

/-- Witness of C12 on the mounted folder image: "d" resolves to block 2, whose content
reference names the index block 3, whose slot 0 is 4, the block of "f".
`simfsDeleteFile("d")` returns `SIMFS_NOT_EMPTY_ERROR` and leaves the state as it was;
`simfsDeleteFile("f")` returns `SIMFS_NOT_FOUND_ERROR` while the current directory is the
root.  Once the current directory is block 3 (`folderStray`), `simfsDeleteFile("f")`
returns `SIMFS_NO_ERROR` and tags block 4 invalid, and slot 0 of block 3 still holds 4;
`simfsDeleteFile("d")` then returns `SIMFS_NOT_FOUND_ERROR`. -/
theorem C12_non_empty_folder_stays_witness :
    (simfsDeleteFile sampleConfig nameD folderMounted
        = .ok (.SIMFS_NOT_EMPTY_ERROR, folderMounted) ∧
      ∀ (other : List Nat) (e : SIMFS_ERROR) (s' : State),
        simfsDeleteFile sampleConfig other folderMounted = .ok (e, s') →
        ∃ block', s'.simfsVolume.block[(blockOf folderMounted 2).fileDescriptor.block_ref]?
            = some block' ∧
          block'.index = (blockOf folderMounted 3).index ∧ block'.index.get 0 ≠ 0) ∧
    (blockOf folderMounted 2).fileDescriptor.block_ref = 3 ∧
    (blockOf folderMounted 3).index.get 0 = 4 ∧
    codeOf (simfsDeleteFile sampleConfig nameF folderMounted) = some .SIMFS_NOT_FOUND_ERROR ∧
    folderStray.simfsContext.processControlBlocks.map (fun p => p.currentWorkingDirectory)
      = [3, 0] ∧
    codeOf (simfsDeleteFile sampleConfig nameF folderStray) = some .SIMFS_NO_ERROR ∧
    (blockOf (stateOf (simfsDeleteFile sampleConfig nameF folderStray)) 4).type
      = sampleConfig.SIMFS_INVALID_CONTENT_TYPE ∧
    (blockOf (stateOf (simfsDeleteFile sampleConfig nameF folderStray)) 3).index.get 0 = 4 ∧
    codeOf (simfsDeleteFile sampleConfig nameD
      (stateOf (simfsDeleteFile sampleConfig nameF folderStray)))
      = some .SIMFS_NOT_FOUND_ERROR := by
  have h : (findFile sampleConfig folderMounted nameD = .ok (some { index := 0, number := 0 }) ∧
      folderMounted.simfsVolume.block[({ index := 0, number := 0 } : ffret).index]?
        = some (blockOf folderMounted 0) ∧
      folderMounted.simfsVolume.block[
          (blockOf folderMounted 0).index.get ({ index := 0, number := 0 } : ffret).number]?
        = some (blockOf folderMounted 2) ∧
      folderMounted.simfsVolume.block[(blockOf folderMounted 2).fileDescriptor.block_ref]?
        = some (blockOf folderMounted 3) ∧
      (blockOf folderMounted 3).type = sampleConfig.SIMFS_INDEX_CONTENT_TYPE ∧
      (blockOf folderMounted 3).index.get 0 ≠ 0) ∧
      (blockOf folderMounted 2).fileDescriptor.block_ref = 3 ∧
      (blockOf folderMounted 3).index.get 0 = 4 ∧
      codeOf (simfsDeleteFile sampleConfig nameF folderMounted)
        = some .SIMFS_NOT_FOUND_ERROR ∧
      folderStray.simfsContext.processControlBlocks.map (fun p => p.currentWorkingDirectory)
        = [3, 0] ∧
      codeOf (simfsDeleteFile sampleConfig nameF folderStray) = some .SIMFS_NO_ERROR ∧
      (blockOf (stateOf (simfsDeleteFile sampleConfig nameF folderStray)) 4).type
        = sampleConfig.SIMFS_INVALID_CONTENT_TYPE ∧
      (blockOf (stateOf (simfsDeleteFile sampleConfig nameF folderStray)) 3).index.get 0 = 4 ∧
      codeOf (simfsDeleteFile sampleConfig nameD
        (stateOf (simfsDeleteFile sampleConfig nameF folderStray)))
        = some .SIMFS_NOT_FOUND_ERROR := by decide!
  exact ⟨C12_non_empty_folder_stays sampleConfig folderMounted nameD
      { index := 0, number := 0 } (blockOf folderMounted 0) (blockOf folderMounted 2)
      (blockOf folderMounted 3) 0 h.1.1 h.1.2.1 h.1.2.2.1 h.1.2.2.2.1 h.1.2.2.2.2.1
      (by decide) h.1.2.2.2.2.2,
    h.2⟩

/-! ## C18, C19: opening a file that is open, and a full table -/

/-- C18 (what the code does): whenever the name resolves to the descriptor block `d` and
the first node of `directory[d]` carries the index `k` of a slot, other than
`SIMFS_INVALID_OPEN_FILE_TABLE_INDEX` (the test of line 567), `simfsOpenFile(name, &h)`
returns `SIMFS_DUPLICATE_ERROR` with `h = k` and raises the count of slot `k` by one,
nothing else changing in table, directory and volume.  It also changes the list of
process control blocks: when the head already carries a table index, a newly allocated
block becomes the head, of which only `numberOfOpenFiles` is touched; the current working
directory of the process is from then on what the allocation held. -/
theorem C18_open_again_installs_raw_pcb (cfg : Config) (s : State) (fileName : List Nat)
    (fileHandle : Int) (rawNode : DirEnt) (rawPCB : ProcessControlBlock) (ff : ffret)
    (node : Block) (e : DirEnt) (next : Chain) (k : Nat) (g : GlobalOpenFile)
    (pcb : ProcessControlBlock) (rest : List ProcessControlBlock)
    (hfind : findFile cfg s fileName = .ok (some ff))
    (hnode : s.simfsVolume.block[ff.index]? = some node)
    (hentry : s.simfsContext.directory[node.index.get ff.number]? = some (.node e next))
    (hlink : e.globalOpenFileTableIndex = (k : Int))
    (hlive : (k : Int) ≠ cfg.SIMFS_INVALID_OPEN_FILE_TABLE_INDEX)
    (hslot : s.simfsContext.globalOpenFileTable[k]? = some g)
    (hpcb : s.simfsContext.processControlBlocks = pcb :: rest) :
    simfsOpenFile cfg fileName fileHandle rawNode rawPCB s
      = .ok (.SIMFS_DUPLICATE_ERROR,
          { s with simfsContext :=
            { s.simfsContext with
              globalOpenFileTable := s.simfsContext.globalOpenFileTable.set k
                { g with referenceCount := g.referenceCount + 1 }
              processControlBlocks :=
                if pcb.openFileTable = cfg.SIMFS_INVALID_OPEN_FILE_TABLE_INDEX then
                  { pcb with openFileTable := (k : Int), numberOfOpenFiles := 1 } :: rest
                else
                  { rawPCB with numberOfOpenFiles := rawPCB.numberOfOpenFiles + 1 }
                    :: pcb :: rest } },
          (k : Int)) := by
  simp only [simfsOpenFile, hfind, readAt_of_getElem? hnode, readAt_of_getElem? hentry,
    cachedSlot, hlink, hlive, ne_eq, not_false_eq_true, ↓reduceIte, modifyAtInt_natCast,
    modifyAt_of_getElem? _ hslot, hpcb, bind, Except.bind, pure, Except.pure]

/-- Witness of C18 in the sample run: "a" is open on slot 0 with count 1.  A second
`simfsOpenFile("a", &h)`, for which the allocation of the process control block holds a
current working directory of 3, returns `SIMFS_DUPLICATE_ERROR` with `h = 0` and count
2.  Slot 0 is then live and caches block 2, the descriptor of "a", yet a third
`simfsOpenFile("a", &h)` returns `SIMFS_NOT_FOUND_ERROR` and leaves the count at 2 and
`h` as it was. -/
theorem C18_open_again_installs_raw_pcb_witness :
    openAgainStray sampleConfig
      = .ok (.SIMFS_DUPLICATE_ERROR,
          { opened sampleConfig with simfsContext :=
            { (opened sampleConfig).simfsContext with
              globalOpenFileTable := (opened sampleConfig).simfsContext.globalOpenFileTable.set 0
                { slotOf (opened sampleConfig) 0 with
                  referenceCount := (slotOf (opened sampleConfig) 0).referenceCount + 1 }
              processControlBlocks :=
                if zeroPCB.openFileTable = sampleConfig.SIMFS_INVALID_OPEN_FILE_TABLE_INDEX then
                  { zeroPCB with openFileTable := ((0 : Nat) : Int), numberOfOpenFiles := 1 }
                    :: []
                else
                  { strayPCB with numberOfOpenFiles := strayPCB.numberOfOpenFiles + 1 }
                    :: zeroPCB :: [] } },
          ((0 : Nat) : Int)) ∧
    (slotOf (opened sampleConfig) 0).referenceCount = 1 ∧
    (openedTwiceStray sampleConfig).simfsContext.processControlBlocks.map
      (fun p => p.currentWorkingDirectory) = [3, 0] ∧
    (slotOf (openedTwiceStray sampleConfig) 0).referenceCount = 2 ∧
    (slotOf (openedTwiceStray sampleConfig) 0).fileDescriptor = 2 ∧
    (slotOf (openedTwiceStray sampleConfig) 0).type = sampleConfig.SIMFS_FILE_CONTENT_TYPE ∧
    (blockOf (openedTwiceStray sampleConfig) 2).fileDescriptor.name = nameA ∧
    codeOf (simfsOpenFile sampleConfig nameA (-1) zeroDirEnt zeroPCB
      (openedTwiceStray sampleConfig)) = some .SIMFS_NOT_FOUND_ERROR ∧
    (slotOf (openedOf (simfsOpenFile sampleConfig nameA (-1) zeroDirEnt zeroPCB
      (openedTwiceStray sampleConfig))).1 0).referenceCount = 2 ∧
    (openedOf (simfsOpenFile sampleConfig nameA (-1) zeroDirEnt zeroPCB
      (openedTwiceStray sampleConfig))).2 = -1 := by
  have h : (findFile sampleConfig (opened sampleConfig) nameA
        = .ok (some { index := 0, number := 0 }) ∧
      (opened sampleConfig).simfsVolume.block[({ index := 0, number := 0 } : ffret).index]?
        = some (blockOf (opened sampleConfig) 0) ∧
      (opened sampleConfig).simfsContext.directory[
          (blockOf (opened sampleConfig) 0).index.get ({ index := 0, number := 0 } : ffret).number]?
        = some (.node { zeroDirEnt with globalOpenFileTableIndex := 0 } .wild) ∧
      (opened sampleConfig).simfsContext.globalOpenFileTable[0]?
        = some (slotOf (opened sampleConfig) 0) ∧
      (opened sampleConfig).simfsContext.processControlBlocks = zeroPCB :: []) ∧
      (slotOf (opened sampleConfig) 0).referenceCount = 1 ∧
      (openedTwiceStray sampleConfig).simfsContext.processControlBlocks.map
        (fun p => p.currentWorkingDirectory) = [3, 0] ∧
      (slotOf (openedTwiceStray sampleConfig) 0).referenceCount = 2 ∧
      (slotOf (openedTwiceStray sampleConfig) 0).fileDescriptor = 2 ∧
      (slotOf (openedTwiceStray sampleConfig) 0).type = sampleConfig.SIMFS_FILE_CONTENT_TYPE ∧
      (blockOf (openedTwiceStray sampleConfig) 2).fileDescriptor.name = nameA ∧
      codeOf (simfsOpenFile sampleConfig nameA (-1) zeroDirEnt zeroPCB
        (openedTwiceStray sampleConfig)) = some .SIMFS_NOT_FOUND_ERROR ∧
      (slotOf (openedOf (simfsOpenFile sampleConfig nameA (-1) zeroDirEnt zeroPCB
        (openedTwiceStray sampleConfig))).1 0).referenceCount = 2 ∧
      (openedOf (simfsOpenFile sampleConfig nameA (-1) zeroDirEnt zeroPCB
        (openedTwiceStray sampleConfig))).2 = -1 := by decide!
  exact ⟨C18_open_again_installs_raw_pcb sampleConfig (opened sampleConfig) nameA (-1)
      zeroDirEnt strayPCB { index := 0, number := 0 } (blockOf (opened sampleConfig) 0)
      { zeroDirEnt with globalOpenFileTableIndex := 0 } .wild 0
      (slotOf (opened sampleConfig) 0) zeroPCB []
      h.1.1 h.1.2.1 h.1.2.2.1 (by decide) (by decide) h.1.2.2.2.1 h.1.2.2.2.2,
    h.2⟩

/-- C25 (what the code does): `simfsUmountFileSystem` writes the in-memory volume to the
backing file and frees `simfsContext` without resetting the pointer.  The
`simfsMountFileSystem` that follows, on the image written, does not yield a volume: the
pointer is not `NULL`, so the call goes on and stores through it into freed storage.
This holds for every state, name and allocation. -/
theorem C25_round_trip_uses_freed_context (cfg : Config) (s : State)
    (simfsFileName : List Nat) (rawPCB : ProcessControlBlock) (fresh : Nat → DirEnt) :
    simfsUmountFileSystem true s = (.SIMFS_NO_ERROR, some s.simfsVolume, .freed) ∧
    simfsMountFileSystemAt cfg simfsFileName true (simfsUmountFileSystem true s).2.1
      rawPCB fresh (simfsUmountFileSystem true s).2.2 = .error .undefinedBehaviour :=
  ⟨rfl, rfl⟩


end Simfs
